import Mathlib

/-!
The package loancalc: amortization schedules and the repayment waterfall

A shallow embedding of the Go package `loancalc` (files `types.go`, `errors.go`,
`config.go`, `daycount.go`, `roll.go`, `module.go`, `schedule.go`, `repayment.go`)
followed by theorems about it.

Conventions of the embedding

* `decimal.Decimal` (package shopspring/decimal) is an exact base-10 number; it is
  modelled by its rational value.  `Add`, `Sub`, `Mul` are exact, `Div` rounds the
  quotient to 16 fractional digits (the package default `DivisionPrecision`).
* Go methods with a pointer receiver that mutate the receiver return the new
  receiver next to their result.
* A Go runtime panic (division by zero, index out of range) or a loop that does
  not finish is the value `none`.
* `time.Time` is a civil day number (days since 1970-01-01) in a location without
  clock changes; the time of day is preserved by every operation used here and is
  therefore not represented.
-/

namespace Loancalc

/-! ## decimal.Decimal -/

/-- A value of Go type `decimal.Decimal`.  `zeroVar` is a copy of the package
variable `decimal.Zero` (it shares that variable's `*big.Int`); `num q` is any
other value, of numeric value `q`.  The distinction is visible to Go's `==` on the
struct, which `Schedule.TryToPay` uses. -/
inductive Decimal where
  | zeroVar
  | num (q : ℚ)
deriving DecidableEq

namespace Decimal

/-- The numeric value. -/
def val : Decimal → ℚ
  | zeroVar => 0
  | num q => q

/-- The package variable `decimal.Zero`. -/
def Zero : Decimal := zeroVar

/-- Go `d == decimal.Zero` on the struct: true only for copies of the variable. -/
def eqZeroVar : Decimal → Bool
  | zeroVar => true
  | num _ => false

/-- Go `decimal.NewFromInt`. -/
def NewFromInt (n : Int) : Decimal := num n

def Add (a b : Decimal) : Decimal := num (a.val + b.val)

def Sub (a b : Decimal) : Decimal := num (a.val - b.val)

def Mul (a b : Decimal) : Decimal := num (a.val * b.val)

/-- Go `d.Cmp(d2)`: -1, 0 or 1. -/
def Cmp (a b : Decimal) : Int :=
  if a.val < b.val then -1 else if a.val = b.val then 0 else 1

def IsZero (a : Decimal) : Bool := decide (a.val = 0)

def Equal (a b : Decimal) : Bool := decide (a.val = b.val)

/-- Rounding of a rational to 16 fractional digits, half away from zero: what
`DivRound(d2, 16)` does to the exact quotient. -/
def round16 (q : ℚ) : ℚ :=
  if 0 ≤ q then (⌊q * 10 ^ 16 + 1 / 2⌋ : ℚ) / 10 ^ 16
  else -((⌊-q * 10 ^ 16 + 1 / 2⌋ : ℚ) / 10 ^ 16)

/-- Go `d.Div(d2)`: panics on a zero divisor, otherwise the quotient rounded to
`DivisionPrecision = 16` fractional digits. -/
def Div (a b : Decimal) : Option Decimal :=
  if b.val = 0 then none else some (num (round16 (a.val / b.val)))

/-- Go `d.Pow(decimal.NewFromInt(n))` (release 1.4.0).  A zero base gives zero for
every exponent, also for the exponent 0.  Otherwise the result is the exact power
(repeated `Mul`) for `n ≥ 0`, and `1 / d^|n|` rounded to 16 digits for `n < 0`. -/
def Pow (d : Decimal) (n : Int) : Decimal :=
  if d.val = 0 then num 0
  else if 0 ≤ n then num (d.val ^ n.toNat)
  else num (round16 (1 / d.val ^ (-n).toNat))

/-- Rounding of a rational to the nearest integer, ties to the even one. -/
def roundHalfEven (x : ℚ) : Int :=
  let f := ⌊x⌋
  if x - f < 1 / 2 then f
  else if x - f > 1 / 2 then f + 1
  else if f % 2 = 0 then f else f + 1

/-- Go `d.RoundBank(places)`: rounding to `places` fractional digits (to a multiple of
`10^(-places)` when `places` is negative), ties to even. -/
def RoundBank (d : Decimal) (places : Int) : Decimal :=
  if 0 ≤ places then num ((roundHalfEven (d.val * 10 ^ places.toNat) : ℚ) / 10 ^ places.toNat)
  else num ((roundHalfEven (d.val / 10 ^ (-places).toNat) : ℚ) * 10 ^ (-places).toNat)

end Decimal

/-! ## time.Time -/

/-- A `time.Time`, as the number of days since 1970-01-01 of its civil date. -/
structure Time where
  day : Int
deriving DecidableEq

/-- Days from 1970-01-01 to the first day of month `m` (1..12) of year `y`. -/
def daysFromCivil (y m : Int) : Int :=
  let y1 := if m ≤ 2 then y - 1 else y
  let era := y1 / 400
  let yoe := y1 - era * 400
  let mp := if m ≤ 2 then m + 9 else m - 3
  let doy := (153 * mp + 2) / 5
  let doe := yoe * 365 + yoe / 4 - yoe / 100 + doy
  era * 146097 + doe - 719468

/-- The civil date (year, month, day) of a day number. -/
def civilFromDays (z : Int) : Int × Int × Int :=
  let z1 := z + 719468
  let era := z1 / 146097
  let doe := z1 - era * 146097
  let yoe := (doe - doe / 1460 + doe / 36524 - doe / 146096) / 365
  let doy := doe - (365 * yoe + yoe / 4 - yoe / 100)
  let mp := (5 * doy + 2) / 153
  let d := doy - (153 * mp + 2) / 5 + 1
  let m := if mp < 10 then mp + 3 else mp - 9
  (if m ≤ 2 then yoe + era * 400 + 1 else yoe + era * 400, m, d)

/-- Go `time.Date(y, m, d, ...)`: month and day may lie outside their usual ranges and
are normalised (month overflow carries into the year, day overflow into the
following months). -/
def mkDate (y m d : Int) : Time :=
  let m0 := m - 1
  ⟨daysFromCivil (y + m0 / 12) (m0 % 12 + 1) + (d - 1)⟩

namespace Time

/-- Go `t.Date()`. -/
def Date (t : Time) : Int × Int × Int := civilFromDays t.day

def Year (t : Time) : Int := t.Date.1

def Month (t : Time) : Int := t.Date.2.1

/-- Go `t.Weekday()`, Sunday = 0 .. Saturday = 6. -/
def Weekday (t : Time) : Int := (t.day + 4) % 7

/-- Go `t.AddDate(years, months, days)`. -/
def AddDate (t : Time) (years months days : Int) : Time :=
  match t.Date with
  | (y, m, d) => mkDate (y + years) (m + months) (d + days)

/-- Go `int(end.Sub(start).Hours() / 24)`: the number of whole days between two
times with the same time of day.  `Sub` returns a `time.Duration`, which saturates
at `±(2^63 - 1)` nanoseconds, that is at 106751 whole days. -/
def daysUntil (start stop : Time) : Int := max (-106751) (min 106751 (stop.day - start.day))

end Time

/-! ## types.go, errors.go -/

abbrev RepayType := String
abbrev PeriodType := String
abbrev PrepayStrategy := String
abbrev ScheduleStatus := String
abbrev OverdueStatus := String
abbrev FeeStatus := String
abbrev RepayStatus := String
abbrev DayCountConv := String
abbrev RollConvention := String
abbrev ProductStatues := String
abbrev LoanStatus := String

/-- Go `type IDGenerator = func() int64`: the stream of the values that the
successive calls return (`gen 0` is returned by the next call). -/
abbrev IDGenerator := Nat → Int

/-- The generator after one call. -/
def IDGenerator.next (gen : IDGenerator) : IDGenerator := fun k => gen (k + 1)

/-- The generator after `n` calls. -/
def IDGenerator.skip (gen : IDGenerator) (n : Nat) : IDGenerator := fun k => gen (k + n)

def LoanPaid : LoanStatus := "PAID"
def LoanUnpaid : LoanStatus := "UNPAID"
def LoanPending : LoanStatus := "PENDING"
def LoanRejected : LoanStatus := "REJECTED"

def Unadjusted : RollConvention := "UNADJUSTED"
def Following : RollConvention := "FOLLOWING"
def Preceding : RollConvention := "PRECEDING"
def ModFollow : RollConvention := "MODIFIED_FOLLOWING"

def BONDBASIS : DayCountConv := "BONDBASIS"
def EUROBOND : DayCountConv := "EUROBOND"
def MONEYMARKET : DayCountConv := "MONEYMARKET"
def FIXED : DayCountConv := "FIXED"
def ISDA : DayCountConv := "ISDA"
def AFB : DayCountConv := "AFB"

def RepayTypeEqualPrincipal : RepayType := "EQUAL_PRINCIPAL"
def RepayTypeEqualInstallment : RepayType := "EQUAL_INSTALLMENT"

def PeriodDay : PeriodType := "DAY"
def PeriodBiWeek : PeriodType := "BI_WEEK"
def PeriodMonth : PeriodType := "MONTH"
def PeriodYear : PeriodType := "YEAR"

def OverdueStatusAccruing : OverdueStatus := "ACCRUING"
def OverdueStatusPartial : OverdueStatus := "PARTIAL"
def OverdueStatusCleared : OverdueStatus := "CLEARED"
def OverdueStatusWaived : OverdueStatus := "WAIVED"

def PrepayTermReduction : PrepayStrategy := "TERM_REDUCTION"
def PrepayPaymentReduction : PrepayStrategy := "PAYMENT_REDUCTION"
def PrepayNot : PrepayStrategy := "NOT_PREPAY"

def ScheduleUnpaid : ScheduleStatus := "UNPAID"
def SchedulePaid : ScheduleStatus := "PAID"
def ScheduleInterestPaid : ScheduleStatus := "INTEREST_PAID"
def ScheduleFeePaid : ScheduleStatus := "FEE_PAID"
def ScheduleRemoved : ScheduleStatus := "REMOVED"
def SchedulePending : ScheduleStatus := "PENDING"

def FeeStatusPaid : FeeStatus := "PAID"
def FeeStatusUnPaid : FeeStatus := "UNPAID"
def FeeStatuesModule : FeeStatus := "MODULE"

def RepaySuccess : RepayStatus := "SUCCESS"
def RepayFailed : RepayStatus := "FAILED"
def RepayCanceled : RepayStatus := "CANCELED"
def RepayProcessing : RepayStatus := "PROCESSING"
def RepayRefunding : RepayStatus := "REFUNDING"

/-- The package variable `BankRound`. -/
def BankRound (d : Decimal) : Decimal := d.RoundBank 2

def Money (d : Decimal) : Decimal := d.RoundBank 2

/-- The error values of the package: the variables of `errors.go` and the errors
built in place by `daycount.go`, `roll.go` and `NewLoan`. -/
inductive Error where
  | ErrNoScheduleFound
  | ErrTodayNotDueDate
  | ErrInsufficientForPenalty
  | ErrInsufficientForSchedule
  | ErrUnSupportRepayType
  | unknownPeriodType
  | unsupportedDayCount
  | invalidParams
deriving DecidableEq

/-! ## config.go -/

/-- Go `ChinaHolidayProvider.IsHoliday`, over the package map `Holiday` (keyed by the
date formatted as `2006-01-02`, here by the civil date itself). -/
def ChinaHolidayProvider (Holiday : Int × Int × Int → Option Bool) (t : Time) : Bool :=
  if Holiday t.Date = some true then true
  else t.Weekday = 6 || t.Weekday = 0

/-- The package variable `cfg`; `Clock` is the time that `cfg.Clock.Now()`
returns, `Holiday` is `cfg.Holiday.IsHoliday`. -/
structure Config where
  IDGenerator : IDGenerator
  RoundStrategy : Decimal → Decimal
  Holiday : Time → Bool
  Clock : Time

/-- What the functions of the package read besides their arguments: the package
variable `cfg`, the system clock (`time.Now()`), and the capacity policy of the Go
runtime (`appendSpare n` is the spare capacity that `append` leaves after it had
to reallocate a full slice of `n` elements to add one more). -/
structure Env where
  cfg : Config
  Now : Time
  appendSpare : Nat → Nat

/-! ## daycount.go -/

def Days360US (start stop : Time) : Int × Int :=
  match start.Date, stop.Date with
  | (y1, m1, d1), (y2, m2, d2) =>
    let d1 := if d1 = 31 then 30 else d1
    let d2 := if d2 = 31 ∧ d1 ≥ 30 then 30 else d2
    ((y2 - y1) * 360 + (m2 - m1) * 30 + (d2 - d1), 360)

def Days360E (start stop : Time) : Int × Int :=
  match start.Date, stop.Date with
  | (y1, m1, d1), (y2, m2, d2) =>
    let d1 := if d1 = 31 then 30 else d1
    let d2 := if d2 = 31 then 30 else d2
    ((y2 - y1) * 360 + (m2 - m1) * 30 + (d2 - d1), 360)

def DaysAct360 (start stop : Time) : Int × Int := (start.daysUntil stop, 360)

def DaysAct365 (start stop : Time) : Int × Int := (start.daysUntil stop, 365)

def YearDays (t : Time) : Int :=
  let yy := t.Year
  if yy % 4 ≠ 0 then 365
  else if yy % 100 ≠ 0 then 366
  else if yy % 400 = 0 then 366
  else 365

def DaysActActISDA (start stop : Time) : Int × Int := (start.daysUntil stop, YearDays start)

def DaysAct365AFB (start stop : Time) : Int × Int := (start.daysUntil stop, 36525)

/-- Go `EffectiveInterestRate`; `decimal.NewFromFloat(365.25)` is exactly 365.25. -/
def EffectiveInterestRate (start stop : Time) (conv : DayCountConv) :
    Option (Except Error Decimal) :=
  let dy : Option (Int × Int) :=
    if conv = BONDBASIS then some (Days360US start stop)
    else if conv = EUROBOND then some (Days360E start stop)
    else if conv = MONEYMARKET then some (DaysAct360 start stop)
    else if conv = FIXED then some (DaysAct365 start stop)
    else if conv = ISDA then some (DaysActActISDA start stop)
    else if conv = AFB then some (DaysAct365AFB start stop)
    else none
  match dy with
  | none => some (.error .unsupportedDayCount)
  | some (d, y) =>
    let day := Decimal.NewFromInt d
    let year := if y = 36525 then Decimal.num (1461 / 4) else Decimal.NewFromInt y
    (day.Div year).map .ok

def AnnualToPeriodRate (env : Env) (annual : Decimal) (pt : PeriodType) (conv : DayCountConv) :
    Option (Except Error Decimal) :=
  let t := env.cfg.Clock
  let next : Option Time :=
    if pt = PeriodDay then some (t.AddDate 0 0 1)
    else if pt = PeriodMonth then some (t.AddDate 0 1 0)
    else if pt = PeriodYear then some (t.AddDate 1 0 0)
    else if pt = PeriodBiWeek then some (t.AddDate 0 0 14)
    else none
  match next with
  | none => some (.error .unknownPeriodType)
  | some next =>
    match EffectiveInterestRate t next conv with
    | none => none
    | some (.error e) => some (.error e)
    | some (.ok frac) => some (.ok (frac.Mul annual))

/-! ## roll.go -/

/-- The loop `for isHoliday(t) { t = t.AddDate(0, 0, step) }`; `fuel` bounds the
number of evaluations of the loop condition, and the result is `none` when the
loop has not finished within it. -/
def rollLoop (isHoliday : Time → Bool) (step : Int) : Nat → Time → Option Time
  | 0, _ => none
  | fuel + 1, t =>
    if isHoliday t then rollLoop isHoliday step fuel (t.AddDate 0 0 step) else some t

def applyRoll (fuel : Nat) (t : Time) (roll : RollConvention) (isHoliday : Time → Bool) :
    Option Time :=
  if roll = Unadjusted then some t
  else if roll = Following then rollLoop isHoliday 1 fuel t
  else if roll = Preceding then rollLoop isHoliday (-1) fuel t
  else if roll = ModFollow then
    let origMonth := t.Month
    match rollLoop isHoliday 1 fuel t with
    | none => none
    | some t2 =>
      if t2.Month ≠ origMonth then rollLoop isHoliday (-1) fuel t else some t2
  else some t

/-- Go `nextPeriodDate`: the returned time and the returned error. -/
def nextPeriodDate (fuel : Nat) (last : Time) (period : PeriodType) (roll : RollConvention)
    (isHoliday : Time → Bool) : Option (Time × Option Error) :=
  let candidate : Option Time :=
    if period = PeriodDay then some (last.AddDate 0 0 1)
    else if period = PeriodBiWeek then some (last.AddDate 0 0 14)
    else if period = PeriodMonth then some (last.AddDate 0 1 0)
    else if period = PeriodYear then some (last.AddDate 1 0 0)
    else none
  match candidate with
  | none => some (last, some .unknownPeriodType)
  | some c => (applyRoll fuel c roll isHoliday).map (fun t => (t, none))

/-- Go `NextPeriodDate`: both branches of the type switch call `nextPeriodDate` with
the `IsHoliday` method of `cfg.Holiday`. -/
def NextPeriodDate (env : Env) (fuel : Nat) (last : Time) (period : PeriodType)
    (roll : RollConvention) : Option (Time × Option Error) :=
  nextPeriodDate fuel last period roll env.cfg.Holiday

/-! ## module.go -/

structure Fee where
  ID : Int
  ScheduleId : Int
  Name : String
  Rate : Decimal
  Fix : Decimal
  Status : FeeStatus
deriving DecidableEq

def Fee.GetFee (f : Fee) (p : Decimal) : Decimal :=
  let total := Decimal.Zero
  let total := if !f.Fix.IsZero then f.Fix else total
  total.Add (p.Mul f.Rate)

structure Product where
  ID : Int
  Name : String
  Interest : Decimal
  MinPrinciple : Decimal
  MaxPrinciple : Decimal
  MinPeriods : Int
  MaxPeriods : Int
  RepayType : RepayType
  RollConvention : RollConvention
  DayCountConv : DayCountConv
  PeriodType : PeriodType
  GraceTerm : Int
  GraceDay : Int
  Penalty : Decimal
  DefaultRate : Decimal
  Fees : List Fee
  Info : String
  Status : ProductStatues
  CreatedAt : Time
  UpdatedAt : Time
deriving DecidableEq

structure OverdueRecord where
  ID : Int
  LoanID : Int
  Period : Int
  StartDate : Time
  DaysOver : Int
  PenaltyAccrued : Decimal
  PenaltyPaid : Decimal
  Rate : Decimal
  UpdatedAt : Time
  Statue : OverdueStatus
deriving DecidableEq

structure Repayment where
  ID : Int
  LoanID : Int
  RepayAt : Time
  TotalAmount : Decimal
  Status : RepayStatus
  RefundAmount : Decimal
  Extra : String
deriving DecidableEq

structure Schedule where
  ID : Int
  LoanID : Int
  Period : Int
  DueDate : Time
  Principal : Decimal
  Interest : Decimal
  ServiceFee : List Fee
  TotalPayment : Decimal
  TotalPaymentPaid : Decimal
  Status : ScheduleStatus
  UpdatedAt : Time
  Overdue : Bool
deriving DecidableEq

/-- The struct `Loan`; the field `Product *Product` is the product it points to. -/
structure Loan where
  ID : Int
  UserID : Int
  Principal : Decimal
  TotalPeriods : Int
  Product : Product
  CreatedAt : Time
  Statue : LoanStatus
deriving DecidableEq

/-- The aggregate `LoanExtra`.  `SchedulesSpare` is `cap(l.Schedules) -
len(l.Schedules)`, the room left in the backing array of the slice: it decides
whether `append` writes in place or moves the slice to a new array. -/
structure LoanExtra extends Loan where
  Schedules : List Schedule
  SchedulesSpare : Nat
  Repayments : List Repayment
  OverdueRecords : List OverdueRecord
deriving DecidableEq

/-- Go `l.AddSchedule(sl)`, that is `l.Schedules = append(l.Schedules, sl)`. -/
def LoanExtra.AddSchedule (env : Env) (l : LoanExtra) (sl : Schedule) : LoanExtra :=
  { l with
    Schedules := l.Schedules ++ [sl]
    SchedulesSpare :=
      if l.SchedulesSpare = 0 then env.appendSpare l.Schedules.length
      else l.SchedulesSpare - 1 }

def LoanExtra.AddRepayment (l : LoanExtra) (repayment : Repayment) : LoanExtra :=
  { l with Repayments := l.Repayments ++ [repayment] }

def LoanExtra.AddOverdueRecord (l : LoanExtra) (overdue : OverdueRecord) : LoanExtra :=
  { l with OverdueRecords := l.OverdueRecords ++ [overdue] }

/-- Go `OutstandingPrincipal`: `var sum decimal.Decimal` starts as the zero value of
the struct, which is numerically zero and is not a copy of `decimal.Zero`. -/
def LoanExtra.OutstandingPrincipal (l : LoanExtra) : Decimal :=
  l.Schedules.foldl
    (fun sum s => if s.Status = ScheduleUnpaid then sum.Add s.Principal else sum) (Decimal.num 0)

def LoanExtra.OutstandingPeriods (l : LoanExtra) : Int :=
  l.Schedules.foldl (fun sum s => if s.Status = ScheduleUnpaid then sum + 1 else sum) 0

def LoanExtra.PeriodRate (env : Env) (l : LoanExtra) : Option (Except Error Decimal) :=
  AnnualToPeriodRate env l.Product.Interest l.Product.PeriodType l.Product.DayCountConv

def LoanExtra.HasOverdue (l : LoanExtra) : Bool := l.OverdueRecords.length ≠ 0

/-- Go `NewLoan`; the product pointer of a modelled loan is never nil. -/
def NewLoan (env : Env) (userID : Int) (principal : Decimal) (totalPeriods : Int)
    (product : Product) : Except Error Loan :=
  if principal.Cmp Decimal.Zero ≤ 0 ∨ totalPeriods ≤ 0 then .error .invalidParams
  else
    .ok { ID := env.cfg.IDGenerator 0, UserID := userID, Principal := principal,
          TotalPeriods := totalPeriods, Product := product, CreatedAt := env.Now,
          Statue := LoanPending }

/-- Go `l.ToLoanExtra()`: the three slices are nil. -/
def Loan.ToLoanExtra (l : Loan) : LoanExtra :=
  { l with Schedules := [], SchedulesSpare := 0, Repayments := [], OverdueRecords := [] }

/-- The loop of `NextUnpaidPeriod` from index `i` on. -/
def nextUnpaidFrom : List Schedule → Int → Int
  | [], _ => -1
  | s :: rest, i =>
    if s.Status ≠ SchedulePaid ∧ s.Status ≠ ScheduleRemoved then i else nextUnpaidFrom rest (i + 1)

def LoanExtra.NextUnpaidPeriod (l : LoanExtra) : Int :=
  if l.Schedules.length = 0 then -1 else nextUnpaidFrom l.Schedules 0

def LoanExtra.IsFullyPaid (l : LoanExtra) : Bool := l.NextUnpaidPeriod = 0

def NewOverdueRecord (env : Env) (id loanId period _daysOver : Int) (rate penaltyAmt : Decimal) :
    OverdueRecord :=
  { ID := id, LoanID := loanId, Period := period, StartDate := env.Now,
    PenaltyAccrued := penaltyAmt, PenaltyPaid := Decimal.Zero, Rate := rate, DaysOver := 0,
    UpdatedAt := env.Now, Statue := OverdueStatusAccruing }

/-- Go `OverdueRecord.TryToPay`: the record after the call and the returned amount.
In the first branch the sum `o.PenaltyPaid.Add(amount)` is computed and dropped,
so `PenaltyPaid` keeps its value. -/
def OverdueRecord.TryToPay (env : Env) (o : OverdueRecord) (amount : Decimal) :
    OverdueRecord × Decimal :=
  if o.Statue = OverdueStatusCleared then (o, amount)
  else
    let p := o.PenaltyAccrued.Sub o.PenaltyPaid
    if amount.Cmp p = -1 then
      ({ o with Statue := OverdueStatusCleared, UpdatedAt := env.Now }, Decimal.Zero)
    else
      let r := amount.Sub p
      ({ o with Statue := OverdueStatusCleared, UpdatedAt := env.Now }, r)

def NewRepayment (env : Env) (id loanID : Int) : Repayment :=
  { ID := id, LoanID := loanID, RepayAt := env.Now, Status := RepayProcessing,
    TotalAmount := Decimal.Zero, RefundAmount := Decimal.Zero, Extra := "" }

def Repayment.AddAmount (r : Repayment) (amount : Decimal) : Repayment :=
  { r with TotalAmount := r.TotalAmount.Add amount }

/-- Go `NewSchedule`.  The loop over `fee` works on a copy `s` of each element and
drops the value of `total.Add(s.GetFee(principal))`, so it leaves both `total` and
`fee` as they were; the fold below evaluates the same expressions and keeps the
accumulator. -/
def NewSchedule (env : Env) (id loanId period : Int) (dueDate : Time)
    (principal interest : Decimal) (fee : List Fee) : Schedule :=
  let total := principal.Add interest
  let total := fee.foldl
    (fun total s =>
      let s := { s with Status := FeeStatusUnPaid }
      let _dropped := total.Add (s.GetFee principal)
      total) total
  { ID := id, LoanID := loanId, Period := period, DueDate := dueDate,
    Principal := principal, Interest := interest, ServiceFee := fee,
    TotalPayment := total, TotalPaymentPaid := Decimal.Zero, Status := ScheduleUnpaid,
    UpdatedAt := env.Now, Overdue := false }

/-- Case `ScheduleFeePaid` of `Schedule.tryToPay`; `s.TotalPaymentPaid.Add(f)` is
computed and dropped in the first branch. -/
def Schedule.tryToPayFeePaid (env : Env) (s : Schedule) (amount : Decimal) :
    Schedule × Decimal :=
  let f := s.TotalPayment.Sub s.TotalPaymentPaid
  if amount.Cmp f ≥ 0 then
    ({ s with Status := SchedulePaid, UpdatedAt := env.Now }, amount.Sub f)
  else
    ({ s with TotalPaymentPaid := s.TotalPaymentPaid.Add amount, UpdatedAt := env.Now },
      Decimal.Zero)

/-- The loop over `s.ServiceFee` in case `ScheduleInterestPaid`: the running
`TotalPaymentPaid`, the running amount, and whether the loop left through the
`return amount` of a fee that could not be covered.  `v.Status = FeeStatusPaid`
is written to the loop's copy `v` and does not reach the slice. -/
def Schedule.feeLoop (principal : Decimal) : List Fee → Decimal → Decimal → Decimal × Decimal × Bool
  | [], paid, amount => (paid, amount, false)
  | v :: rest, paid, amount =>
    if v.Status = FeeStatusPaid then Schedule.feeLoop principal rest paid amount
    else
      let f := v.GetFee principal
      if amount.Cmp f ≥ 0 then Schedule.feeLoop principal rest (paid.Add f) (amount.Sub f)
      else (paid, amount, true)

/-- Case `ScheduleInterestPaid` of `Schedule.tryToPay`; its last statement is the
recursive call with `Status = ScheduleFeePaid`. -/
def Schedule.tryToPayInterestPaid (env : Env) (s : Schedule) (amount : Decimal) :
    Schedule × Decimal :=
  match Schedule.feeLoop s.Principal s.ServiceFee s.TotalPaymentPaid amount with
  | (paid, amount, true) => ({ s with TotalPaymentPaid := paid, UpdatedAt := env.Now }, amount)
  | (paid, amount, false) =>
    Schedule.tryToPayFeePaid env { s with TotalPaymentPaid := paid, Status := ScheduleFeePaid } amount

/-- Go `Schedule.tryToPay`.  In case `ScheduleUnpaid` the sum
`s.TotalPaymentPaid.Add(f)` is computed and dropped before the recursive call with
`Status = ScheduleInterestPaid`. -/
def Schedule.tryToPay (env : Env) (s : Schedule) (amount : Decimal) : Schedule × Decimal :=
  if s.Status = ScheduleUnpaid then
    let f := s.Interest.Sub s.TotalPaymentPaid
    if amount.Cmp f ≥ 0 then
      Schedule.tryToPayInterestPaid env { s with Status := ScheduleInterestPaid } (amount.Sub f)
    else
      ({ s with TotalPaymentPaid := s.TotalPaymentPaid.Add amount, UpdatedAt := env.Now },
        Decimal.Zero)
  else if s.Status = ScheduleInterestPaid then Schedule.tryToPayInterestPaid env s amount
  else if s.Status = ScheduleFeePaid then Schedule.tryToPayFeePaid env s amount
  else (s, amount)

/-- Go `Schedule.TryToPay`: the row after the call and the returned amount.  The
guard of the first branch is `amount.Cmp(f) >= -1`.  The loop of that branch
assigns `FeeStatusPaid` to a copy `v` of each fee (`ServiceFee` is a slice of
structs), so `ServiceFee` is not changed. -/
def Schedule.TryToPay (env : Env) (s : Schedule) (amount : Decimal) : Schedule × Decimal :=
  if s.Principal.eqZeroVar then ({ s with Status := SchedulePaid }, amount)
  else if s.Status ≠ SchedulePaid then
    let f := s.TotalPayment.Sub s.TotalPaymentPaid
    if amount.Cmp f ≥ -1 then
      let _copies := s.ServiceFee.map (fun v => { v with Status := FeeStatusPaid })
      ({ s with UpdatedAt := env.Now, Status := SchedulePaid }, amount.Sub f)
    else Schedule.tryToPay env s amount
  else (s, amount)

/-! ## schedule.go -/

/-- The package variables `one` and `ONE`, both `decimal.NewFromInt(1)`. -/
def one : Decimal := Decimal.NewFromInt 1

def AnnuityPayment (principal : Decimal) (periods : Int) (rate : Decimal) : Option Decimal :=
  let base1r := rate.Add one
  let base1rn := base1r.Pow periods
  let numerator := (principal.Mul base1rn).Mul rate
  let denominator := base1rn.Sub one
  numerator.Div denominator

/-- The copy of `product.Fees` made for one row: every fee gets a fresh ID from the
generator, status Unpaid and the ID of the row. -/
def stampFees (gen : IDGenerator) (id : Int) : List Fee → List Fee
  | [] => []
  | f :: rest =>
    { f with ID := gen 0, Status := FeeStatusUnPaid, ScheduleId := id } ::
      stampFees gen.next id rest

/-- Go `nextDate` of the two builders: `n, _ := NextPeriodDate(...)`. -/
def nextDate (env : Env) (fuel : Nat) (product : Product) (t : Time) : Option Time :=
  (NextPeriodDate env fuel t product.PeriodType product.RollConvention).map Prod.fst

/-- The loop of `AnnuitySchedule`, `k` iterations from period `i` on; the rows it
appends, in order. -/
def annuityLoop (env : Env) (fuel : Nat) (loanId : Int) (product : Product) (r pwt : Decimal)
    (g : Int) : Nat → Int → Time → Decimal → IDGenerator → Option (List Schedule)
  | 0, _, _, _, _ => some []
  | k + 1, i, t, principal, gen =>
    match nextDate env fuel product t with
    | none => none
    | some t =>
      let id := gen 0
      let fees := stampFees gen.next id product.Fees
      let gen := gen.skip (1 + product.Fees.length)
      let interest := principal.Mul r
      if i ≤ g then
        let s := NewSchedule env id loanId i t Decimal.Zero interest fees
        (annuityLoop env fuel loanId product r pwt g k (i + 1) t principal gen).map (s :: ·)
      else
        let p := pwt.Sub interest
        let principal := principal.Sub p
        let s := NewSchedule env id loanId i t p interest fees
        (annuityLoop env fuel loanId product r pwt g k (i + 1) t principal gen).map (s :: ·)

/-- Go `AnnuitySchedule`; `make([]Schedule, 0, periods)` panics for a negative
`periods`. -/
def AnnuitySchedule (env : Env) (fuel : Nat) (loanId : Int) (principal : Decimal) (periods : Int)
    (product : Product) (idGenerator : IDGenerator) : Option (Except Error (List Schedule)) :=
  if periods < 0 then none
  else
    let t := env.cfg.Clock
    let g := product.GraceTerm
    match AnnualToPeriodRate env product.Interest product.PeriodType product.DayCountConv with
    | none => none
    | some (.error err) => some (.error err)
    | some (.ok r) =>
      match AnnuityPayment principal (periods - g) r with
      | none => none
      | some pwt =>
        (annuityLoop env fuel loanId product r pwt g periods.toNat 1 t principal idGenerator).map .ok

def EqualPrincipalPayment (principal : Decimal) (periods : Int) (rate : Decimal) : Option Decimal :=
  (principal.Div (Decimal.NewFromInt periods)).map (fun p => p.Add (principal.Mul rate))

/-- The loop of `EqualPrincipalSchedule`, `k` iterations from period `i` on. -/
def equalPrincipalLoop (env : Env) (fuel : Nat) (loanId : Int) (product : Product) (r p : Decimal)
    (g : Int) : Nat → Int → Time → Decimal → IDGenerator → Option (List Schedule)
  | 0, _, _, _, _ => some []
  | k + 1, i, t, principal, gen =>
    match nextDate env fuel product t with
    | none => none
    | some t =>
      let id := gen 0
      let fees := stampFees gen.next id product.Fees
      let gen := gen.skip (1 + product.Fees.length)
      if i ≤ g then
        let interest := principal.Mul r
        let s := NewSchedule env id loanId i t Decimal.Zero interest fees
        (equalPrincipalLoop env fuel loanId product r p g k (i + 1) t principal gen).map (s :: ·)
      else
        let principal := principal.Sub p
        let interest := principal.Mul r
        let s := NewSchedule env id loanId i t p interest fees
        (equalPrincipalLoop env fuel loanId product r p g k (i + 1) t principal gen).map (s :: ·)

def EqualPrincipalSchedule (env : Env) (fuel : Nat) (loanId : Int) (principal : Decimal)
    (periods : Int) (product : Product) (idGenerator : IDGenerator) :
    Option (Except Error (List Schedule)) :=
  if periods < 0 then none
  else
    let t := env.cfg.Clock
    match AnnualToPeriodRate env product.Interest product.PeriodType product.DayCountConv with
    | none => none
    | some (.error err) => some (.error err)
    | some (.ok r) =>
      let g := product.GraceTerm
      match principal.Div (Decimal.NewFromInt (periods - g)) with
      | none => none
      | some p =>
        (equalPrincipalLoop env fuel loanId product r p g periods.toNat 1 t principal
          idGenerator).map .ok

/-! ## repayment.go -/

def idxNotFound : Int := -1

def CompareDate (t1 t2 : Time) : Int :=
  match t1.Date, t2.Date with
  | (y1, m1, d1), (y2, m2, d2) =>
    if y1 < y2 ∨ (y1 = y2 ∧ m1 < m2) ∨ (y1 = y2 ∧ m1 = m2 ∧ d1 < d2) then -1
    else if y1 = y2 ∧ m1 = m2 ∧ d1 = d2 then 0
    else 1

/-- The locating loop of `NormalRepay` and `PreRepay` from index `i` on:
`(firstOverdueIdx, currentIdx)` when it ends; `currentIdx` keeps its initial
value 0 when the loop ends without `break`.  In `NormalRepay` the loop also
computes `CompareDate(s.DueDate, now)`, whose value is not used. -/
def locate : List Schedule → Int → Int → Int × Int
  | [], _, firstOverdueIdx => (firstOverdueIdx, 0)
  | s :: rest, i, firstOverdueIdx =>
    if s.Status = SchedulePaid then locate rest (i + 1) firstOverdueIdx
    else
      let firstOverdueIdx :=
        if s.Overdue ∧ firstOverdueIdx = idxNotFound then i else firstOverdueIdx
      if !s.Overdue then (firstOverdueIdx, i)
      else locate rest (i + 1) firstOverdueIdx

/-- The loop `for _, od := range l.OverdueRecords`: the remaining amount and
whether the loop left through `return remaining, ErrInsufficientForPenalty`.
`od` is a copy of the element, so what `od.TryToPay` writes to it is lost; only
the returned amount is kept. -/
def penaltyLoop (env : Env) (isZero : Decimal → Bool) :
    List OverdueRecord → Decimal → Decimal × Bool
  | [], remaining => (remaining, false)
  | od :: rest, remaining =>
    let remaining := (od.TryToPay env remaining).2
    if isZero remaining then (remaining, true) else penaltyLoop env isZero rest remaining

/-- The loop over `l.Schedules[i].TryToPay(remaining)`, `k` iterations from index
`i` on: the slice, the remaining amount, and whether the loop left through
`return remaining, ErrInsufficientForSchedule`. -/
def payLoop (env : Env) : Nat → Int → List Schedule → Decimal →
    Option (List Schedule × Decimal × Bool)
  | 0, _, ss, remaining => some (ss, remaining, false)
  | k + 1, i, ss, remaining =>
    if i < 0 then none
    else
      match ss[i.toNat]? with
      | none => none
      | some s =>
        match s.TryToPay env remaining with
        | (s, remaining) =>
          let ss := ss.set i.toNat s
          if remaining.IsZero ∧ s.Status ≠ SchedulePaid then some (ss, remaining, true)
          else payLoop env k (i + 1) ss remaining

/-- Go `NormalRepay`: the aggregate after the call, `remaining` and `err`. -/
def NormalRepay (env : Env) (l : LoanExtra) (amount : Decimal) (generator : IDGenerator) :
    Option (LoanExtra × Decimal × Option Error) :=
  let remaining := amount
  if l.Schedules.length = 0 then some (l, remaining, some .ErrNoScheduleFound)
  else
    let repayment := NewRepayment env (generator 0) l.ID
    match locate l.Schedules 0 idxNotFound with
    | (firstOverdueIdx, currentIdx) =>
      match (if l.HasOverdue then penaltyLoop env Decimal.IsZero l.OverdueRecords remaining
             else (remaining, false)) with
      | (remaining, true) => some (l, remaining, some .ErrInsufficientForPenalty)
      | (remaining, false) =>
        let start := if firstOverdueIdx = idxNotFound then currentIdx else firstOverdueIdx
        match payLoop env (currentIdx - start + 1).toNat start l.Schedules remaining with
        | none => none
        | some (ss, remaining, true) =>
          some ({ l with Schedules := ss }, remaining, some .ErrInsufficientForSchedule)
        | some (ss, remaining, false) =>
          let repayment := repayment.AddAmount (amount.Sub remaining)
          some (({ l with Schedules := ss } : LoanExtra).AddRepayment repayment, remaining, none)

/-- The loop of `prepayTermReduction` over the indices `n-1, ..., 0`.  In the last
branch `s` points into the array that `l.Schedules` used before `AddSchedule`;
`s.Status = ScheduleRemoved` reaches `l.Schedules` only when `append` wrote in
place, that is when the slice had spare capacity. -/
def termReductionLoop (env : Env) (gen : IDGenerator) :
    Nat → LoanExtra → Decimal → Option (LoanExtra × Decimal)
  | 0, l, money => some (l, money)
  | i + 1, l, money =>
    match l.Schedules[i]? with
    | none => none
    | some s =>
      if s.Status = SchedulePaid ∨ s.Status = ScheduleRemoved then
        termReductionLoop env gen i l money
      else
        let f := s.Principal.Mul (one.Add l.Product.DefaultRate)
        if money.Cmp f ≥ 0 then
          termReductionLoop env gen i
            { l with Schedules := l.Schedules.set i { s with Status := SchedulePaid } }
            (money.Sub f)
        else
          let newS := NewSchedule env (gen 0) s.LoanID s.Period s.DueDate s.Principal s.Interest
            s.ServiceFee
          let r := one.Add l.Product.DefaultRate
          match money.Div r with
          | none => none
          | some x =>
            let newS := { newS with Principal := newS.Principal.Sub x }
            let newS := { newS with Interest := newS.Principal.Mul l.Product.Interest }
            let inPlace : Bool := l.SchedulesSpare ≠ 0
            let l := l.AddSchedule env newS
            let l :=
              if inPlace then
                { l with Schedules := l.Schedules.set i { s with Status := ScheduleRemoved } }
              else l
            some (l, money)

def prepayTermReduction (env : Env) (l : LoanExtra) (money : Decimal) (gen : IDGenerator) :
    Option (LoanExtra × Decimal × Option Error) :=
  (termReductionLoop env gen l.Schedules.length l money).map (fun (l, money) => (l, money, none))

def prepayPaymentReduction (env : Env) (fuel : Nat) (l : LoanExtra) (money : Decimal)
    (gen : IDGenerator) : Option (LoanExtra × Decimal × Option Error) :=
  let newPrincipal := l.OutstandingPrincipal.Sub money
  let periods := l.OutstandingPeriods
  let built : Option (Option (Except Error (List Schedule))) :=
    if l.Product.RepayType = RepayTypeEqualInstallment then
      some (AnnuitySchedule env fuel l.ID newPrincipal periods l.Product gen)
    else if l.Product.RepayType = RepayTypeEqualPrincipal then
      some (EqualPrincipalSchedule env fuel l.ID newPrincipal periods l.Product gen)
    else none
  match built with
  | none => some (l, money, some .ErrUnSupportRepayType)
  | some none => none
  | some (some res) =>
    let newSchedules : List Schedule :=
      match res with
      | .ok rows => rows
      | .error _ => []
    let l := { l with
      Schedules := l.Schedules.map
        (fun s => if s.Status ≠ SchedulePaid then { s with Status := ScheduleRemoved } else s) }
    let l := newSchedules.foldl (fun l ns => l.AddSchedule env ns) l
    some (l, Decimal.Zero, none)

def prepayCore (env : Env) (fuel : Nat) (l : LoanExtra) (money : Decimal) (gen : IDGenerator)
    (strategy : PrepayStrategy) : Option (LoanExtra × Decimal × Option Error) :=
  let outstandingPrincipal := l.OutstandingPrincipal
  if money.Cmp (outstandingPrincipal.Mul (one.Add l.Product.DefaultRate)) ≥ 0 then
    let l := { l with Schedules := l.Schedules.map (fun s => { s with Status := SchedulePaid }) }
    some (l, money.Sub outstandingPrincipal, none)
  else if strategy = PrepayTermReduction then prepayTermReduction env l money gen
  else prepayPaymentReduction env fuel l money gen

/-- Go `PreRepay`: the aggregate after the call, `remaining` and `err`. -/
def PreRepay (env : Env) (fuel : Nat) (l : LoanExtra) (amount : Decimal) (generator : IDGenerator)
    (strategy : PrepayStrategy) : Option (LoanExtra × Decimal × Option Error) :=
  let remaining := amount
  let repayment := NewRepayment env (generator 0) l.ID
  match (if l.HasOverdue then
          penaltyLoop env (fun d => d.Equal Decimal.Zero) l.OverdueRecords remaining
         else (remaining, false)) with
  | (remaining, true) => some (l, remaining, some .ErrInsufficientForPenalty)
  | (remaining, false) =>
    match locate l.Schedules 0 idxNotFound with
    | (firstOverdueIdx, currentIdx) =>
      let start := if firstOverdueIdx = idxNotFound then currentIdx else firstOverdueIdx
      match payLoop env (currentIdx - start).toNat start l.Schedules remaining with
      | none => none
      | some (ss, remaining, true) =>
        some ({ l with Schedules := ss }, remaining, some .ErrInsufficientForSchedule)
      | some (ss, remaining, false) =>
        let l : LoanExtra := { l with Schedules := ss }
        let finish := fun (l : LoanExtra) (remaining : Decimal) =>
          let repayment := repayment.AddAmount (amount.Sub remaining)
          some (l.AddRepayment repayment, remaining, (none : Option Error))
        if remaining.Cmp Decimal.Zero > 0 then
          match prepayCore env fuel l remaining generator.next strategy with
          | none => none
          | some (l, remaining, some err) => some (l, remaining, some err)
          | some (l, remaining, none) => finish l remaining
        else finish l remaining


/-! ## Example data -/

/-- Needed to compare results of the builders by evaluation. -/
instance instDecidableEqExcept {ε α : Type} [DecidableEq ε] [DecidableEq α] :
    DecidableEq (Except ε α)
  | .ok a, .ok b => if h : a = b then isTrue (by rw [h]) else isFalse (by intro h'; cases h'; exact h rfl)
  | .error a, .error b =>
    if h : a = b then isTrue (by rw [h]) else isFalse (by intro h'; cases h'; exact h rfl)
  | .ok _, .error _ => isFalse (by intro h; cases h)
  | .error _, .ok _ => isFalse (by intro h; cases h)

/-- An environment: the clock stands at 2024-01-01, no day is a holiday, the ID
generator counts from 1. -/
def exampleEnv : Env :=
  { cfg := { IDGenerator := fun k => k + 1, RoundStrategy := fun d => d, Holiday := fun _ => false,
             Clock := mkDate 2024 1 1 },
    Now := mkDate 2024 1 1, appendSpare := fun n => n }

def exampleGen : IDGenerator := fun k => k + 1

/-- Equal installments, 12% a year, monthly periods, Act/365, no rolling, no grace
term, no fees. -/
def exampleProduct : Product :=
  { ID := 1, Name := "", Interest := .num (12 / 100), MinPrinciple := .num 0,
    MaxPrinciple := .num 0, MinPeriods := 0, MaxPeriods := 0,
    RepayType := RepayTypeEqualInstallment, RollConvention := Unadjusted, DayCountConv := FIXED,
    PeriodType := PeriodMonth, GraceTerm := 0, GraceDay := 0, Penalty := .num 0,
    DefaultRate := .num 0, Fees := [], Info := "", Status := "", CreatedAt := ⟨0⟩,
    UpdatedAt := ⟨0⟩ }

/-- Yearly periods on a 30/360 basis at 1000% a year: the period rate is 10. -/
def steepProduct : Product :=
  { exampleProduct with Interest := .num 10, PeriodType := PeriodYear, DayCountConv := BONDBASIS }

/-- As `exampleProduct`, at 10% a year and with a grace term of 2 periods. -/
def graceProduct : Product :=
  { exampleProduct with Interest := .num (1 / 10), GraceTerm := 2 }

/-- A flat service fee of 5.00, not yet paid. -/
def exampleFee : Fee :=
  { ID := 11, ScheduleId := 1, Name := "service", Rate := .num 0, Fix := .num 5,
    Status := FeeStatusUnPaid }

/-- An Unpaid row as `NewSchedule` builds it: principal 1000.00, interest 10.00, one
unpaid fee; `TotalPayment` is 1010.00 and nothing has been paid. -/
def feeRow : Schedule :=
  NewSchedule exampleEnv 1 7 1 (mkDate 2024 2 1) (.num 1000) (.num 10) [exampleFee]

/-- An Unpaid row without fees: principal 1000.00, interest 10.00, total due 1010.00. -/
def plainRow : Schedule :=
  NewSchedule exampleEnv 1 7 1 (mkDate 2024 2 1) (.num 1000) (.num 10) []

/-- An Unpaid row of total due 522.30 (principal 400.00, interest 122.30) for the
given period, flagged overdue or not. -/
def dueRow (period : Int) (overdue : Bool) : Schedule :=
  { NewSchedule exampleEnv period 7 period (mkDate 2024 (1 + period) 1) (.num 400)
      (.num (12230 / 100)) [] with Overdue := overdue }

/-- An overdue record with 15.00 of penalty accrued and nothing paid. -/
def exampleRecord : OverdueRecord :=
  { ID := 21, LoanID := 7, Period := 1, StartDate := mkDate 2024 2 2, DaysOver := 30,
    PenaltyAccrued := .num 15, PenaltyPaid := Decimal.Zero, Rate := .num (5 / 10000),
    UpdatedAt := mkDate 2024 3 3, Statue := OverdueStatusAccruing }

/-- A loan aggregate over `exampleProduct` with the given rows and overdue records
and an empty repayment history. -/
def exampleLoan (rows : List Schedule) (records : List OverdueRecord) : LoanExtra :=
  { ID := 7, UserID := 3, Principal := .num 12000, TotalPeriods := 12,
    Product := exampleProduct, CreatedAt := mkDate 2024 1 1, Statue := LoanUnpaid,
    Schedules := rows, SchedulesSpare := 0, Repayments := [], OverdueRecords := records }

/-! ## Predicates used in statements -/

/-- The history clause shared by `NormalRepay` and `PreRepay`: on success one
Processing repayment of `amount - remaining` is appended, on error nothing is. -/
def HistoryRecorded (l l' : LoanExtra) (amount remaining : Decimal) (err : Option Error) : Prop :=
  (err = none → ∃ rp : Repayment, l'.Repayments = l.Repayments ++ [rp] ∧
      rp.Status = RepayProcessing ∧ rp.TotalAmount.val = amount.val - remaining.val) ∧
  (err ≠ none → l'.Repayments = l.Repayments)

/-- The total unpaid penalty of a list of overdue records: the sum of
`PenaltyAccrued - PenaltyPaid`. -/
def unpaidPenalty (records : List OverdueRecord) : ℚ :=
  (records.map (fun o => o.PenaltyAccrued.val - o.PenaltyPaid.val)).sum

/-! ## Example data for the prepayment and builder claims -/

/-- As `exampleEnv`, with both clocks at 2024-04-01, so that one monthly period has
30 days. -/
def aprilEnv : Env :=
  { exampleEnv with
    cfg := { exampleEnv.cfg with Clock := mkDate 2024 4 1 }, Now := mkDate 2024 4 1 }

/-- An Unpaid, not overdue row of principal 1000.00 and interest 10.00 for the given
period, as `NewSchedule` builds it. -/
def thousandRow (period : Int) : Schedule :=
  NewSchedule exampleEnv period 7 period (mkDate 2024 (1 + period) 1) (.num 1000) (.num 10) []

/-- Ten rows of principal 1000.00, periods 1 to 10. -/
def tenRows : List Schedule :=
  [thousandRow 1, thousandRow 2, thousandRow 3, thousandRow 4, thousandRow 5, thousandRow 6,
    thousandRow 7, thousandRow 8, thousandRow 9, thousandRow 10]

/-- As `exampleProduct`, with a default rate of 0.02. -/
def penaltyProduct : Product := { exampleProduct with DefaultRate := .num (2 / 100) }

/-- The aggregate of the term-reduction scenario: `tenRows` under `penaltyProduct`,
in a slice with the given spare capacity. -/
def tenRowLoan (spare : Nat) : LoanExtra :=
  { exampleLoan tenRows [] with
    Product := penaltyProduct, Principal := .num 10000, TotalPeriods := 10,
    SchedulesSpare := spare }

/-- Eight Unpaid rows of principal 1000.00 under `exampleProduct`: outstanding
principal 8000.00. -/
def eightRowLoan : LoanExtra :=
  exampleLoan (tenRows.take 8) []

/-- As `exampleProduct`, with a grace term of -1. -/
def negativeGraceProduct : Product := { exampleProduct with GraceTerm := -1 }

/-- The principal, interest and total due of the rows a builder returned (no rows
when it returned an error or did not return). -/
def rowAmounts (res : Option (Except Error (List Schedule))) : List (ℚ × ℚ × ℚ) :=
  match res with
  | some (.ok rows) => rows.map (fun s => (s.Principal.val, s.Interest.val, s.TotalPayment.val))
  | _ => []

/-- The outstanding principal in the words of the specification: the sum of the
principal over the rows with status Unpaid. -/
def outstandingSum (rows : List Schedule) : ℚ :=
  ((rows.filter (fun s => s.Status = ScheduleUnpaid)).map (fun s => s.Principal.val)).sum

/-- The number of rows with status Unpaid. -/
def unpaidCount (rows : List Schedule) : Int :=
  ((rows.filter (fun s => s.Status = ScheduleUnpaid)).length : Int)

/-- What `prepayPaymentReduction` does to a row that exists already: a Paid row is
kept, any other row becomes Removed. -/
def removeUnlessPaid (s : Schedule) : Schedule :=
  if s.Status ≠ SchedulePaid then { s with Status := ScheduleRemoved } else s

/-- Twenty Unpaid rows of principal 1000.00 under `steepProduct` (period rate 10):
outstanding principal 20000.00. -/
def steepLoan : LoanExtra :=
  { exampleLoan (tenRows ++ tenRows) [] with Product := steepProduct }

/-- Eight Unpaid rows of principal 1000.00 under `negativeGraceProduct`. -/
def negativeGraceLoan : LoanExtra :=
  { eightRowLoan with Product := negativeGraceProduct }

/-! ## Example data for the calendar and repayment-index claims -/

/-- Weekends as the only holidays: the default provider over an empty holiday map. -/
def weekends : Time → Bool := ChinaHolidayProvider (fun _ => none)

/-- A holiday calendar in which every day from 2024-01-31 to 2024-12-31 is a
holiday and no other day is. -/
def closedYear : Time → Bool :=
  fun t => decide ((mkDate 2024 1 31).day ≤ t.day ∧ t.day ≤ (mkDate 2024 12 31).day)

/-- As `exampleEnv`, with weekends as holidays and both clocks at 2024-10-30. -/
def weekendEnv : Env :=
  { exampleEnv with
    cfg := { exampleEnv.cfg with Holiday := weekends, Clock := mkDate 2024 10 30 },
    Now := mkDate 2024 10 30 }

/-- As `exampleProduct`, with the given roll convention. -/
def rollProduct (roll : RollConvention) : Product :=
  { exampleProduct with RollConvention := roll }

/-- The row `dueRow 1 false` after it has been settled in full. -/
def paidRow : Schedule :=
  { dueRow 1 false with Status := SchedulePaid, TotalPaymentPaid := .num (52230 / 100) }

/-- The due dates of the rows a builder returned (none when it returned an error
or did not return), as civil dates. -/
def dueDates (res : Option (Except Error (List Schedule))) : List (Int × Int × Int) :=
  match res with
  | some (.ok rows) => rows.map (fun s => s.DueDate.Date)
  | _ => []

/-- The rows a builder returned (none when it returned an error or did not
return). -/
def builtRows (res : Option (Except Error (List Schedule))) : List Schedule :=
  match res with
  | some (.ok rows) => rows
  | _ => []

/-! ## Facts about the decimal model -/

@[simp] theorem Decimal.val_Zero : Decimal.Zero.val = 0 := rfl

@[simp] theorem Decimal.val_num (q : ℚ) : (Decimal.num q).val = q := rfl

@[simp] theorem Decimal.val_Add (a b : Decimal) : (a.Add b).val = a.val + b.val := rfl

@[simp] theorem Decimal.val_Sub (a b : Decimal) : (a.Sub b).val = a.val - b.val := rfl

@[simp] theorem Decimal.val_Mul (a b : Decimal) : (a.Mul b).val = a.val * b.val := rfl

@[simp] theorem Decimal.val_NewFromInt (n : Int) : (Decimal.NewFromInt n).val = n := rfl

@[simp] theorem val_one : one.val = 1 := by simp [one]

/-- Rounding to 16 digits moves a number by at most half a unit of the last digit. -/
theorem Decimal.round16_error (q : ℚ) : |Decimal.round16 q - q| ≤ 1 / (2 * 10 ^ 16) := by
  have key : ∀ x : ℚ, |(⌊x * 10 ^ 16 + 1 / 2⌋ : ℚ) / 10 ^ 16 - x| ≤ 1 / (2 * 10 ^ 16) := by
    intro x
    have h1 := Int.floor_le (x * 10 ^ 16 + 1 / 2)
    have h2 := Int.lt_floor_add_one (x * 10 ^ 16 + 1 / 2)
    rw [abs_le]
    constructor
    · rw [le_sub_iff_add_le, le_div_iff₀ (by positivity)]
      have : (-(1 / (2 * 10 ^ 16)) + x) * 10 ^ 16 = x * 10 ^ 16 - 1 / 2 := by ring
      rw [this]; linarith
    · rw [sub_le_iff_le_add, div_le_iff₀ (by positivity)]
      have : (1 / (2 * 10 ^ 16) + x) * 10 ^ 16 = x * 10 ^ 16 + 1 / 2 := by ring
      rw [this]; linarith
  unfold Decimal.round16
  split
  · exact key q
  · have := key (-q)
    rw [show -((⌊-q * 10 ^ 16 + 1 / 2⌋ : ℚ) / 10 ^ 16) - q
        = -((⌊-q * 10 ^ 16 + 1 / 2⌋ : ℚ) / 10 ^ 16 - -q) by ring, abs_neg]
    exact this

/-- A quotient of at least half a unit of the 16th digit does not round to zero. -/
theorem Decimal.round16_pos (q : ℚ) (h : 1 / (2 * 10 ^ 16) ≤ q) : 0 < Decimal.round16 q := by
  have hq : 0 ≤ q := le_trans (by positivity) h
  unfold Decimal.round16
  rw [if_pos hq]
  apply div_pos _ (by positivity)
  have : (1 : ℚ) ≤ q * 10 ^ 16 + 1 / 2 := by
    have : (1 / (2 * 10 ^ 16) : ℚ) * 10 ^ 16 ≤ q * 10 ^ 16 :=
      mul_le_mul_of_nonneg_right h (by positivity)
    have h3 : (1 / (2 * 10 ^ 16) : ℚ) * 10 ^ 16 = 1 / 2 := by norm_num
    linarith
  have h1 : (1 : ℤ) ≤ ⌊q * 10 ^ 16 + 1 / 2⌋ := Int.le_floor.mpr (by exact_mod_cast this)
  exact_mod_cast h1


theorem annuityLoop_spec (env : Env) (fuel : Nat) (loanId : Int) (product : Product)
    (r pwt : Decimal) (g : Int)
    (hroll : ∀ t, ∃ t', nextDate env fuel product t = some t') :
    ∀ (k : Nat) (i : Int) (t : Time) (b : Decimal) (gen : IDGenerator),
      ∃ rows, annuityLoop env fuel loanId product r pwt g k i t b gen = some rows ∧
        rows.length = k ∧
        (∀ (j : Nat) (s : Schedule), rows[j]? = some s →
          s.Period = i + j ∧
          (i + j ≤ g → s.Principal = Decimal.Zero ∧ s.Interest.val = b.val * r.val) ∧
          (g < i + j → s.Principal.val =
            (pwt.val - b.val * r.val) * (1 + r.val) ^ (i + j - max i (g + 1)).toNat)) ∧
        r.val * (rows.map (fun s => s.Principal.val)).sum =
          (pwt.val - b.val * r.val) * ((1 + r.val) ^ (i + k - max i (g + 1)).toNat - 1) := by
  intro k
  induction k with
  | zero =>
    intro i t b gen
    refine ⟨[], rfl, rfl, ?_, ?_⟩
    · intro j s h; simp at h
    · have : (i + ((0 : Nat) : Int) - max i (g + 1)).toNat = 0 := by omega
      rw [this]; simp
  | succ k ih =>
    intro i t b gen
    obtain ⟨t', ht'⟩ := hroll t
    by_cases hig : i ≤ g
    · obtain ⟨rows, hrows, hlen, hrow, hsum⟩ :=
        ih (i + 1) t' b (gen.skip (1 + product.Fees.length))
      refine ⟨NewSchedule env (gen 0) loanId i t' Decimal.Zero (b.Mul r)
        (stampFees gen.next (gen 0) product.Fees) :: rows, ?_, ?_, ?_, ?_⟩
      · simp only [annuityLoop, ht', if_pos hig, hrows, Option.map_some']
      · simp [hlen]
      · intro j s hj
        cases j with
        | zero =>
          simp only [List.getElem?_cons_zero, Option.some.injEq] at hj
          subst hj
          refine ⟨by simp [NewSchedule], ?_, ?_⟩
          · intro _; simp [NewSchedule]
          · intro h; simp at h; omega
        | succ j =>
          simp only [List.getElem?_cons_succ] at hj
          obtain ⟨hp, hgr, ham⟩ := hrow j s hj
          refine ⟨by rw [hp]; push_cast; ring, ?_, ?_⟩
          · intro h; apply hgr; push_cast at h; omega
          · intro h
            rw [ham (by push_cast at h; omega)]
            have e : (i + 1 + (j : Int) - max (i + 1) (g + 1)).toNat
                = (i + ((j + 1 : Nat) : Int) - max i (g + 1)).toNat := by
              push_cast; omega
            rw [e]
      · simp only [List.map_cons, List.sum_cons, NewSchedule, Decimal.val_Zero, zero_add]
        have e : (i + 1 + (k : Int) - max (i + 1) (g + 1)).toNat
            = (i + ((k + 1 : Nat) : Int) - max i (g + 1)).toNat := by
          push_cast; omega
        rw [hsum, e]
    · obtain ⟨rows, hrows, hlen, hrow, hsum⟩ :=
        ih (i + 1) t' (b.Sub (pwt.Sub (b.Mul r))) (gen.skip (1 + product.Fees.length))
      refine ⟨NewSchedule env (gen 0) loanId i t' (pwt.Sub (b.Mul r)) (b.Mul r)
        (stampFees gen.next (gen 0) product.Fees) :: rows, ?_, ?_, ?_, ?_⟩
      · simp only [annuityLoop, ht', if_neg hig, hrows, Option.map_some']
      · simp [hlen]
      · intro j s hj
        cases j with
        | zero =>
          simp only [List.getElem?_cons_zero, Option.some.injEq] at hj
          subst hj
          refine ⟨by simp [NewSchedule], ?_, ?_⟩
          · intro h; simp at h; omega
          · intro _
            have : (i + ((0 : Nat) : Int) - max i (g + 1)).toNat = 0 := by omega
            rw [this]
            simp [NewSchedule]
        | succ j =>
          simp only [List.getElem?_cons_succ] at hj
          obtain ⟨hp, hgr, ham⟩ := hrow j s hj
          refine ⟨by rw [hp]; push_cast; ring, ?_, ?_⟩
          · intro h; push_cast at h; omega
          · intro h
            rw [ham (by push_cast at h; omega)]
            have e1 : (i + 1 + (j : Int) - max (i + 1) (g + 1)).toNat = j := by omega
            have e2 : (i + ((j + 1 : Nat) : Int) - max i (g + 1)).toNat = j + 1 := by
              push_cast; omega
            rw [e1, e2]
            simp only [Decimal.val_Sub, Decimal.val_Mul]
            ring
      · simp only [List.map_cons, List.sum_cons, NewSchedule, Decimal.val_Sub, Decimal.val_Mul]
        have e1 : (i + 1 + (k : Int) - max (i + 1) (g + 1)).toNat = k := by omega
        have e2 : (i + ((k + 1 : Nat) : Int) - max i (g + 1)).toNat = k + 1 := by
          push_cast; omega
        rw [e1] at hsum
        rw [e2, mul_add, hsum]
        simp only [Decimal.val_Sub, Decimal.val_Mul]
        ring

theorem equalPrincipalLoop_spec (env : Env) (fuel : Nat) (loanId : Int) (product : Product)
    (r p : Decimal) (g : Int)
    (hroll : ∀ t, ∃ t', nextDate env fuel product t = some t') :
    ∀ (k : Nat) (i : Int) (t : Time) (b : Decimal) (gen : IDGenerator),
      ∃ rows, equalPrincipalLoop env fuel loanId product r p g k i t b gen = some rows ∧
        rows.length = k ∧
        (∀ (j : Nat) (s : Schedule), rows[j]? = some s →
          s.Period = i + j ∧
          (i + j ≤ g → s.Principal = Decimal.Zero ∧ s.Interest.val = b.val * r.val) ∧
          (g < i + j → s.Principal = p ∧ s.Interest.val =
            (b.val - ((i + j - max i (g + 1)).toNat + 1 : ℕ) * p.val) * r.val)) ∧
        (rows.map (fun s => s.Principal.val)).sum =
          ((i + k - max i (g + 1)).toNat : ℕ) * p.val := by
  intro k
  induction k with
  | zero =>
    intro i t b gen
    refine ⟨[], rfl, rfl, ?_, ?_⟩
    · intro j s h; simp at h
    · have : (i + ((0 : Nat) : Int) - max i (g + 1)).toNat = 0 := by omega
      rw [this]; simp
  | succ k ih =>
    intro i t b gen
    obtain ⟨t', ht'⟩ := hroll t
    by_cases hig : i ≤ g
    · obtain ⟨rows, hrows, hlen, hrow, hsum⟩ :=
        ih (i + 1) t' b (gen.skip (1 + product.Fees.length))
      refine ⟨NewSchedule env (gen 0) loanId i t' Decimal.Zero (b.Mul r)
        (stampFees gen.next (gen 0) product.Fees) :: rows, ?_, ?_, ?_, ?_⟩
      · simp only [equalPrincipalLoop, ht', if_pos hig, hrows, Option.map_some']
      · simp [hlen]
      · intro j s hj
        cases j with
        | zero =>
          simp only [List.getElem?_cons_zero, Option.some.injEq] at hj
          subst hj
          refine ⟨by simp [NewSchedule], ?_, ?_⟩
          · intro _; simp [NewSchedule]
          · intro h; simp at h; omega
        | succ j =>
          simp only [List.getElem?_cons_succ] at hj
          obtain ⟨hp, hgr, ham⟩ := hrow j s hj
          refine ⟨by rw [hp]; push_cast; ring, ?_, ?_⟩
          · intro h; apply hgr; push_cast at h; omega
          · intro h
            have e : (i + 1 + (j : Int) - max (i + 1) (g + 1)).toNat
                = (i + ((j + 1 : Nat) : Int) - max i (g + 1)).toNat := by
              push_cast; omega
            rw [← e]
            exact ham (by push_cast at h; omega)
      · simp only [List.map_cons, List.sum_cons, NewSchedule, Decimal.val_Zero, zero_add]
        have e : (i + 1 + (k : Int) - max (i + 1) (g + 1)).toNat
            = (i + ((k + 1 : Nat) : Int) - max i (g + 1)).toNat := by
          push_cast; omega
        rw [hsum, e]
    · obtain ⟨rows, hrows, hlen, hrow, hsum⟩ :=
        ih (i + 1) t' (b.Sub p) (gen.skip (1 + product.Fees.length))
      refine ⟨NewSchedule env (gen 0) loanId i t' p ((b.Sub p).Mul r)
        (stampFees gen.next (gen 0) product.Fees) :: rows, ?_, ?_, ?_, ?_⟩
      · simp only [equalPrincipalLoop, ht', if_neg hig, hrows, Option.map_some']
      · simp [hlen]
      · intro j s hj
        cases j with
        | zero =>
          simp only [List.getElem?_cons_zero, Option.some.injEq] at hj
          subst hj
          refine ⟨by simp [NewSchedule], ?_, ?_⟩
          · intro h; simp at h; omega
          · intro _
            have : (i + ((0 : Nat) : Int) - max i (g + 1)).toNat = 0 := by omega
            rw [this]
            simp [NewSchedule]
        | succ j =>
          simp only [List.getElem?_cons_succ] at hj
          obtain ⟨hp, hgr, ham⟩ := hrow j s hj
          refine ⟨by rw [hp]; push_cast; ring, ?_, ?_⟩
          · intro h; push_cast at h; omega
          · intro h
            obtain ⟨h1, h2⟩ := ham (by push_cast at h; omega)
            refine ⟨h1, ?_⟩
            have e1 : (i + 1 + (j : Int) - max (i + 1) (g + 1)).toNat = j := by omega
            have e2 : (i + ((j + 1 : Nat) : Int) - max i (g + 1)).toNat = j + 1 := by
              push_cast; omega
            rw [h2, e1, e2]
            simp only [Decimal.val_Sub]
            push_cast; ring
      · simp only [List.map_cons, List.sum_cons, NewSchedule]
        have e1 : (i + 1 + (k : Int) - max (i + 1) (g + 1)).toNat = k := by omega
        have e2 : (i + ((k + 1 : Nat) : Int) - max i (g + 1)).toNat = k + 1 := by
          push_cast; omega
        rw [hsum, e1, e2]
        push_cast; ring

/-- For a positive rate and at least one amortizing period the annuity payment is
the 16-digit rounding of `P (1+r)^n r / ((1+r)^n - 1)`. -/
theorem AnnuityPayment_eq (P r : Decimal) (n : Int) (hr : 0 < r.val) (hn : 1 ≤ n) :
    AnnuityPayment P n r = some (Decimal.num (Decimal.round16
      (P.val * (1 + r.val) ^ n.toNat * r.val / ((1 + r.val) ^ n.toNat - 1)))) := by
  have hn0 : 0 ≤ n := by omega
  have hpow : (1 : ℚ) < (1 + r.val) ^ n.toNat :=
    one_lt_pow₀ (by linarith) (by omega)
  have hne : (1 + r.val) ^ n.toNat - 1 ≠ 0 := by linarith
  have hbase : 1 + r.val ≠ 0 := by linarith
  simp [AnnuityPayment, Decimal.Div, Decimal.Pow, hn0, hne, hbase, add_comm]

theorem AnnuitySchedule_spec (env : Env) (fuel : Nat) (loanId : Int) (P0 : Decimal) (N : Int)
    (product : Product) (gen : IDGenerator) (r pwt : Decimal)
    (hrate : AnnualToPeriodRate env product.Interest product.PeriodType product.DayCountConv
      = some (.ok r))
    (hroll : ∀ t, ∃ t', nextDate env fuel product t = some t')
    (hN : 0 ≤ N) (hpwt : AnnuityPayment P0 (N - product.GraceTerm) r = some pwt) :
    ∃ rows, AnnuitySchedule env fuel loanId P0 N product gen = some (.ok rows) ∧
      rows.length = N.toNat ∧
      (∀ (j : Nat) (s : Schedule), rows[j]? = some s →
        s.Period = 1 + j ∧
        (1 + (j : Int) ≤ product.GraceTerm →
          s.Principal = Decimal.Zero ∧ s.Interest.val = P0.val * r.val) ∧
        (product.GraceTerm < 1 + (j : Int) → s.Principal.val =
          (pwt.val - P0.val * r.val) *
            (1 + r.val) ^ (1 + (j : Int) - max 1 (product.GraceTerm + 1)).toNat)) ∧
      r.val * (rows.map (fun s => s.Principal.val)).sum =
        (pwt.val - P0.val * r.val) *
          ((1 + r.val) ^ (1 + (N.toNat : Int) - max 1 (product.GraceTerm + 1)).toNat - 1) := by
  obtain ⟨rows, h1, h2, h3, h4⟩ := annuityLoop_spec env fuel loanId product r pwt
    product.GraceTerm hroll N.toNat 1 env.cfg.Clock P0 gen
  refine ⟨rows, ?_, h2, h3, h4⟩
  simp [AnnuitySchedule, not_lt.mpr hN, hrate, hpwt, h1]

theorem EqualPrincipalSchedule_spec (env : Env) (fuel : Nat) (loanId : Int) (P0 : Decimal)
    (N : Int) (product : Product) (gen : IDGenerator) (r : Decimal)
    (hrate : AnnualToPeriodRate env product.Interest product.PeriodType product.DayCountConv
      = some (.ok r))
    (hroll : ∀ t, ∃ t', nextDate env fuel product t = some t')
    (hN : 0 ≤ N) (hG : product.GraceTerm ≠ N) :
    ∃ rows, EqualPrincipalSchedule env fuel loanId P0 N product gen = some (.ok rows) ∧
      rows.length = N.toNat ∧
      (∀ (j : Nat) (s : Schedule), rows[j]? = some s →
        s.Period = 1 + j ∧
        (1 + (j : Int) ≤ product.GraceTerm →
          s.Principal = Decimal.Zero ∧ s.Interest.val = P0.val * r.val) ∧
        (product.GraceTerm < 1 + (j : Int) →
          s.Principal.val = Decimal.round16 (P0.val / (N - product.GraceTerm : Int)) ∧
          s.Interest.val = (P0.val -
            ((1 + (j : Int) - max 1 (product.GraceTerm + 1)).toNat + 1 : ℕ) *
              Decimal.round16 (P0.val / (N - product.GraceTerm : Int))) * r.val)) ∧
      (rows.map (fun s => s.Principal.val)).sum =
        ((1 + (N.toNat : Int) - max 1 (product.GraceTerm + 1)).toNat : ℕ) *
          Decimal.round16 (P0.val / (N - product.GraceTerm : Int)) := by
  have hne : ((N - product.GraceTerm : Int) : ℚ) ≠ 0 := by
    exact_mod_cast (fun h => hG (by omega))
  obtain ⟨rows, h1, h2, h3, h4⟩ := equalPrincipalLoop_spec env fuel loanId product r
    (Decimal.num (Decimal.round16 (P0.val / (N - product.GraceTerm : Int))))
    product.GraceTerm hroll N.toNat 1 env.cfg.Clock P0 gen
  refine ⟨rows, ?_, h2, ?_, h4⟩
  · simp only [EqualPrincipalSchedule, not_lt.mpr hN, if_false, hrate, Decimal.Div,
      Decimal.val_NewFromInt, hne, h1, Option.map_some']
  · intro j s hj
    obtain ⟨a, b, c⟩ := h3 j s hj
    refine ⟨a, b, fun h => ?_⟩
    obtain ⟨c1, c2⟩ := c h
    exact ⟨by rw [c1]; rfl, c2⟩

/-- The distance between the sum of the amortizing principals and the loan
principal, from the closed form of the sum: it is the rounding error of the
payment scaled by `((1+r)^n - 1) / r`. -/
theorem annuity_sum_error (P r q a S : ℚ) (hr : 0 < r) (hq : 1 < q)
    (h4 : r * S = (a - P * r) * (q - 1)) :
    S - P = (a - P * q * r / (q - 1)) * ((q - 1) / r) := by
  have hq0 : q - 1 ≠ 0 := by linarith
  have hr0 : r ≠ 0 := ne_of_gt hr
  field_simp
  linear_combination h4

/-- C1 (amended).  For P0 > 0, period rate r > 0, N ≥ 1 and grace term 0 ≤ G < N
(and holiday rolling that terminates) `AnnuitySchedule` returns rows whose
principal amounts sum to P0 within `5·10⁻¹⁷ · ((1+r)^(N-G) - 1) / r`, hence within
0.01 when `((1+r)^(N-G) - 1) / r ≤ 2·10¹⁴`; `EqualPrincipalSchedule` returns rows
whose principal amounts sum to P0 within `5·10⁻¹⁷ · (N-G)`, hence within 0.01 when
`N - G ≤ 2·10¹⁴`. -/
theorem C1_principal_sum_within_rounding (env : Env) (fuel : Nat) (loanId : Int) (P0 : Decimal)
    (N : Int) (product : Product) (gen : IDGenerator) (r : Decimal)
    (hrate : AnnualToPeriodRate env product.Interest product.PeriodType product.DayCountConv
      = some (.ok r))
    (hroll : ∀ t, ∃ t', nextDate env fuel product t = some t')
    (hP : 0 < P0.val) (hr : 0 < r.val) (hN : 1 ≤ N)
    (hG0 : 0 ≤ product.GraceTerm) (hG : product.GraceTerm < N) :
    (∃ rows, AnnuitySchedule env fuel loanId P0 N product gen = some (.ok rows) ∧
      |(rows.map (fun s => s.Principal.val)).sum - P0.val| ≤
        1 / (2 * 10 ^ 16) * (((1 + r.val) ^ (N - product.GraceTerm).toNat - 1) / r.val) ∧
      (((1 + r.val) ^ (N - product.GraceTerm).toNat - 1) / r.val ≤ 2 * 10 ^ 14 →
        |(rows.map (fun s => s.Principal.val)).sum - P0.val| ≤ 1 / 100)) ∧
    (∃ rows, EqualPrincipalSchedule env fuel loanId P0 N product gen = some (.ok rows) ∧
      |(rows.map (fun s => s.Principal.val)).sum - P0.val| ≤
        1 / (2 * 10 ^ 16) * ((N - product.GraceTerm : Int) : ℚ) ∧
      (N - product.GraceTerm ≤ 2 * 10 ^ 14 →
        |(rows.map (fun s => s.Principal.val)).sum - P0.val| ≤ 1 / 100)) := by
  have _ := hP
  have hn : 1 ≤ N - product.GraceTerm := by omega
  have hexp : (1 + (N.toNat : Int) - max 1 (product.GraceTerm + 1)).toNat
      = (N - product.GraceTerm).toNat := by omega
  constructor
  · obtain ⟨rows, h1, -, -, h4⟩ := AnnuitySchedule_spec env fuel loanId P0 N product gen r _
      hrate hroll (by omega) (AnnuityPayment_eq P0 r _ hr hn)
    rw [hexp] at h4
    simp only [Decimal.val_num] at h4
    have hq1 : 1 < (1 + r.val) ^ (N - product.GraceTerm).toNat :=
      one_lt_pow₀ (by linarith) (by omega)
    have hnn : 0 ≤ ((1 + r.val) ^ (N - product.GraceTerm).toNat - 1) / r.val :=
      div_nonneg (by linarith) hr.le
    have hbound : |(rows.map (fun s => s.Principal.val)).sum - P0.val| ≤
        1 / (2 * 10 ^ 16) * (((1 + r.val) ^ (N - product.GraceTerm).toNat - 1) / r.val) := by
      rw [annuity_sum_error _ _ _ _ _ hr hq1 h4, abs_mul, abs_of_nonneg hnn]
      exact mul_le_mul_of_nonneg_right (Decimal.round16_error _) hnn
    refine ⟨rows, h1, hbound, fun hsmall => le_trans hbound ?_⟩
    calc (1 : ℚ) / (2 * 10 ^ 16) * (((1 + r.val) ^ (N - product.GraceTerm).toNat - 1) / r.val)
        ≤ 1 / (2 * 10 ^ 16) * (2 * 10 ^ 14) :=
          mul_le_mul_of_nonneg_left hsmall (by positivity)
      _ = 1 / 100 := by norm_num
  · obtain ⟨rows, h1, -, -, h4⟩ := EqualPrincipalSchedule_spec env fuel loanId P0 N product gen r
      hrate hroll (by omega) (by omega)
    rw [hexp] at h4
    set S := (rows.map (fun s => s.Principal.val)).sum with hS
    have hcast : (((N - product.GraceTerm).toNat : ℕ) : ℚ) = ((N - product.GraceTerm : Int) : ℚ) := by
      have : (((N - product.GraceTerm).toNat : ℕ) : Int) = N - product.GraceTerm :=
        Int.toNat_of_nonneg (by omega)
      exact_mod_cast this
    rw [hcast] at h4
    set n : ℚ := ((N - product.GraceTerm : Int) : ℚ) with hnq
    have hnpos : 0 < n := by
      rw [hnq]; exact_mod_cast (by omega : 0 < N - product.GraceTerm)
    have hdiff : S - P0.val = n * (Decimal.round16 (P0.val / n) - P0.val / n) := by
      rw [h4]; field_simp; ring
    have hbound : |S - P0.val| ≤ 1 / (2 * 10 ^ 16) * n := by
      rw [hdiff, abs_mul, abs_of_pos hnpos, mul_comm]
      exact mul_le_mul_of_nonneg_right (Decimal.round16_error _) hnpos.le
    refine ⟨rows, h1, hbound, fun hsmall => le_trans hbound ?_⟩
    have hsmall' : n ≤ 2 * 10 ^ 14 := by
      rw [hnq]; exact_mod_cast hsmall
    calc (1 : ℚ) / (2 * 10 ^ 16) * n
        ≤ 1 / (2 * 10 ^ 16) * (2 * 10 ^ 14) :=
          mul_le_mul_of_nonneg_left hsmall' (by positivity)
      _ = 1 / 100 := by norm_num

/-- C1, counterexample.  Principal 1000.00 over 20 yearly periods at period rate 10,
no grace term: the annuity payment rounds to 10000, which is the interest of every
period, so every row has principal 0 and the principals sum to 0, not to 1000. -/
theorem C1_counterexample :
    ∃ rows, AnnuitySchedule exampleEnv 1 7 (.num 1000) 20 steepProduct exampleGen
        = some (.ok rows) ∧
      ¬ |(rows.map (fun s => s.Principal.val)).sum - 1000| ≤ 1 / 100 := by
  obtain ⟨rows, h1, -, -, h4⟩ := AnnuitySchedule_spec exampleEnv 1 7 (.num 1000) 20 steepProduct
    exampleGen (.num 10) (.num 10000) (by decide!) (fun _ => ⟨_, rfl⟩) (by decide) (by decide!)
  refine ⟨rows, h1, ?_⟩
  have h0 : (rows.map (fun s => s.Principal.val)).sum = 0 := by
    simp only [Decimal.val_num] at h4
    have : (10 : ℚ) * (rows.map (fun s => s.Principal.val)).sum = 0 := by
      rw [h4]; norm_num
    linarith
  rw [h0]; norm_num

/-- C1, witness: 12000.00 over 12 monthly periods at 12% a year. -/
theorem C1_witness :
    (∃ rows, AnnuitySchedule exampleEnv 1 7 (.num 12000) 12 exampleProduct exampleGen
        = some (.ok rows) ∧
      |(rows.map (fun s => s.Principal.val)).sum - 12000| ≤ 1 / 100) ∧
    (∃ rows, EqualPrincipalSchedule exampleEnv 1 7 (.num 12000) 12 exampleProduct exampleGen
        = some (.ok rows) ∧
      |(rows.map (fun s => s.Principal.val)).sum - 12000| ≤ 1 / 100) := by
  obtain ⟨⟨rows, h1, -, h3⟩, ⟨rows', h1', -, h3'⟩⟩ :=
    C1_principal_sum_within_rounding exampleEnv 1 7 (.num 12000) 12 exampleProduct exampleGen
      (.num (2547945205479453 / 250000000000000000)) (by decide!) (fun _ => ⟨_, rfl⟩)
      (by norm_num) (by norm_num) (by decide) (by decide) (by decide)
  have e : (12 - exampleProduct.GraceTerm).toNat = 12 := by decide
  rw [e] at h3
  exact ⟨⟨rows, h1, h3 (by norm_num)⟩, ⟨rows', h1', h3' (by decide)⟩⟩

/-- C2 (amended).  For P0 > 0, period rate r > 0, N ≥ 1 and grace term 0 ≤ G < N
(and holiday rolling that terminates) `AnnuitySchedule` and
`EqualPrincipalSchedule` each return exactly N rows with period numbers 1..N in
order; rows 1..G have principal `decimal.Zero` and interest `P0·r`, which is not
zero; rows G+1..N have strictly positive principal provided the principal part
survives the 16-digit rounding of the division: `P0·r / ((1+r)^(N-G) - 1) >
5·10⁻¹⁷` for `AnnuitySchedule`, `P0 / (N-G) ≥ 5·10⁻¹⁷` for
`EqualPrincipalSchedule`. -/
theorem C2_grace_rows_then_amortizing_rows (env : Env) (fuel : Nat) (loanId : Int)
    (P0 : Decimal) (N : Int) (product : Product) (gen : IDGenerator) (r : Decimal)
    (hrate : AnnualToPeriodRate env product.Interest product.PeriodType product.DayCountConv
      = some (.ok r))
    (hroll : ∀ t, ∃ t', nextDate env fuel product t = some t')
    (hP : 0 < P0.val) (hr : 0 < r.val) (hN : 1 ≤ N)
    (_hG0 : 0 ≤ product.GraceTerm) (hG : product.GraceTerm < N) :
    (∃ rows, AnnuitySchedule env fuel loanId P0 N product gen = some (.ok rows) ∧
      (rows.length : Int) = N ∧
      ∀ (j : Nat) (s : Schedule), rows[j]? = some s →
        s.Period = j + 1 ∧
        ((j : Int) + 1 ≤ product.GraceTerm →
          s.Principal = Decimal.Zero ∧ s.Interest.val = P0.val * r.val ∧ s.Interest.val ≠ 0) ∧
        (product.GraceTerm < (j : Int) + 1 →
          1 / (2 * 10 ^ 16) <
            P0.val * r.val / ((1 + r.val) ^ (N - product.GraceTerm).toNat - 1) →
          0 < s.Principal.val)) ∧
    (∃ rows, EqualPrincipalSchedule env fuel loanId P0 N product gen = some (.ok rows) ∧
      (rows.length : Int) = N ∧
      ∀ (j : Nat) (s : Schedule), rows[j]? = some s →
        s.Period = j + 1 ∧
        ((j : Int) + 1 ≤ product.GraceTerm →
          s.Principal = Decimal.Zero ∧ s.Interest.val = P0.val * r.val ∧ s.Interest.val ≠ 0) ∧
        (product.GraceTerm < (j : Int) + 1 →
          1 / (2 * 10 ^ 16) ≤ P0.val / ((N - product.GraceTerm : Int) : ℚ) →
          0 < s.Principal.val)) := by
  have hn : 1 ≤ N - product.GraceTerm := by omega
  have hPr : P0.val * r.val ≠ 0 := ne_of_gt (mul_pos hP hr)
  have hlen : ((N.toNat : ℕ) : Int) = N := Int.toNat_of_nonneg (by omega)
  constructor
  · obtain ⟨rows, h1, h2, h3, -⟩ := AnnuitySchedule_spec env fuel loanId P0 N product gen r _
      hrate hroll (by omega) (AnnuityPayment_eq P0 r _ hr hn)
    refine ⟨rows, h1, by rw [h2, hlen], fun j s hj => ?_⟩
    obtain ⟨a, b, c⟩ := h3 j s hj
    refine ⟨by rw [a]; ring, fun h => ?_, fun h hprec => ?_⟩
    · obtain ⟨b1, b2⟩ := b (by omega)
      exact ⟨b1, b2, by rw [b2]; exact hPr⟩
    · rw [c (by omega)]
      simp only [Decimal.val_num]
      have hq1 : 1 < (1 + r.val) ^ (N - product.GraceTerm).toNat :=
        one_lt_pow₀ (by linarith) (by omega)
      apply mul_pos _ (pow_pos (by linarith) _)
      have herr := (abs_le.mp (Decimal.round16_error
        (P0.val * (1 + r.val) ^ (N - product.GraceTerm).toNat * r.val /
          ((1 + r.val) ^ (N - product.GraceTerm).toNat - 1)))).1
      have hsplit : P0.val * (1 + r.val) ^ (N - product.GraceTerm).toNat * r.val /
          ((1 + r.val) ^ (N - product.GraceTerm).toNat - 1)
          = P0.val * r.val + P0.val * r.val / ((1 + r.val) ^ (N - product.GraceTerm).toNat - 1) := by
        have : (1 + r.val) ^ (N - product.GraceTerm).toNat - 1 ≠ 0 := by linarith
        field_simp
        ring
      linarith
  · obtain ⟨rows, h1, h2, h3, -⟩ := EqualPrincipalSchedule_spec env fuel loanId P0 N product gen r
      hrate hroll (by omega) (by omega)
    refine ⟨rows, h1, by rw [h2, hlen], fun j s hj => ?_⟩
    obtain ⟨a, b, c⟩ := h3 j s hj
    refine ⟨by rw [a]; ring, fun h => ?_, fun h hprec => ?_⟩
    · obtain ⟨b1, b2⟩ := b (by omega)
      exact ⟨b1, b2, by rw [b2]; exact hPr⟩
    · rw [(c (by omega)).1]
      exact Decimal.round16_pos _ hprec

/-- C2, counterexample.  Principal 1000.00 over 20 yearly periods at period rate 10,
no grace term: `AnnuitySchedule` returns rows, and the principal of the first one
is not strictly positive. -/
theorem C2_counterexample :
    ∃ rows s, AnnuitySchedule exampleEnv 1 7 (.num 1000) 20 steepProduct exampleGen
        = some (.ok rows) ∧ rows[0]? = some s ∧ ¬ 0 < s.Principal.val := by
  obtain ⟨rows, h1, h2, h3, -⟩ := AnnuitySchedule_spec exampleEnv 1 7 (.num 1000) 20 steepProduct
    exampleGen (.num 10) (.num 10000) (by decide!) (fun _ => ⟨_, rfl⟩) (by decide) (by decide!)
  have hlt : 0 < rows.length := by rw [h2]; decide
  refine ⟨rows, rows[0], h1, by simp [List.getElem?_eq_getElem hlt], ?_⟩
  obtain ⟨-, -, c⟩ := h3 0 rows[0] (by simp [List.getElem?_eq_getElem hlt])
  rw [c (by decide)]
  norm_num

/-- C2, witness: 6000.00 over 6 monthly periods at 10% a year with a grace term of
2 periods. -/
theorem C2_witness :
    (∃ rows, AnnuitySchedule exampleEnv 1 7 (.num 6000) 6 graceProduct exampleGen
        = some (.ok rows) ∧ (rows.length : Int) = 6 ∧
      ∀ (j : Nat) (s : Schedule), rows[j]? = some s →
        s.Period = j + 1 ∧
        ((j : Int) + 1 ≤ 2 → s.Principal = Decimal.Zero ∧ s.Interest.val ≠ 0) ∧
        (2 < (j : Int) + 1 → 0 < s.Principal.val)) ∧
    (∃ rows, EqualPrincipalSchedule exampleEnv 1 7 (.num 6000) 6 graceProduct exampleGen
        = some (.ok rows) ∧ (rows.length : Int) = 6 ∧
      ∀ (j : Nat) (s : Schedule), rows[j]? = some s →
        s.Period = j + 1 ∧
        ((j : Int) + 1 ≤ 2 → s.Principal = Decimal.Zero ∧ s.Interest.val ≠ 0) ∧
        (2 < (j : Int) + 1 → 0 < s.Principal.val)) := by
  obtain ⟨⟨rows, h1, h2, h3⟩, ⟨rows', h1', h2', h3'⟩⟩ :=
    C2_grace_rows_then_amortizing_rows exampleEnv 1 7 (.num 6000) 6 graceProduct exampleGen
      (.num (849315068493151 / 100000000000000000)) (by decide!) (fun _ => ⟨_, rfl⟩)
      (by norm_num) (by norm_num) (by decide) (by decide) (by decide)
  have e : (6 - graceProduct.GraceTerm).toNat = 4 := by decide
  have eg : graceProduct.GraceTerm = 2 := rfl
  rw [e] at h3
  rw [eg] at h3 h3'
  refine ⟨⟨rows, h1, h2, fun j s hj => ?_⟩, ⟨rows', h1', h2', fun j s hj => ?_⟩⟩
  · obtain ⟨a, b, c⟩ := h3 j s hj
    exact ⟨a, fun h => ⟨(b h).1, (b h).2.2⟩, fun h => c h (by norm_num)⟩
  · obtain ⟨a, b, c⟩ := h3' j s hj
    exact ⟨a, fun h => ⟨(b h).1, (b h).2.2⟩, fun h => c h (by norm_num)⟩

/-! ## Settling one row and one overdue record (C3, C4, C8, C9) -/

/-- C3, the code at the failing input.  `feeRow` (Unpaid, principal 1000.00, total
due 1010.00, one unpaid fee) receives 2000.00: the row becomes Paid and 990.00 is
returned, but the fee of the row still has status Unpaid. -/
theorem C3_TryToPay_leaves_fee_unpaid :
    ((feeRow.TryToPay exampleEnv (.num 2000)).1.Status = SchedulePaid ∧
      (feeRow.TryToPay exampleEnv (.num 2000)).2.val = 2000 - (1010 - 0)) ∧
    (feeRow.TryToPay exampleEnv (.num 2000)).1.ServiceFee.map (fun v => v.Status)
      = [FeeStatusUnPaid] := by
  decide!

/-- C4, the code at the failing input.  `plainRow` (Unpaid, interest 10.00, total
due 1010.00, nothing paid) receives 5.00, less than the interest: `TryToPay`
marks the row Paid, leaves `TotalPaymentPaid` at 0 and returns -1005.00, while the
state machine `tryToPay` on the same input keeps the row Unpaid, books the 5.00
and returns 0. -/
theorem C4_TryToPay_partial_interest_marks_paid :
    ((plainRow.TryToPay exampleEnv (.num 5)).1.Status = SchedulePaid ∧
      (plainRow.TryToPay exampleEnv (.num 5)).1.TotalPaymentPaid.val = 0 ∧
      (plainRow.TryToPay exampleEnv (.num 5)).2.val = -1005) ∧
    ((plainRow.tryToPay exampleEnv (.num 5)).1.Status = ScheduleUnpaid ∧
      (plainRow.tryToPay exampleEnv (.num 5)).1.TotalPaymentPaid.val = 5 ∧
      (plainRow.tryToPay exampleEnv (.num 5)).2.val = 0) := by
  decide!

/-- C8, the code at the failing input.  `exampleRecord` (15.00 accrued, nothing
paid, Accruing) receives 5.00: `PenaltyPaid` stays 0, the record becomes Cleared,
and 0 is returned. -/
theorem C8_TryToPay_keeps_PenaltyPaid_and_clears :
    (exampleRecord.TryToPay exampleEnv (.num 5)).1.PenaltyPaid.val = 0 ∧
    (exampleRecord.TryToPay exampleEnv (.num 5)).1.Statue = OverdueStatusCleared ∧
    (exampleRecord.TryToPay exampleEnv (.num 5)).2.val = 0 := by
  decide!

/-- C9.  `OverdueRecord.TryToPay`: a record that is not Cleared and receives at
least its unpaid penalty becomes Cleared and the surplus is returned; a record
that is not Cleared and receives less returns 0; a Cleared record returns the
amount and is left as it was. -/
theorem C9_OverdueRecord_TryToPay_result (env : Env) (o : OverdueRecord) (amount : Decimal) :
    (o.Statue ≠ OverdueStatusCleared → o.PenaltyAccrued.val - o.PenaltyPaid.val ≤ amount.val →
      (o.TryToPay env amount).1.Statue = OverdueStatusCleared ∧
      (o.TryToPay env amount).2.val = amount.val - (o.PenaltyAccrued.val - o.PenaltyPaid.val)) ∧
    (o.Statue ≠ OverdueStatusCleared → amount.val < o.PenaltyAccrued.val - o.PenaltyPaid.val →
      (o.TryToPay env amount).2.val = 0) ∧
    (o.Statue = OverdueStatusCleared → o.TryToPay env amount = (o, amount)) := by
  refine ⟨fun hs hle => ?_, fun hs hlt => ?_, fun hs => ?_⟩
  · have hc : ¬ amount.val < o.PenaltyAccrued.val - o.PenaltyPaid.val := not_lt.mpr hle
    have hcmp : amount.Cmp (o.PenaltyAccrued.Sub o.PenaltyPaid) ≠ -1 := by
      simp only [Decimal.Cmp, Decimal.val_Sub, if_neg hc]
      split <;> decide
    simp [OverdueRecord.TryToPay, if_neg hs, if_neg hcmp]
  · have hcmp : amount.Cmp (o.PenaltyAccrued.Sub o.PenaltyPaid) = -1 := by
      simp only [Decimal.Cmp, Decimal.val_Sub, if_pos hlt]
    simp [OverdueRecord.TryToPay, if_neg hs, hcmp]
  · simp [OverdueRecord.TryToPay, hs]

/-- C9, witness: `exampleRecord` with 20.00, with 5.00, and once Cleared. -/
theorem C9_witness :
    ((exampleRecord.TryToPay exampleEnv (.num 20)).1.Statue = OverdueStatusCleared ∧
      (exampleRecord.TryToPay exampleEnv (.num 20)).2.val = 20 - (15 - 0)) ∧
    (exampleRecord.TryToPay exampleEnv (.num 5)).2.val = 0 ∧
    ({ exampleRecord with Statue := OverdueStatusCleared } : OverdueRecord).TryToPay exampleEnv
        (.num 5)
      = ({ exampleRecord with Statue := OverdueStatusCleared }, .num 5) :=
  ⟨(C9_OverdueRecord_TryToPay_result exampleEnv exampleRecord (.num 20)).1 (by decide)
      (by decide!),
    (C9_OverdueRecord_TryToPay_result exampleEnv exampleRecord (.num 5)).2.1 (by decide)
      (by decide!),
    (C9_OverdueRecord_TryToPay_result exampleEnv
      { exampleRecord with Statue := OverdueStatusCleared } (.num 5)).2.2 rfl⟩

/-! ## The repayment waterfall (C5, C6, C7, C10) -/

/-- C5, the code at the failing input.  One current row of total due 522.30, no
overdue records, 485.00 repaid: `NormalRepay` returns without error, the row is
Paid, the returned remainder is -37.30 and a repayment of 522.30 is recorded. -/
theorem C5_NormalRepay_short_payment_succeeds :
    (NormalRepay exampleEnv (exampleLoan [dueRow 1 false] []) (.num 485) exampleGen).map
        (fun res => (res.2.2, res.1.Schedules.map (fun s => s.Status), res.2.1.val,
          res.1.Repayments.map (fun p => p.TotalAmount.val)))
      = some (none, [SchedulePaid], -(3730 / 100), [52230 / 100]) := by
  decide!

/-- C6, the code at the failing input.  One overdue record with 15.00 of unpaid
penalty and a repayment of exactly 15.00: `NormalRepay` fails with
`ErrInsufficientForPenalty`. -/
theorem C6_NormalRepay_exact_penalty_fails :
    (NormalRepay exampleEnv (exampleLoan [dueRow 1 true, dueRow 2 false] [exampleRecord])
        (.num 15) exampleGen).map (fun res => (res.2.2, res.2.1.val))
      = some (some .ErrInsufficientForPenalty, 0) := by
  decide!

/-- C7, the code at the failing input.  One overdue record with 15.00 accrued and a
repayment of 500.00: `NormalRepay` and `PreRepay` both return without error, and
the record stored in the aggregate is still Accruing with nothing paid. -/
theorem C7_repay_leaves_stored_record_uncleared :
    (NormalRepay exampleEnv (exampleLoan [dueRow 1 true, dueRow 2 false] [exampleRecord])
        (.num 500) exampleGen).map
        (fun res => (res.2.2, res.1.OverdueRecords.map (fun o => (o.Statue, o.PenaltyPaid.val))))
      = some (none, [(OverdueStatusAccruing, 0)]) ∧
    (PreRepay exampleEnv 1 (exampleLoan [dueRow 1 true, dueRow 2 false] [exampleRecord])
        (.num 500) exampleGen PrepayTermReduction).map
        (fun res => (res.2.2, res.1.OverdueRecords.map (fun o => (o.Statue, o.PenaltyPaid.val))))
      = some (none, [(OverdueStatusAccruing, 0)]) := by
  decide!

/-- Over records that are not Cleared and have accrued more than was paid, the
penalty loop leaves through its error return exactly when the amount does not
exceed the total unpaid penalty. -/
theorem penaltyLoop_fails_iff (env : Env) : ∀ (records : List OverdueRecord) (rem : Decimal),
    (∀ o ∈ records, o.Statue ≠ OverdueStatusCleared ∧ o.PenaltyPaid.val < o.PenaltyAccrued.val) →
    ((penaltyLoop env Decimal.IsZero records rem).2 = true ↔
      records ≠ [] ∧ rem.val ≤ unpaidPenalty records)
  | [], rem, _ => by simp [penaltyLoop]
  | o :: rest, rem, h => by
    have ho := h o (List.mem_cons_self _ _)
    have hrest : ∀ o' ∈ rest, o'.Statue ≠ OverdueStatusCleared ∧
        o'.PenaltyPaid.val < o'.PenaltyAccrued.val :=
      fun o' ho' => h o' (List.mem_cons_of_mem _ ho')
    have ih := penaltyLoop_fails_iff env rest
    have hnn : 0 ≤ unpaidPenalty rest := by
      unfold unpaidPenalty
      apply List.sum_nonneg
      intro x hx
      obtain ⟨o', ho', rfl⟩ := List.mem_map.mp hx
      have := (hrest o' ho').2
      linarith
    have hsum : unpaidPenalty (o :: rest)
        = (o.PenaltyAccrued.val - o.PenaltyPaid.val) + unpaidPenalty rest := by
      simp [unpaidPenalty]
    rw [hsum]
    simp only [penaltyLoop, OverdueRecord.TryToPay, if_neg ho.1, ne_eq, not_false_eq_true,
      reduceCtorEq, true_and]
    by_cases hlt : rem.val < o.PenaltyAccrued.val - o.PenaltyPaid.val
    · have hcmp : rem.Cmp (o.PenaltyAccrued.Sub o.PenaltyPaid) = -1 := by
        simp only [Decimal.Cmp, Decimal.val_Sub, if_pos hlt]
      simp only [hcmp, if_true]
      have hz : Decimal.Zero.IsZero = true := by decide
      rw [if_pos hz]
      simp only [true_iff]
      linarith
    · have hcmp : rem.Cmp (o.PenaltyAccrued.Sub o.PenaltyPaid) ≠ -1 := by
        simp only [Decimal.Cmp, Decimal.val_Sub, if_neg hlt]
        split <;> decide
      simp only [if_neg hcmp]
      by_cases heq : rem.val = o.PenaltyAccrued.val - o.PenaltyPaid.val
      · have hz : (rem.Sub (o.PenaltyAccrued.Sub o.PenaltyPaid)).IsZero = true := by
          simp [Decimal.IsZero, heq]
        rw [if_pos hz]
        simp only [true_iff]
        linarith
      · have hz : ¬ (rem.Sub (o.PenaltyAccrued.Sub o.PenaltyPaid)).IsZero = true := by
          simp only [Decimal.IsZero, Decimal.val_Sub, decide_eq_true_eq]
          intro h0
          exact heq (by linarith)
        rw [if_neg hz, ih _ hrest]
        simp only [Decimal.val_Sub]
        constructor
        · rintro ⟨-, hle⟩
          linarith
        · intro hle
          have hgt : o.PenaltyAccrued.val - o.PenaltyPaid.val < rem.val :=
            lt_of_le_of_ne (not_lt.mp hlt) (fun h => heq h.symm)
          refine ⟨?_, by linarith⟩
          rintro rfl
          simp [unpaidPenalty] at hle
          linarith

/-- What `NormalRepay` does about the penalty error: over a non-empty schedule list
and overdue records that are not Cleared and have accrued more than was paid, it
returns `ErrInsufficientForPenalty` exactly when the amount is at most the total
unpaid penalty, the equal amount included. -/
theorem NormalRepay_penalty_error_iff (env : Env) (l : LoanExtra) (amount : Decimal)
    (generator : IDGenerator) (hs : l.Schedules ≠ []) (hr : l.OverdueRecords ≠ [])
    (hrec : ∀ o ∈ l.OverdueRecords,
      o.Statue ≠ OverdueStatusCleared ∧ o.PenaltyPaid.val < o.PenaltyAccrued.val) :
    (∃ l' remaining, NormalRepay env l amount generator
        = some (l', remaining, some .ErrInsufficientForPenalty)) ↔
      amount.val ≤ unpaidPenalty l.OverdueRecords := by
  have hlen : ¬ l.Schedules.length = 0 := by
    simpa [List.length_eq_zero] using hs
  have hov : l.HasOverdue = true := by
    simpa [LoanExtra.HasOverdue, List.length_eq_zero] using hr
  have hiff := penaltyLoop_fails_iff env l.OverdueRecords amount hrec
  simp only [NormalRepay, if_neg hlen, hov, if_true]
  rcases hpen : penaltyLoop env Decimal.IsZero l.OverdueRecords amount with ⟨rem1, _ | _⟩
  · rw [hpen] at hiff
    simp only [Bool.false_eq_true, false_iff, not_and] at hiff
    constructor
    · rintro ⟨l', remaining, h⟩
      exfalso
      dsimp only at h
      rcases hpay : payLoop env
          ((locate l.Schedules 0 idxNotFound).2 -
            (if (locate l.Schedules 0 idxNotFound).1 = idxNotFound then
              (locate l.Schedules 0 idxNotFound).2
            else (locate l.Schedules 0 idxNotFound).1) + 1).toNat
          (if (locate l.Schedules 0 idxNotFound).1 = idxNotFound then
              (locate l.Schedules 0 idxNotFound).2
            else (locate l.Schedules 0 idxNotFound).1) l.Schedules rem1
        with _ | ⟨ss, rem2, _ | _⟩
      all_goals (rw [hpay] at h; simp at h)
    · intro hle
      exact absurd hle (hiff hr)
  · rw [hpen] at hiff
    simp only [true_iff] at hiff
    exact ⟨fun _ => hiff.2, fun _ => ⟨_, _, rfl⟩⟩

/-- The indices found by the locating loop lie inside the slice it scanned (or keep
their initial values). -/
theorem locate_bounds : ∀ (ss : List Schedule) (i fo : Int),
    ((locate ss i fo).2 = 0 ∨ (i ≤ (locate ss i fo).2 ∧ (locate ss i fo).2 < i + ss.length)) ∧
    ((locate ss i fo).1 = fo ∨ (i ≤ (locate ss i fo).1 ∧ (locate ss i fo).1 < i + ss.length))
  | [], i, fo => by simp [locate]
  | s :: rest, i, fo => by
    have ih1 := locate_bounds rest (i + 1) fo
    have ih2 := locate_bounds rest (i + 1) i
    simp only [List.length_cons, Nat.cast_add, Nat.cast_one]
    by_cases hp : s.Status = SchedulePaid
    · simp only [locate, if_pos hp]
      omega
    · by_cases ho : s.Overdue = true
      · by_cases hf : fo = idxNotFound
        · subst hf
          simp [locate, hp, ho]
          omega
        · simp [locate, hp, ho, hf]
          omega
      · simp [locate, hp, ho]

/-- The settlement loop does not leave the slice when its index range lies inside. -/
theorem payLoop_isSome (env : Env) : ∀ (k : Nat) (i : Int) (ss : List Schedule) (rem : Decimal),
    (k = 0 ∨ (0 ≤ i ∧ i + k ≤ ss.length)) → ∃ res, payLoop env k i ss rem = some res
  | 0, _, ss, rem, _ => ⟨_, rfl⟩
  | k + 1, i, ss, rem, h => by
    have hi : 0 ≤ i ∧ i + (k + 1 : Nat) ≤ ss.length := by
      rcases h with h | h
      · omega
      · exact h
    have hlt : i.toNat < ss.length := by omega
    simp only [payLoop, if_neg (not_lt.mpr hi.1), List.getElem?_eq_getElem hlt]
    split
    · exact ⟨_, rfl⟩
    · apply payLoop_isSome
      right
      simp only [List.length_set]
      push_cast at hi ⊢
      omega

/-- Totality of `NormalRepay`: its index arithmetic never leaves the slice. -/
theorem NormalRepay_isSome (env : Env) (l : LoanExtra) (amount : Decimal)
    (generator : IDGenerator) : ∃ res, NormalRepay env l amount generator = some res := by
  unfold NormalRepay
  split
  · exact ⟨_, rfl⟩
  · rename_i hlen
    have hb := locate_bounds l.Schedules 0 idxNotFound
    have hpos : 0 < l.Schedules.length := Nat.pos_of_ne_zero hlen
    rcases hloc : locate l.Schedules 0 idxNotFound with ⟨fo, cur⟩
    rw [hloc] at hb
    simp only [idxNotFound] at hb ⊢
    split
    · exact ⟨_, rfl⟩
    · obtain ⟨res, hres⟩ := payLoop_isSome env
        (cur - (if fo = -1 then cur else fo) + 1).toNat (if fo = -1 then cur else fo)
        l.Schedules (by assumption) (by
          split <;> omega)
      rw [hres]
      rcases res with ⟨ss, rem, b⟩
      cases b <;> exact ⟨_, rfl⟩

theorem termReductionLoop_Repayments (env : Env) (gen : IDGenerator) :
    ∀ (n : Nat) (l : LoanExtra) (money : Decimal) (l' : LoanExtra) (money' : Decimal),
      termReductionLoop env gen n l money = some (l', money') → l'.Repayments = l.Repayments
  | 0, l, money, l', money', h => by
    simp only [termReductionLoop, Option.some.injEq, Prod.mk.injEq] at h
    rw [← h.1]
  | n + 1, l, money, l', money', h => by
    simp only [termReductionLoop] at h
    rcases hs : l.Schedules[n]? with _ | s
    · rw [hs] at h; exact absurd h (by simp)
    · rw [hs] at h
      simp only at h
      by_cases hst : s.Status = SchedulePaid ∨ s.Status = ScheduleRemoved
      · rw [if_pos hst] at h
        exact termReductionLoop_Repayments env gen n _ _ _ _ h
      · rw [if_neg hst] at h
        by_cases hc : money.Cmp (s.Principal.Mul (one.Add l.Product.DefaultRate)) ≥ 0
        · rw [if_pos hc] at h
          exact (termReductionLoop_Repayments env gen n _ _ _ _ h).trans rfl
        · rw [if_neg hc] at h
          rcases hd : money.Div (one.Add l.Product.DefaultRate) with _ | x
          · rw [hd] at h; exact absurd h (by simp)
          · rw [hd] at h
            simp only [Option.some.injEq, Prod.mk.injEq] at h
            rw [← h.1]
            split <;> rfl

theorem foldl_AddSchedule_Repayments (env : Env) : ∀ (rows : List Schedule) (l : LoanExtra),
    (rows.foldl (fun l ns => l.AddSchedule env ns) l).Repayments = l.Repayments
  | [], _ => rfl
  | ns :: rows, l => by
    simp only [List.foldl_cons]
    rw [foldl_AddSchedule_Repayments env rows]
    rfl

/-- The prepayment core does not touch the repayment history. -/
theorem prepayCore_Repayments (env : Env) (fuel : Nat) (l : LoanExtra) (money : Decimal)
    (gen : IDGenerator) (strategy : PrepayStrategy) (l' : LoanExtra) (money' : Decimal)
    (err : Option Error) (h : prepayCore env fuel l money gen strategy = some (l', money', err)) :
    l'.Repayments = l.Repayments := by
  simp only [prepayCore] at h
  by_cases hc : money.Cmp (l.OutstandingPrincipal.Mul (one.Add l.Product.DefaultRate)) ≥ 0
  · rw [if_pos hc] at h
    simp only [Option.some.injEq, Prod.mk.injEq] at h
    rw [← h.1]
  · rw [if_neg hc] at h
    by_cases hst : strategy = PrepayTermReduction
    · rw [if_pos hst] at h
      unfold prepayTermReduction at h
      rcases hloop : termReductionLoop env gen l.Schedules.length l money with _ | ⟨l2, m2⟩
      · rw [hloop] at h; exact absurd h (by simp)
      · rw [hloop] at h
        simp only [Option.map_some', Option.some.injEq, Prod.mk.injEq] at h
        rw [← h.1]
        exact termReductionLoop_Repayments env gen _ _ _ _ _ hloop
    · rw [if_neg hst] at h
      simp only [prepayPaymentReduction] at h
      split at h
      · simp only [Option.some.injEq, Prod.mk.injEq] at h
        rw [← h.1]
      · exact absurd h (by simp)
      · simp only [Option.some.injEq, Prod.mk.injEq] at h
        rw [← h.1, foldl_AddSchedule_Repayments]

theorem NormalRepay_history (env : Env) (l : LoanExtra) (amount : Decimal)
    (generator : IDGenerator) (l' : LoanExtra) (remaining : Decimal) (err : Option Error)
    (h : NormalRepay env l amount generator = some (l', remaining, err)) :
    HistoryRecorded l l' amount remaining err := by
  simp only [NormalRepay] at h
  by_cases hlen : l.Schedules.length = 0
  · rw [if_pos hlen] at h
    simp only [Option.some.injEq, Prod.mk.injEq] at h
    obtain ⟨rfl, rfl, rfl⟩ := h
    exact ⟨fun h => absurd h (by simp), fun _ => rfl⟩
  · rw [if_neg hlen] at h
    generalize (if l.HasOverdue = true then penaltyLoop env Decimal.IsZero l.OverdueRecords amount
      else (amount, false)) = pen at h
    rcases pen with ⟨rem1, _ | _⟩
    · simp only at h
      generalize payLoop env _ _ l.Schedules rem1 = pay at h
      rcases pay with _ | ⟨ss, rem2, _ | _⟩
      · exact absurd h (by simp)
      · simp only [Option.some.injEq, Prod.mk.injEq] at h
        obtain ⟨rfl, rfl, rfl⟩ := h
        refine ⟨fun _ => ⟨_, rfl, rfl, ?_⟩, fun h => absurd rfl h⟩
        simp [Repayment.AddAmount, NewRepayment]
      · simp only [Option.some.injEq, Prod.mk.injEq] at h
        obtain ⟨rfl, rfl, rfl⟩ := h
        exact ⟨fun h => absurd h (by simp), fun _ => rfl⟩
    · simp only [Option.some.injEq, Prod.mk.injEq] at h
      obtain ⟨rfl, rfl, rfl⟩ := h
      exact ⟨fun h => absurd h (by simp), fun _ => rfl⟩

theorem PreRepay_history (env : Env) (fuel : Nat) (l : LoanExtra) (amount : Decimal)
    (generator : IDGenerator) (strategy : PrepayStrategy) (l' : LoanExtra) (remaining : Decimal)
    (err : Option Error)
    (h : PreRepay env fuel l amount generator strategy = some (l', remaining, err)) :
    HistoryRecorded l l' amount remaining err := by
  simp only [PreRepay] at h
  generalize (if l.HasOverdue = true then
      penaltyLoop env (fun d => d.Equal Decimal.Zero) l.OverdueRecords amount
    else (amount, false)) = pen at h
  rcases pen with ⟨rem1, _ | _⟩
  · simp only at h
    generalize payLoop env _ _ l.Schedules rem1 = pay at h
    rcases pay with _ | ⟨ss, rem2, _ | _⟩
    · exact absurd h (by simp)
    · simp only at h
      by_cases hpos : rem2.Cmp Decimal.Zero > 0
      · rw [if_pos hpos] at h
        rcases hcore : prepayCore env fuel { l with Schedules := ss } rem2 generator.next strategy
          with _ | ⟨l3, rem3, _ | e⟩
        · rw [hcore] at h; exact absurd h (by simp)
        · rw [hcore] at h
          simp only [Option.some.injEq, Prod.mk.injEq] at h
          obtain ⟨rfl, rfl, rfl⟩ := h
          have hrep := prepayCore_Repayments _ _ _ _ _ _ _ _ _ hcore
          refine ⟨fun _ => ⟨(NewRepayment env (generator 0) l.ID).AddAmount (amount.Sub rem3),
            ?_, rfl, ?_⟩, fun h => absurd rfl h⟩
          · simp only [LoanExtra.AddRepayment, hrep]
          · simp [Repayment.AddAmount, NewRepayment]
        · rw [hcore] at h
          simp only [Option.some.injEq, Prod.mk.injEq] at h
          obtain ⟨rfl, rfl, rfl⟩ := h
          exact ⟨fun h => absurd h (by simp),
            fun _ => (prepayCore_Repayments _ _ _ _ _ _ _ _ _ hcore).trans rfl⟩
      · rw [if_neg hpos] at h
        simp only [Option.some.injEq, Prod.mk.injEq] at h
        obtain ⟨rfl, rfl, rfl⟩ := h
        refine ⟨fun _ => ⟨_, rfl, rfl, ?_⟩, fun h => absurd rfl h⟩
        simp [Repayment.AddAmount, NewRepayment]
    · simp only [Option.some.injEq, Prod.mk.injEq] at h
      obtain ⟨rfl, rfl, rfl⟩ := h
      exact ⟨fun h => absurd h (by simp), fun _ => rfl⟩
  · simp only [Option.some.injEq, Prod.mk.injEq] at h
    obtain ⟨rfl, rfl, rfl⟩ := h
    exact ⟨fun h => absurd h (by simp), fun _ => rfl⟩

/-- C10.  `NormalRepay` always returns.  Whenever `NormalRepay` or `PreRepay`
returns without error, the repayment history of the aggregate is the old history
followed by exactly one repayment, of status Processing and of `TotalAmount` equal
to the incoming amount minus the returned remainder; whenever they return an
error the history is unchanged. -/
theorem C10_repayment_history (env : Env) (fuel : Nat) (l : LoanExtra) (amount : Decimal)
    (generator : IDGenerator) (strategy : PrepayStrategy) :
    (∃ res, NormalRepay env l amount generator = some res) ∧
    (∀ l' remaining err, NormalRepay env l amount generator = some (l', remaining, err) →
      (err = none → ∃ rp : Repayment, l'.Repayments = l.Repayments ++ [rp] ∧
        rp.Status = RepayProcessing ∧ rp.TotalAmount.val = amount.val - remaining.val) ∧
      (err ≠ none → l'.Repayments = l.Repayments)) ∧
    (∀ l' remaining err,
      PreRepay env fuel l amount generator strategy = some (l', remaining, err) →
      (err = none → ∃ rp : Repayment, l'.Repayments = l.Repayments ++ [rp] ∧
        rp.Status = RepayProcessing ∧ rp.TotalAmount.val = amount.val - remaining.val) ∧
      (err ≠ none → l'.Repayments = l.Repayments)) :=
  ⟨NormalRepay_isSome env l amount generator,
    fun l' remaining err h => NormalRepay_history env l amount generator l' remaining err h,
    fun l' remaining err h =>
      PreRepay_history env fuel l amount generator strategy l' remaining err h⟩

/-- C10, witness: a successful `NormalRepay` of 500.00, a successful `PreRepay` of
1000.00 that reaches the prepayment core, and a `NormalRepay` of 15.00 that fails. -/
theorem C10_witness :
    (∃ l' remaining rp,
      NormalRepay exampleEnv (exampleLoan [dueRow 1 true, dueRow 2 false] [exampleRecord])
        (.num 500) exampleGen = some (l', remaining, none) ∧
      l'.Repayments = [] ++ [rp] ∧ rp.Status = RepayProcessing ∧
      rp.TotalAmount.val = 500 - remaining.val) ∧
    (∃ l' remaining rp,
      PreRepay exampleEnv 1
        (exampleLoan [dueRow 1 true, dueRow 2 false, dueRow 3 false] [exampleRecord])
        (.num 1000) exampleGen PrepayPaymentReduction = some (l', remaining, none) ∧
      l'.Repayments = [] ++ [rp] ∧ rp.Status = RepayProcessing ∧
      rp.TotalAmount.val = 1000 - remaining.val) ∧
    (∃ l' remaining err,
      NormalRepay exampleEnv (exampleLoan [dueRow 1 true, dueRow 2 false] [exampleRecord])
        (.num 15) exampleGen = some (l', remaining, some err) ∧
      l'.Repayments = []) := by
  have h1 : (NormalRepay exampleEnv (exampleLoan [dueRow 1 true, dueRow 2 false] [exampleRecord])
      (.num 500) exampleGen).map (fun res => res.2.2) = some none := by decide!
  have h2 : (PreRepay exampleEnv 1
      (exampleLoan [dueRow 1 true, dueRow 2 false, dueRow 3 false] [exampleRecord])
      (.num 1000) exampleGen PrepayPaymentReduction).map (fun res => res.2.2) = some none := by
    decide!
  have h3 : (NormalRepay exampleEnv (exampleLoan [dueRow 1 true, dueRow 2 false] [exampleRecord])
      (.num 15) exampleGen).map (fun res => res.2.2) = some (some .ErrInsufficientForPenalty) := by
    decide!
  obtain ⟨⟨l1, r1, e1⟩, hr1, he1⟩ := Option.map_eq_some'.mp h1
  obtain ⟨⟨l2, r2, e2⟩, hr2, he2⟩ := Option.map_eq_some'.mp h2
  obtain ⟨⟨l3, r3, e3⟩, hr3, he3⟩ := Option.map_eq_some'.mp h3
  simp only at he1 he2 he3
  subst he1 he2 he3
  refine ⟨?_, ?_, ?_⟩
  · obtain ⟨rp, hrp⟩ := ((C10_repayment_history exampleEnv 1 _ _ _ PrepayNot).2.1 l1 r1 none
      hr1).1 rfl
    exact ⟨l1, r1, rp, hr1, hrp⟩
  · obtain ⟨rp, hrp⟩ := ((C10_repayment_history exampleEnv 1 _ _ _ _).2.2 l2 r2 none hr2).1 rfl
    exact ⟨l2, r2, rp, hr2, hrp⟩
  · exact ⟨l3, r3, _, hr3,
      ((C10_repayment_history exampleEnv 1 _ _ _ PrepayNot).2.1 l3 r3 _ hr3).2 (by simp)⟩


/-! ## Prepayment core and term reduction (C11, C12) -/

theorem foldl_outstanding (rows : List Schedule) : ∀ acc : Decimal,
    (rows.foldl (fun sum s => if s.Status = ScheduleUnpaid then sum.Add s.Principal else sum)
      acc).val = acc.val + outstandingSum rows := by
  induction rows with
  | nil => intro acc; simp [outstandingSum]
  | cons s rest ih =>
    intro acc
    simp only [List.foldl_cons]
    rw [ih]
    by_cases hs : s.Status = ScheduleUnpaid
    · simp [outstandingSum, hs, List.filter_cons, add_assoc]
    · simp [outstandingSum, hs, List.filter_cons]

/-- The value of `OutstandingPrincipal` is the sum of the principal over the Unpaid
rows. -/
theorem OutstandingPrincipal_val (l : LoanExtra) :
    l.OutstandingPrincipal.val = outstandingSum l.Schedules := by
  unfold LoanExtra.OutstandingPrincipal
  rw [foldl_outstanding]
  simp

/-- The comparison `a.Cmp b >= 0` holds exactly when `b ≤ a` numerically. -/
theorem Decimal.Cmp_nonneg_iff (a b : Decimal) : a.Cmp b ≥ 0 ↔ b.val ≤ a.val := by
  unfold Decimal.Cmp
  by_cases h1 : a.val < b.val
  · simp only [if_pos h1]
    constructor
    · intro h; exact absurd h (by decide)
    · intro h; exact absurd h (not_le.mpr h1)
  · by_cases h2 : a.val = b.val
    · simp only [if_neg h1, if_pos h2]
      exact ⟨fun _ => le_of_eq h2.symm, fun _ => by decide⟩
    · simp only [if_neg h1, if_neg h2]
      exact ⟨fun _ => not_lt.mp h1, fun _ => by decide⟩

/-- C11.  For every loan, every strategy and every amount m with
`m ≥ outstanding · (1 + defaultRate)`, where `outstanding` is the sum of the
principal over the Unpaid rows, `prepayCore` returns without error, leaves every
schedule row with status Paid and otherwise as it was, appends no row, and returns
`m - outstanding`. -/
theorem C11_full_payoff_marks_every_row_paid (env : Env) (fuel : Nat) (l : LoanExtra)
    (m : Decimal) (gen : IDGenerator) (strategy : PrepayStrategy)
    (hm : outstandingSum l.Schedules * (1 + l.Product.DefaultRate.val) ≤ m.val) :
    ∃ l' remaining, prepayCore env fuel l m gen strategy = some (l', remaining, none) ∧
      l'.Schedules = l.Schedules.map (fun s => { s with Status := SchedulePaid }) ∧
      (∀ s ∈ l'.Schedules, s.Status = SchedulePaid) ∧
      l'.Schedules.length = l.Schedules.length ∧
      remaining.val = m.val - outstandingSum l.Schedules := by
  have hc : m.Cmp (l.OutstandingPrincipal.Mul (one.Add l.Product.DefaultRate)) ≥ 0 := by
    rw [Decimal.Cmp_nonneg_iff]
    simp only [Decimal.val_Mul, Decimal.val_Add, val_one, OutstandingPrincipal_val]
    exact hm
  refine ⟨{ l with Schedules := l.Schedules.map (fun s => { s with Status := SchedulePaid }) },
    m.Sub l.OutstandingPrincipal, ?_, rfl, ?_, ?_, ?_⟩
  · simp only [prepayCore, if_pos hc]
  · intro s hs
    obtain ⟨s0, -, rfl⟩ := List.mem_map.mp hs
    rfl
  · simp
  · simp [OutstandingPrincipal_val]

/-- C11, witness: ten Unpaid rows of principal 1000.00, default rate 0.02, and a
prepayment of 10200.00 under either strategy. -/
theorem C11_witness :
    (∃ l' remaining, prepayCore exampleEnv 1 (tenRowLoan 0) (.num 10200) exampleGen
        PrepayTermReduction = some (l', remaining, none) ∧
      (∀ s ∈ l'.Schedules, s.Status = SchedulePaid) ∧ l'.Schedules.length = 10 ∧
      remaining.val = 10200 - 10000) ∧
    (∃ l' remaining, prepayCore exampleEnv 1 (tenRowLoan 0) (.num 10200) exampleGen
        PrepayPaymentReduction = some (l', remaining, none) ∧
      (∀ s ∈ l'.Schedules, s.Status = SchedulePaid) ∧ l'.Schedules.length = 10 ∧
      remaining.val = 10200 - 10000) := by
  have hsum : outstandingSum (tenRowLoan 0).Schedules = 10000 := by decide!
  constructor
  · obtain ⟨l', remaining, h1, -, h3, h4, h5⟩ := C11_full_payoff_marks_every_row_paid exampleEnv 1
      (tenRowLoan 0) (.num 10200) exampleGen PrepayTermReduction (by decide!)
    exact ⟨l', remaining, h1, h3, h4, by rw [h5, hsum]; rfl⟩
  · obtain ⟨l', remaining, h1, -, h3, h4, h5⟩ := C11_full_payoff_marks_every_row_paid exampleEnv 1
      (tenRowLoan 0) (.num 10200) exampleGen PrepayPaymentReduction (by decide!)
    exact ⟨l', remaining, h1, h3, h4, by rw [h5, hsum]; rfl⟩

/-- C12, the code at the failing input.  Ten Unpaid rows of principal 1000.00,
default rate 0.02, 5000.00 to apply, in a slice whose length equals its capacity
(as the builders leave it): rows 10 to 7 become Paid, 920.00 is returned and one
row for period 6 of principal `1000 - 920/1.02` (the quotient to 16 digits) is
appended, but row 6 keeps status Unpaid, because the write through `s` goes to the
array the slice used before `append`.  With spare capacity row 6 is Removed. -/
theorem C12_term_reduction_replaced_row_not_removed :
    (prepayTermReduction exampleEnv (tenRowLoan 0) (.num 5000) exampleGen).map
        (fun res => (res.2.2, res.2.1.val,
          res.1.Schedules.map (fun s => (s.Period, s.Status, s.Principal.val))))
      = some (none, 920,
        [(1, ScheduleUnpaid, 1000), (2, ScheduleUnpaid, 1000), (3, ScheduleUnpaid, 1000),
          (4, ScheduleUnpaid, 1000), (5, ScheduleUnpaid, 1000), (6, ScheduleUnpaid, 1000),
          (7, SchedulePaid, 1000), (8, SchedulePaid, 1000), (9, SchedulePaid, 1000),
          (10, SchedulePaid, 1000),
          (6, ScheduleUnpaid, 1000 - Decimal.round16 (920 / (1 + 2 / 100)))]) ∧
    (prepayTermReduction exampleEnv (tenRowLoan 1) (.num 5000) exampleGen).map
        (fun res => res.1.Schedules.map (fun s => (s.Period, s.Status)))
      = some [(1, ScheduleUnpaid), (2, ScheduleUnpaid), (3, ScheduleUnpaid),
          (4, ScheduleUnpaid), (5, ScheduleUnpaid), (6, ScheduleRemoved), (7, SchedulePaid),
          (8, SchedulePaid), (9, SchedulePaid), (10, SchedulePaid), (6, ScheduleUnpaid)] := by
  decide!

/-! ## The schedule builders (C14 to C18) -/

/-- C14, the code at the failing input.  `NewSchedule` with principal 1000.00,
interest 10.00 and one fee of 5.00 flat: `TotalPayment` is 1010.00, while principal
plus interest plus the fee charge computed by `GetFee` is 1015.00. -/
theorem C14_NewSchedule_total_omits_fees :
    (NewSchedule exampleEnv 1 7 1 (mkDate 2024 2 1) (.num 1000) (.num 10)
        [exampleFee]).TotalPayment.val = 1010 ∧
    (1000 : ℚ) + 10 + (([exampleFee].map (fun f => (f.GetFee (.num 1000)).val)).sum) = 1015 := by
  decide!

/-- C15, the code at the failing input.  `NewSchedule` with principal 100.005 and
interest 1.2345 stores both as given, and their sum 101.2395 as the total, while
the banker's roundings to 2 digits are 100.00, 1.23 and 101.24; likewise the first
row that `AnnuitySchedule` builds for 12000.00 over 12 monthly periods at 12% has
an interest that differs from its rounding to 2 digits, 122.30. -/
theorem C15_amounts_are_not_rounded :
    ((NewSchedule exampleEnv 1 7 1 (mkDate 2024 2 1) (.num (100005 / 1000))
          (.num (12345 / 10000)) []).Principal.val = 100005 / 1000 ∧
      (Money (NewSchedule exampleEnv 1 7 1 (mkDate 2024 2 1) (.num (100005 / 1000))
          (.num (12345 / 10000)) []).Principal).val = 100) ∧
    ((NewSchedule exampleEnv 1 7 1 (mkDate 2024 2 1) (.num (100005 / 1000))
          (.num (12345 / 10000)) []).Interest.val = 12345 / 10000 ∧
      (Money (NewSchedule exampleEnv 1 7 1 (mkDate 2024 2 1) (.num (100005 / 1000))
          (.num (12345 / 10000)) []).Interest).val = 123 / 100) ∧
    ((NewSchedule exampleEnv 1 7 1 (mkDate 2024 2 1) (.num (100005 / 1000))
          (.num (12345 / 10000)) []).TotalPayment.val = 1012395 / 10000 ∧
      (Money (NewSchedule exampleEnv 1 7 1 (mkDate 2024 2 1) (.num (100005 / 1000))
          (.num (12345 / 10000)) []).TotalPayment).val = 10124 / 100) ∧
    ((rowAmounts (AnnuitySchedule exampleEnv 1 7 (.num 12000) 12 exampleProduct
          exampleGen)).head?.map (fun a => a.2.1)
        = some (12000 * (Decimal.round16 (31 / 365) * (12 / 100))) ∧
      (Money (.num (12000 * (Decimal.round16 (31 / 365) * (12 / 100))))).val = 12230 / 100 ∧
      12000 * (Decimal.round16 (31 / 365) * (12 / 100)) ≠ 12230 / 100) := by
  decide!

/-- C17, the code at the failing input.  6000.00 over 6 monthly periods of 30 days,
10% a year on Act/365, grace term 2: rows 3 to 6 have principal 1500.00, and the
interest of row 3 is `4500 · r`, about 36.99, not `6000 · r`, about 49.32, where
`r` is the period rate `(30/365 to 16 digits) · 0.10`.  The helper
`EqualPrincipalPayment` of the same file gives `1500 + 6000 · r` for that period. -/
theorem C17_first_amortizing_row_interest_after_deduction :
    AnnualToPeriodRate aprilEnv graceProduct.Interest graceProduct.PeriodType
        graceProduct.DayCountConv
      = some (.ok (.num (Decimal.round16 (30 / 365) * (1 / 10)))) ∧
    (rowAmounts (EqualPrincipalSchedule aprilEnv 1 7 (.num 6000) 6 graceProduct exampleGen)).map
        (fun a => (a.1, a.2.1))
      = [(0, 6000 * (Decimal.round16 (30 / 365) * (1 / 10))),
          (0, 6000 * (Decimal.round16 (30 / 365) * (1 / 10))),
          (1500, 4500 * (Decimal.round16 (30 / 365) * (1 / 10))),
          (1500, 3000 * (Decimal.round16 (30 / 365) * (1 / 10))),
          (1500, 1500 * (Decimal.round16 (30 / 365) * (1 / 10))),
          (1500, 0)] ∧
    (4500 * (Decimal.round16 (30 / 365) * (1 / 10)) : ℚ)
      ≠ 6000 * (Decimal.round16 (30 / 365) * (1 / 10)) ∧
    (EqualPrincipalPayment (.num 6000) 4 (.num (Decimal.round16 (30 / 365) * (1 / 10)))).map
        (fun d => d.val)
      = some (1500 + 6000 * (Decimal.round16 (30 / 365) * (1 / 10))) := by
  decide!

/-! ## Terminal states and the empty schedule (C19, C20) -/

/-- C19, the code at the failing input.  A Removed row of principal 1000.00 and
total due 1010.00 receives 2000.00: `TryToPay` marks it Paid and returns 990.00,
while `tryToPay` on the same row returns the 2000.00 and leaves the row as it
was. -/
theorem C19_TryToPay_revives_removed_row :
    ((({ plainRow with Status := ScheduleRemoved } : Schedule).TryToPay exampleEnv
        (.num 2000)).1.Status = SchedulePaid ∧
      (({ plainRow with Status := ScheduleRemoved } : Schedule).TryToPay exampleEnv
        (.num 2000)).2.val = 990) ∧
    ({ plainRow with Status := ScheduleRemoved } : Schedule).tryToPay exampleEnv (.num 2000)
      = ({ plainRow with Status := ScheduleRemoved }, .num 2000) := by
  decide!

/-- C20, the code at the failing input.  A loan without schedules and without
overdue records receives 100.00: `NormalRepay` returns `ErrNoScheduleFound`, the
100.00 and the unchanged aggregate, while `PreRepay`, with either strategy, returns
no error and appends a repayment of 0 to the history. -/
theorem C20_PreRepay_accepts_empty_schedule :
    NormalRepay exampleEnv (exampleLoan [] []) (.num 100) exampleGen
      = some (exampleLoan [] [], .num 100, some .ErrNoScheduleFound) ∧
    (PreRepay exampleEnv 1 (exampleLoan [] []) (.num 100) exampleGen PrepayTermReduction).map
        (fun res => (res.2.2, res.2.1.val, res.1.Repayments.map (fun p => p.TotalAmount.val)))
      = some (none, 100, [0]) ∧
    (PreRepay exampleEnv 1 (exampleLoan [] []) (.num 100) exampleGen PrepayPaymentReduction).map
        (fun res => (res.2.2, res.2.1.val, res.1.Repayments.map (fun p => p.TotalAmount.val)))
      = some (none, 100, [0]) := by
  decide!

/-- The total due that `NewSchedule` stores is principal plus interest: the loop
over the fees leaves it as it was. -/
theorem NewSchedule_TotalPayment (env : Env) (id loanId period : Int) (dueDate : Time)
    (principal interest : Decimal) (fee : List Fee) :
    (NewSchedule env id loanId period dueDate principal interest fee).TotalPayment
      = principal.Add interest := by
  have key : ∀ (fs : List Fee) (total : Decimal), fs.foldl
      (fun total s =>
        let s := { s with Status := FeeStatusUnPaid }
        let _dropped := total.Add (s.GetFee principal)
        total) total = total := by
    intro fs
    induction fs with
    | nil => intro total; rfl
    | cons f rest ih => intro total; simp only [List.foldl_cons]; exact ih total
  simp only [NewSchedule]
  exact key fee _

/-- Every row of the annuity loop has total due principal plus interest, which for
an amortizing row is the payment `pwt`. -/
theorem annuityLoop_total (env : Env) (fuel : Nat) (loanId : Int) (product : Product)
    (r pwt : Decimal) (g : Int) :
    ∀ (k : Nat) (i : Int) (t : Time) (b : Decimal) (gen : IDGenerator) (rows : List Schedule),
      annuityLoop env fuel loanId product r pwt g k i t b gen = some rows →
      ∀ s ∈ rows, i ≤ s.Period ∧ (g < s.Period → s.TotalPayment.val = pwt.val) := by
  intro k
  induction k with
  | zero =>
    intro i t b gen rows h s hs
    simp only [annuityLoop, Option.some.injEq] at h
    subst h
    simp at hs
  | succ k ih =>
    intro i t b gen rows h s hs
    simp only [annuityLoop] at h
    rcases hn : nextDate env fuel product t with _ | t'
    · rw [hn] at h; exact absurd h (by simp)
    · rw [hn] at h
      simp only at h
      by_cases hig : i ≤ g
      · rw [if_pos hig] at h
        obtain ⟨rest, hrest, rfl⟩ := Option.map_eq_some'.mp h
        rcases List.mem_cons.mp hs with rfl | hmem
        · exact ⟨by simp [NewSchedule], fun hlt => by simp [NewSchedule] at hlt; omega⟩
        · obtain ⟨h1, h2⟩ := ih _ _ _ _ _ hrest s hmem
          exact ⟨by omega, h2⟩
      · rw [if_neg hig] at h
        obtain ⟨rest, hrest, rfl⟩ := Option.map_eq_some'.mp h
        rcases List.mem_cons.mp hs with rfl | hmem
        · refine ⟨by simp [NewSchedule], fun _ => ?_⟩
          rw [NewSchedule_TotalPayment]
          simp
        · obtain ⟨h1, h2⟩ := ih _ _ _ _ _ hrest s hmem
          exact ⟨by omega, h2⟩

/-- C16 (amended).  For every principal P0, period rate r, N and grace term
0 ≤ G < N (and holiday rolling that terminates), with p the quotient P0/(N-G) as
`decimal.Div` returns it (rounded to 16 fractional digits), `EqualPrincipalSchedule`
returns N rows in which every row i > G has principal p and interest
`(P0 - (i-G)·p)·r`, the balance after that row's principal has been deducted, and
every row i ≤ G has interest `P0·r`; the last row carries the interest
`(P0 - (N-G)·p)·r`, which is zero when `(N-G)·p = P0`, that is when the division
is exact. -/
theorem C16_equal_principal_interest_after_deduction (env : Env) (fuel : Nat) (loanId : Int)
    (P0 : Decimal) (N : Int) (product : Product) (gen : IDGenerator) (r : Decimal)
    (hrate : AnnualToPeriodRate env product.Interest product.PeriodType product.DayCountConv
      = some (.ok r))
    (hroll : ∀ t, ∃ t', nextDate env fuel product t = some t')
    (hG0 : 0 ≤ product.GraceTerm) (hG : product.GraceTerm < N) :
    ∃ p rows, P0.Div (Decimal.NewFromInt (N - product.GraceTerm)) = some p ∧
      p.val = Decimal.round16 (P0.val / ((N - product.GraceTerm : Int) : ℚ)) ∧
      EqualPrincipalSchedule env fuel loanId P0 N product gen = some (.ok rows) ∧
      (rows.length : Int) = N ∧
      ∀ (j : Nat) (s : Schedule), rows[j]? = some s →
        (product.GraceTerm < (j : Int) + 1 →
          s.Principal = p ∧
          s.Interest.val
            = (P0.val - (((j : Int) + 1 - product.GraceTerm : Int) : ℚ) * p.val) * r.val) ∧
        ((j : Int) + 1 ≤ product.GraceTerm → s.Interest.val = P0.val * r.val) ∧
        ((j : Int) + 1 = N → ((N - product.GraceTerm : Int) : ℚ) * p.val = P0.val →
          s.Interest.val = 0) := by
  have hne : ((N - product.GraceTerm : Int) : ℚ) ≠ 0 := by
    exact_mod_cast (by omega : N - product.GraceTerm ≠ 0)
  have hN : 0 ≤ N := by omega
  obtain ⟨rows, h1, h2, h3, -⟩ := equalPrincipalLoop_spec env fuel loanId product r
    (Decimal.num (Decimal.round16 (P0.val / ((N - product.GraceTerm : Int) : ℚ))))
    product.GraceTerm hroll N.toNat 1 env.cfg.Clock P0 gen
  have hamort : ∀ (j : Nat) (s : Schedule), rows[j]? = some s →
      product.GraceTerm < (j : Int) + 1 →
      s.Principal = Decimal.num (Decimal.round16 (P0.val / ((N - product.GraceTerm : Int) : ℚ))) ∧
      s.Interest.val = (P0.val - (((j : Int) + 1 - product.GraceTerm : Int) : ℚ) *
        Decimal.round16 (P0.val / ((N - product.GraceTerm : Int) : ℚ))) * r.val := by
    intro j s hj hlt
    obtain ⟨-, -, c⟩ := h3 j s hj
    obtain ⟨c1, c2⟩ := c (by omega)
    refine ⟨c1, ?_⟩
    rw [c2]
    have e : (((1 + (j : Int) - max 1 (product.GraceTerm + 1)).toNat + 1 : ℕ) : Int)
        = (j : Int) + 1 - product.GraceTerm := by
      push_cast
      omega
    have e' : ((((1 + (j : Int) - max 1 (product.GraceTerm + 1)).toNat + 1 : ℕ) : ℚ))
        = (((j : Int) + 1 - product.GraceTerm : Int) : ℚ) := by
      exact_mod_cast e
    rw [e']
    rfl
  refine ⟨Decimal.num (Decimal.round16 (P0.val / ((N - product.GraceTerm : Int) : ℚ))), rows,
    ?_, rfl, ?_, ?_, fun j s hj => ⟨hamort j s hj, fun hle => ?_, fun hlast hex => ?_⟩⟩
  · simp only [Decimal.Div, Decimal.val_NewFromInt, if_neg hne]
  · simp only [EqualPrincipalSchedule, not_lt.mpr hN, if_false, hrate, Decimal.Div,
      Decimal.val_NewFromInt, hne, h1, Option.map_some']
  · rw [h2]; exact Int.toNat_of_nonneg hN
  · exact ((h3 j s hj).2.1 (by omega)).2
  · rw [(hamort j s hj (by omega)).2]
    have e : (((j : Int) + 1 - product.GraceTerm : Int) : ℚ)
        = ((N - product.GraceTerm : Int) : ℚ) := by rw [hlast]
    rw [e]
    simp only [Decimal.val_num] at hex
    rw [hex]
    ring

/-- C16, counterexample.  1000.00 over 3 monthly periods without grace term: the
principal of each row is 1000/3 rounded to 16 digits, not 1000/3, and the last row
carries the interest `(1000 - 3p)·r`, which is not zero. -/
theorem C16_counterexample :
    (rowAmounts (EqualPrincipalSchedule exampleEnv 1 7 (.num 1000) 3 exampleProduct
        exampleGen)).map (fun a => (a.1, a.2.1))
      = [(Decimal.round16 (1000 / 3),
            (1000 - Decimal.round16 (1000 / 3)) * (Decimal.round16 (31 / 365) * (12 / 100))),
          (Decimal.round16 (1000 / 3),
            (1000 - 2 * Decimal.round16 (1000 / 3)) * (Decimal.round16 (31 / 365) * (12 / 100))),
          (Decimal.round16 (1000 / 3),
            (1000 - 3 * Decimal.round16 (1000 / 3)) *
              (Decimal.round16 (31 / 365) * (12 / 100)))] ∧
    Decimal.round16 (1000 / 3) ≠ 1000 / 3 ∧
    (1000 - 3 * Decimal.round16 (1000 / 3)) * (Decimal.round16 (31 / 365) * (12 / 100)) ≠ 0 := by
  decide!

/-- C16, witness: 6000.00 over 6 monthly periods of 30 days at 10% a year with a
grace term of 2. -/
theorem C16_witness :
    ∃ p rows, (Decimal.num 6000).Div (Decimal.NewFromInt (6 - graceProduct.GraceTerm)) = some p ∧
      p.val = Decimal.round16 ((Decimal.num 6000).val / ((6 - graceProduct.GraceTerm : Int) : ℚ)) ∧
      EqualPrincipalSchedule aprilEnv 1 7 (.num 6000) 6 graceProduct exampleGen
        = some (.ok rows) ∧
      (rows.length : Int) = 6 ∧
      ∀ (j : Nat) (s : Schedule), rows[j]? = some s →
        (graceProduct.GraceTerm < (j : Int) + 1 →
          s.Principal = p ∧
          s.Interest.val
            = ((Decimal.num 6000).val - (((j : Int) + 1 - graceProduct.GraceTerm : Int) : ℚ) * p.val)
              * (Decimal.num (Decimal.round16 (30 / 365) * (1 / 10))).val) ∧
        ((j : Int) + 1 ≤ graceProduct.GraceTerm → s.Interest.val
          = (Decimal.num 6000).val * (Decimal.num (Decimal.round16 (30 / 365) * (1 / 10))).val) ∧
        ((j : Int) + 1 = 6 → ((6 - graceProduct.GraceTerm : Int) : ℚ) * p.val
            = (Decimal.num 6000).val →
          s.Interest.val = 0) :=
  C16_equal_principal_interest_after_deduction aprilEnv 1 7 (.num 6000) 6 graceProduct exampleGen
    (.num (Decimal.round16 (30 / 365) * (1 / 10))) (by decide!) (fun _ => ⟨_, rfl⟩) (by decide)
    (by decide)

/-- C18, as amended.  For P0 > 0, period rate r > 0 and grace term 0 ≤ G < N (and
holiday rolling that terminates) `AnnuitySchedule` returns rows in which every
amortizing row (i > G) has the same `TotalPayment`, the annuity payment A that
`AnnuityPayment` returns for P0, N-G and r: the quotient
`P0·r·(1+r)^(N-G) / ((1+r)^(N-G) - 1)` rounded to 16 fractional digits by
`decimal.Div`, which lies within 5e-17 of the exact quotient; so any two such rows
differ by less than 0.02.  The fees of the product play no part. -/
theorem C18_amortizing_rows_share_total_payment (env : Env) (fuel : Nat) (loanId : Int)
    (P0 : Decimal) (N : Int) (product : Product) (gen : IDGenerator) (r : Decimal)
    (hrate : AnnualToPeriodRate env product.Interest product.PeriodType product.DayCountConv
      = some (.ok r))
    (hroll : ∀ t, ∃ t', nextDate env fuel product t = some t')
    (hP : 0 < P0.val) (hr : 0 < r.val)
    (hG0 : 0 ≤ product.GraceTerm) (hG : product.GraceTerm < N) :
    ∃ A rows, AnnuityPayment P0 (N - product.GraceTerm) r = some A ∧
      A.val = Decimal.round16 (P0.val * (1 + r.val) ^ (N - product.GraceTerm).toNat * r.val /
        ((1 + r.val) ^ (N - product.GraceTerm).toNat - 1)) ∧
      |A.val - P0.val * (1 + r.val) ^ (N - product.GraceTerm).toNat * r.val /
        ((1 + r.val) ^ (N - product.GraceTerm).toNat - 1)| ≤ 1 / (2 * 10 ^ 16) ∧
      AnnuitySchedule env fuel loanId P0 N product gen = some (.ok rows) ∧
      (rows.length : Int) = N ∧
      (∀ (j : Nat) (s : Schedule), rows[j]? = some s → product.GraceTerm < (j : Int) + 1 →
        s.TotalPayment.val = A.val) ∧
      (∀ (j1 j2 : Nat) (s1 s2 : Schedule), rows[j1]? = some s1 → rows[j2]? = some s2 →
        product.GraceTerm < (j1 : Int) + 1 → product.GraceTerm < (j2 : Int) + 1 →
        |s1.TotalPayment.val - s2.TotalPayment.val| < 2 / 100) := by
  have _ := hP
  have _ := hG0
  have hn : 1 ≤ N - product.GraceTerm := by omega
  have hN : 0 ≤ N := by omega
  have hpay := AnnuityPayment_eq P0 r _ hr hn
  obtain ⟨rows, h1, h2, h3, -⟩ := AnnuitySchedule_spec env fuel loanId P0 N product gen r _
    hrate hroll hN hpay
  have hloop : ∃ rows', annuityLoop env fuel loanId product r
      (Decimal.num (Decimal.round16 (P0.val * (1 + r.val) ^ (N - product.GraceTerm).toNat * r.val /
        ((1 + r.val) ^ (N - product.GraceTerm).toNat - 1))))
      product.GraceTerm N.toNat 1 env.cfg.Clock P0 gen = some rows' ∧ rows' = rows := by
    have h := h1
    simp only [AnnuitySchedule, not_lt.mpr hN, if_false, hrate, hpay] at h
    obtain ⟨rows', hr', he⟩ := Option.map_eq_some'.mp h
    exact ⟨rows', hr', by simpa using he⟩
  obtain ⟨rows', hloop1, rfl⟩ := hloop
  have htot : ∀ (j : Nat) (s : Schedule), rows'[j]? = some s →
      product.GraceTerm < (j : Int) + 1 → s.TotalPayment.val
        = Decimal.round16 (P0.val * (1 + r.val) ^ (N - product.GraceTerm).toNat * r.val /
          ((1 + r.val) ^ (N - product.GraceTerm).toNat - 1)) := by
    intro j s hj hlt
    have hmem : s ∈ rows' := List.mem_iff_getElem?.mpr ⟨j, hj⟩
    have hper := (h3 j s hj).1
    have := (annuityLoop_total env fuel loanId product r _ product.GraceTerm _ _ _ _ _ _ hloop1
      s hmem).2 (by rw [hper]; omega)
    simpa using this
  refine ⟨_, rows', hpay, rfl, Decimal.round16_error _, h1,
    by rw [h2]; exact Int.toNat_of_nonneg hN, htot, ?_⟩
  intro j1 j2 s1 s2 hj1 hj2 hl1 hl2
  rw [htot j1 s1 hj1 hl1, htot j2 s2 hj2 hl2]
  norm_num

/-- C18, counterexample.  (1) 12000.00 over 12 monthly periods at 12% a year on
Act/365 (period rate `r` = 31/365 to 16 digits times 0.12): every row has
`TotalPayment` equal to the 16-digit rounding of `P0·r·(1+r)^12 / ((1+r)^12 - 1)`,
which is not that quotient.  (2) 1000.00 over 2 yearly periods at period rate 10:
both rows have `TotalPayment` 10083.3333333333333333, and the annuity payment is
`1000·10·11² / (11² - 1) = 30250/3`. -/
theorem C18_counterexample :
    (rowAmounts (AnnuitySchedule exampleEnv 1 7 (.num 12000) 12 exampleProduct exampleGen)).map
        (fun a => a.2.2)
      = List.replicate 12 (Decimal.round16
          (12000 * (2547945205479453 / 250000000000000000) *
            (1 + 2547945205479453 / 250000000000000000) ^ 12 /
            ((1 + 2547945205479453 / 250000000000000000) ^ 12 - 1))) ∧
    Decimal.round16
        (12000 * (2547945205479453 / 250000000000000000) *
          (1 + 2547945205479453 / 250000000000000000) ^ 12 /
          ((1 + 2547945205479453 / 250000000000000000) ^ 12 - 1))
      ≠ 12000 * (2547945205479453 / 250000000000000000) *
          (1 + 2547945205479453 / 250000000000000000) ^ 12 /
          ((1 + 2547945205479453 / 250000000000000000) ^ 12 - 1) ∧
    AnnualToPeriodRate exampleEnv steepProduct.Interest steepProduct.PeriodType
        steepProduct.DayCountConv = some (.ok (.num 10)) ∧
    (rowAmounts (AnnuitySchedule exampleEnv 1 7 (.num 1000) 2 steepProduct exampleGen)).map
        (fun a => a.2.2)
      = [100833333333333333333 / 10000000000000000, 100833333333333333333 / 10000000000000000] ∧
    (100833333333333333333 / 10000000000000000 : ℚ)
      ≠ 1000 * 10 * (1 + 10) ^ 2 / ((1 + 10) ^ 2 - 1) := by
  refine ⟨?_, ?_, ?_, ?_, ?_⟩ <;> decide!

/-- C18, witness: 12000.00 over 12 monthly periods at 12% a year on Act/365. -/
theorem C18_witness :
    ∃ A rows, AnnuityPayment (.num 12000) (12 - exampleProduct.GraceTerm)
        (.num (2547945205479453 / 250000000000000000)) = some A ∧
      |A.val - (Decimal.num 12000).val *
          (1 + (Decimal.num (2547945205479453 / 250000000000000000)).val) ^
            (12 - exampleProduct.GraceTerm).toNat *
          (Decimal.num (2547945205479453 / 250000000000000000)).val /
        ((1 + (Decimal.num (2547945205479453 / 250000000000000000)).val) ^
          (12 - exampleProduct.GraceTerm).toNat - 1)| ≤ 1 / (2 * 10 ^ 16) ∧
      AnnuitySchedule exampleEnv 1 7 (.num 12000) 12 exampleProduct exampleGen
        = some (.ok rows) ∧
      (rows.length : Int) = 12 ∧
      (∀ (j : Nat) (s : Schedule), rows[j]? = some s → exampleProduct.GraceTerm < (j : Int) + 1 →
        s.TotalPayment.val = A.val) ∧
      (∀ (j1 j2 : Nat) (s1 s2 : Schedule), rows[j1]? = some s1 → rows[j2]? = some s2 →
        exampleProduct.GraceTerm < (j1 : Int) + 1 → exampleProduct.GraceTerm < (j2 : Int) + 1 →
        |s1.TotalPayment.val - s2.TotalPayment.val| < 2 / 100) := by
  obtain ⟨A, rows, h1, -, h2, h3, h4, h5, h6⟩ := C18_amortizing_rows_share_total_payment
    exampleEnv 1 7 (.num 12000) 12 exampleProduct exampleGen
    (.num (2547945205479453 / 250000000000000000))
    (by decide!) (fun _ => ⟨_, rfl⟩) (by norm_num) (by norm_num) (by decide) (by decide)
  exact ⟨A, rows, h1, h2, h3, h4, h5, h6⟩

/-! ## Payment reduction (C13) -/

theorem foldl_AddSchedule_Schedules (env : Env) : ∀ (rows : List Schedule) (l : LoanExtra),
    (rows.foldl (fun l ns => l.AddSchedule env ns) l).Schedules = l.Schedules ++ rows
  | [], l => by simp
  | ns :: rows, l => by
    simp only [List.foldl_cons]
    rw [foldl_AddSchedule_Schedules env rows]
    simp [LoanExtra.AddSchedule]

theorem foldl_periods (rows : List Schedule) : ∀ acc : Int,
    rows.foldl (fun sum s => if s.Status = ScheduleUnpaid then sum + 1 else sum) acc
      = acc + unpaidCount rows := by
  induction rows with
  | nil => intro acc; simp [unpaidCount]
  | cons s rest ih =>
    intro acc
    simp only [List.foldl_cons]
    rw [ih]
    by_cases hs : s.Status = ScheduleUnpaid
    · simp only [unpaidCount, hs, if_true, List.filter_cons, decide_True, List.length_cons]
      push_cast
      ring
    · simp [unpaidCount, hs, List.filter_cons]

/-- The value of `OutstandingPeriods` is the number of Unpaid rows. -/
theorem OutstandingPeriods_eq (l : LoanExtra) :
    l.OutstandingPeriods = unpaidCount l.Schedules := by
  unfold LoanExtra.OutstandingPeriods
  rw [foldl_periods]
  simp

/-- The rows of `AnnuitySchedule`: their number and the distance of the sum of
their principal from the loan principal. -/
theorem AnnuitySchedule_sum_bound (env : Env) (fuel : Nat) (loanId : Int) (P0 : Decimal)
    (N : Int) (product : Product) (gen : IDGenerator) (r : Decimal)
    (hrate : AnnualToPeriodRate env product.Interest product.PeriodType product.DayCountConv
      = some (.ok r))
    (hroll : ∀ t, ∃ t', nextDate env fuel product t = some t')
    (hr : 0 < r.val) (hG0 : 0 ≤ product.GraceTerm) (hG : product.GraceTerm < N) :
    ∃ rows, AnnuitySchedule env fuel loanId P0 N product gen = some (.ok rows) ∧
      (rows.length : Int) = N ∧
      |(rows.map (fun s => s.Principal.val)).sum - P0.val| ≤
        1 / (2 * 10 ^ 16) * (((1 + r.val) ^ (N - product.GraceTerm).toNat - 1) / r.val) := by
  have hn : 1 ≤ N - product.GraceTerm := by omega
  have hN : 0 ≤ N := by omega
  have hexp : (1 + (N.toNat : Int) - max 1 (product.GraceTerm + 1)).toNat
      = (N - product.GraceTerm).toNat := by omega
  obtain ⟨rows, h1, h2, -, h4⟩ := AnnuitySchedule_spec env fuel loanId P0 N product gen r _
    hrate hroll hN (AnnuityPayment_eq P0 r _ hr hn)
  rw [hexp] at h4
  simp only [Decimal.val_num] at h4
  have hq1 : 1 < (1 + r.val) ^ (N - product.GraceTerm).toNat :=
    one_lt_pow₀ (by linarith) (by omega)
  have hnn : 0 ≤ ((1 + r.val) ^ (N - product.GraceTerm).toNat - 1) / r.val :=
    div_nonneg (by linarith) hr.le
  refine ⟨rows, h1, by rw [h2]; exact Int.toNat_of_nonneg hN, ?_⟩
  rw [annuity_sum_error _ _ _ _ _ hr hq1 h4, abs_mul, abs_of_nonneg hnn]
  exact mul_le_mul_of_nonneg_right (Decimal.round16_error _) hnn

/-- The rows of `EqualPrincipalSchedule`: their number and the distance of the sum
of their principal from the loan principal. -/
theorem EqualPrincipalSchedule_sum_bound (env : Env) (fuel : Nat) (loanId : Int) (P0 : Decimal)
    (N : Int) (product : Product) (gen : IDGenerator) (r : Decimal)
    (hrate : AnnualToPeriodRate env product.Interest product.PeriodType product.DayCountConv
      = some (.ok r))
    (hroll : ∀ t, ∃ t', nextDate env fuel product t = some t')
    (hG0 : 0 ≤ product.GraceTerm) (hG : product.GraceTerm < N) :
    ∃ rows, EqualPrincipalSchedule env fuel loanId P0 N product gen = some (.ok rows) ∧
      (rows.length : Int) = N ∧
      |(rows.map (fun s => s.Principal.val)).sum - P0.val| ≤
        1 / (2 * 10 ^ 16) * ((N - product.GraceTerm : Int) : ℚ) := by
  have hN : 0 ≤ N := by omega
  have hexp : (1 + (N.toNat : Int) - max 1 (product.GraceTerm + 1)).toNat
      = (N - product.GraceTerm).toNat := by omega
  obtain ⟨rows, h1, h2, -, h4⟩ := EqualPrincipalSchedule_spec env fuel loanId P0 N product gen r
    hrate hroll hN (by omega)
  rw [hexp] at h4
  have hcast : (((N - product.GraceTerm).toNat : ℕ) : ℚ) = ((N - product.GraceTerm : Int) : ℚ) := by
    have : (((N - product.GraceTerm).toNat : ℕ) : Int) = N - product.GraceTerm :=
      Int.toNat_of_nonneg (by omega)
    exact_mod_cast this
  rw [hcast] at h4
  have hnpos : (0 : ℚ) < ((N - product.GraceTerm : Int) : ℚ) := by
    exact_mod_cast (by omega : 0 < N - product.GraceTerm)
  refine ⟨rows, h1, by rw [h2]; exact Int.toNat_of_nonneg hN, ?_⟩
  have hdiff : (rows.map (fun s => s.Principal.val)).sum - P0.val
      = ((N - product.GraceTerm : Int) : ℚ) *
        (Decimal.round16 (P0.val / ((N - product.GraceTerm : Int) : ℚ))
          - P0.val / ((N - product.GraceTerm : Int) : ℚ)) := by
    have key : ∀ (n x P : ℚ), n ≠ 0 → n * x - P = n * (x - P / n) := by
      intro n x P hn
      field_simp
      ring
    rw [h4]
    exact key _ _ _ hnpos.ne'
  rw [hdiff, abs_mul, abs_of_pos hnpos, mul_comm]
  exact mul_le_mul_of_nonneg_right (Decimal.round16_error _) hnpos.le

/-- C13 (amended).  For every loan whose product has a supported repay style,
period rate r > 0 and grace term 0 ≤ G smaller than the number U of Unpaid rows
(and holiday rolling that terminates), and every m with 0 ≤ m < outstanding
principal, `prepayPaymentReduction` returns `decimal.Zero` without error, keeps
every Paid row, marks every other row that existed Removed, and appends after them
exactly U new rows, whose principal sums to `outstanding - m` within
`5·10⁻¹⁷ · ((1+r)^(U-G) - 1) / r` for equal installments and within
`5·10⁻¹⁷ · (U-G)` for equal principal, hence within 0.01 when that factor is at
most `2·10¹⁴`. -/
theorem C13_payment_reduction_rebuilds_schedule (env : Env) (fuel : Nat) (l : LoanExtra)
    (m : Decimal) (gen : IDGenerator) (r : Decimal)
    (hstyle : l.Product.RepayType = RepayTypeEqualInstallment ∨
      l.Product.RepayType = RepayTypeEqualPrincipal)
    (hrate : AnnualToPeriodRate env l.Product.Interest l.Product.PeriodType
      l.Product.DayCountConv = some (.ok r))
    (hroll : ∀ t, ∃ t', nextDate env fuel l.Product t = some t')
    (hr : 0 < r.val) (hG0 : 0 ≤ l.Product.GraceTerm)
    (hG : l.Product.GraceTerm < unpaidCount l.Schedules)
    (hm0 : 0 ≤ m.val) (hm : m.val < outstandingSum l.Schedules) :
    ∃ l' rows, prepayPaymentReduction env fuel l m gen = some (l', Decimal.Zero, none) ∧
      l'.Schedules = l.Schedules.map removeUnlessPaid ++ rows ∧
      (rows.length : Int) = unpaidCount l.Schedules ∧
      (l.Product.RepayType = RepayTypeEqualInstallment →
        |(rows.map (fun s => s.Principal.val)).sum - (outstandingSum l.Schedules - m.val)| ≤
            1 / (2 * 10 ^ 16) *
              (((1 + r.val) ^ (unpaidCount l.Schedules - l.Product.GraceTerm).toNat - 1) / r.val) ∧
        (((1 + r.val) ^ (unpaidCount l.Schedules - l.Product.GraceTerm).toNat - 1) / r.val
            ≤ 2 * 10 ^ 14 →
          |(rows.map (fun s => s.Principal.val)).sum - (outstandingSum l.Schedules - m.val)|
            ≤ 1 / 100)) ∧
      (l.Product.RepayType = RepayTypeEqualPrincipal →
        |(rows.map (fun s => s.Principal.val)).sum - (outstandingSum l.Schedules - m.val)| ≤
            1 / (2 * 10 ^ 16) * ((unpaidCount l.Schedules - l.Product.GraceTerm : Int) : ℚ) ∧
        (unpaidCount l.Schedules - l.Product.GraceTerm ≤ 2 * 10 ^ 14 →
          |(rows.map (fun s => s.Principal.val)).sum - (outstandingSum l.Schedules - m.val)|
            ≤ 1 / 100)) := by
  have _ := hm0
  have _ := hm
  have hP : (l.OutstandingPrincipal.Sub m).val = outstandingSum l.Schedules - m.val := by
    simp [OutstandingPrincipal_val]
  have hne : RepayTypeEqualPrincipal ≠ RepayTypeEqualInstallment := by decide
  have hmap : l.Schedules.map
      (fun s => if s.Status ≠ SchedulePaid then { s with Status := ScheduleRemoved } else s)
      = l.Schedules.map removeUnlessPaid := rfl
  rcases hstyle with hs | hs
  · obtain ⟨rows, h1, h2, h3⟩ := AnnuitySchedule_sum_bound env fuel l.ID
      (l.OutstandingPrincipal.Sub m) (unpaidCount l.Schedules) l.Product gen r hrate hroll hr hG0 hG
    rw [hP] at h3
    refine ⟨rows.foldl (fun l ns => l.AddSchedule env ns)
        { l with Schedules := l.Schedules.map removeUnlessPaid },
      rows, ?_, ?_, h2, fun _ => ⟨h3, fun hsmall => le_trans h3 ?_⟩, fun h => ?_⟩
    · simp only [prepayPaymentReduction, hs, if_true, OutstandingPeriods_eq, h1, hmap]
    · simp only [foldl_AddSchedule_Schedules]
    · calc (1 : ℚ) / (2 * 10 ^ 16) *
            (((1 + r.val) ^ (unpaidCount l.Schedules - l.Product.GraceTerm).toNat - 1) / r.val)
          ≤ 1 / (2 * 10 ^ 16) * (2 * 10 ^ 14) :=
            mul_le_mul_of_nonneg_left hsmall (by positivity)
        _ = 1 / 100 := by norm_num
    · rw [hs] at h
      exact absurd h.symm hne
  · obtain ⟨rows, h1, h2, h3⟩ := EqualPrincipalSchedule_sum_bound env fuel l.ID
      (l.OutstandingPrincipal.Sub m) (unpaidCount l.Schedules) l.Product gen r hrate hroll hG0 hG
    rw [hP] at h3
    refine ⟨rows.foldl (fun l ns => l.AddSchedule env ns)
        { l with Schedules := l.Schedules.map removeUnlessPaid },
      rows, ?_, ?_, h2, fun h => ?_, fun _ => ⟨h3, fun hsmall => le_trans h3 ?_⟩⟩
    · simp only [prepayPaymentReduction, hs, hne, if_false, if_true, OutstandingPeriods_eq, h1,
        hmap]
    · simp only [foldl_AddSchedule_Schedules]
    · rw [hs] at h
      exact absurd h hne
    · have hsmall' : ((unpaidCount l.Schedules - l.Product.GraceTerm : Int) : ℚ) ≤ 2 * 10 ^ 14 := by
        exact_mod_cast hsmall
      calc (1 : ℚ) / (2 * 10 ^ 16) * ((unpaidCount l.Schedules - l.Product.GraceTerm : Int) : ℚ)
          ≤ 1 / (2 * 10 ^ 16) * (2 * 10 ^ 14) :=
            mul_le_mul_of_nonneg_left hsmall' (by positivity)
        _ = 1 / 100 := by norm_num

/-- C13, counterexample.  (1) Twenty Unpaid rows of 1000.00 at period rate 10 and a
prepayment of 19000.00: the 20 new rows have principal 0, which sums to 0 and not to
the 1000.00 that remain.  (2) Eight Unpaid rows of 1000.00, a grace term of -1 and a
prepayment of 2000.00: the payment is computed over 9 periods and 8 rows are built,
whose principal does not sum to 6000.00 within 0.01. -/
theorem C13_counterexample :
    (prepayPaymentReduction exampleEnv 1 steepLoan (.num 19000) exampleGen).map
        (fun res => (res.2.2, res.1.Schedules.length,
          ((res.1.Schedules.drop 20).map (fun s => s.Principal.val)).sum))
      = some (none, 40, 0) ∧
    (prepayPaymentReduction exampleEnv 1 negativeGraceLoan (.num 2000) exampleGen).map
        (fun res => (res.2.2, res.1.Schedules.length,
          decide (|((res.1.Schedules.drop 8).map (fun s => s.Principal.val)).sum - 6000|
            ≤ 1 / 100)))
      = some (none, 16, false) := by
  decide!

/-- C13, witness: outstanding principal 8000.00 over 8 Unpaid rows, equal
installments at 12% a year, and a prepayment of 2000.00. -/
theorem C13_witness :
    ∃ l' rows, prepayPaymentReduction exampleEnv 1 eightRowLoan (.num 2000) exampleGen
        = some (l', Decimal.Zero, none) ∧
      l'.Schedules = eightRowLoan.Schedules.map removeUnlessPaid ++ rows ∧
      (rows.length : Int) = 8 ∧
      |(rows.map (fun s => s.Principal.val)).sum - (8000 - 2000)| ≤ 1 / 100 := by
  have hU : unpaidCount eightRowLoan.Schedules = 8 := by decide!
  have hO : outstandingSum eightRowLoan.Schedules = 8000 := by decide!
  obtain ⟨l', rows, h1, h2, h3, h4, -⟩ := C13_payment_reduction_rebuilds_schedule exampleEnv 1
    eightRowLoan (.num 2000) exampleGen (.num (2547945205479453 / 250000000000000000))
    (Or.inl rfl) (by decide!) (fun _ => ⟨_, rfl⟩) (by norm_num) (by decide) (by decide!)
    (by norm_num) (by decide!)
  have e : (unpaidCount eightRowLoan.Schedules - eightRowLoan.Product.GraceTerm).toNat = 8 := by
    decide!
  have h5 := (h4 rfl).2
  rw [e, hO] at h5
  rw [hU] at h3
  exact ⟨l', rows, h1, h2, h3, h5 (by norm_num)⟩


/-! ## Facts about the calendar model -/

/-- The year-of-era formula of `civilFromDays` on every day of a 400-year era but
the last: with `c` the century, `q` the 4-year block in it and `k` the year in the
block, the formula gives year `100c + 4q + k`, and the day lies in that year. -/
theorem yearOfEra_core (doe : Int) (h0 : 0 ≤ doe) (h1 : doe < 146096) :
    ∃ c q k : Int, 0 ≤ c ∧ c ≤ 3 ∧ 0 ≤ q ∧ q ≤ 24 ∧ 0 ≤ k ∧ k ≤ 3 ∧
      (doe - doe / 1460 + doe / 36524 - doe / 146096) / 365 = 100 * c + 4 * q + k ∧
      0 ≤ doe - (36524 * c + 1461 * q + 365 * k) ∧
      doe - (36524 * c + 1461 * q + 365 * k) ≤ 365 := by
  obtain ⟨c, hc⟩ : ∃ c, c = doe / 36524 := ⟨_, rfl⟩
  obtain ⟨q, hq⟩ : ∃ q, q = (doe - 36524 * c) / 1461 := ⟨_, rfl⟩
  obtain ⟨s, hs⟩ : ∃ s, s = doe - 36524 * c - 1461 * q := ⟨_, rfl⟩
  have hc0 : 0 ≤ c := by omega
  have hc3 : c ≤ 3 := by omega
  have hq0 : 0 ≤ q := by omega
  have hq24 : q ≤ 24 := by omega
  have hs0 : 0 ≤ s := by omega
  have hs1 : s ≤ 1460 := by omega
  have hs2 : q = 24 → s ≤ 1459 := by omega
  have he : doe / 146096 = 0 := by omega
  have hb : doe / 36524 = c := hc.symm
  have hdoe : doe = 1460 * (25 * c + q) + (24 * c + q + s) := by omega
  by_cases hd : 24 * c + q + s < 1460
  · have ha : doe / 1460 = 25 * c + q := by omega
    rw [ha, hb, he]
    have hn : doe - (25 * c + q) + c - 0 = 365 * (100 * c + 4 * q) + s := by omega
    rw [hn]
    exact ⟨c, q, s / 365, hc0, hc3, hq0, hq24, by omega, by omega, by omega, by omega, by omega⟩
  · have ha : doe / 1460 = 25 * c + q + 1 := by omega
    rw [ha, hb, he]
    have hn : doe - (25 * c + q + 1) + c - 0 = 365 * (100 * c + 4 * q) + (s - 1) := by omega
    rw [hn]
    exact ⟨c, q, (s - 1) / 365, hc0, hc3, hq0, hq24, by omega, by omega, by omega, by omega,
      by omega⟩

/-- The last day of an era is day 365 of year 399. -/
theorem yearOfEra_last (yoe doy : Int)
    (hyoe : yoe = ((146096 : Int) - 146096 / 1460 + 146096 / 36524 - 146096 / 146096) / 365)
    (hdoy : doy = 146096 - (365 * yoe + yoe / 4 - yoe / 100)) :
    0 ≤ yoe ∧ yoe ≤ 399 ∧ 0 ≤ doy ∧ doy ≤ 365 := by
  norm_num at hyoe
  subst hyoe
  norm_num at hdoy
  omega

theorem yearOfEra_other (doe yoe doy : Int) (h0 : 0 ≤ doe) (h1 : doe < 146096)
    (hyoe : yoe = (doe - doe / 1460 + doe / 36524 - doe / 146096) / 365)
    (hdoy : doy = doe - (365 * yoe + yoe / 4 - yoe / 100)) :
    0 ≤ yoe ∧ yoe ≤ 399 ∧ 0 ≤ doy ∧ doy ≤ 365 := by
  obtain ⟨c, q, k, hc0, hc3, hq0, hq24, hk0, hk3, hy, hd0, hd1⟩ := yearOfEra_core doe h0 h1
  rw [hy] at hyoe
  clear hy
  subst hyoe
  have h4 : (100 * c + 4 * q + k) / 4 = 25 * c + q := by omega
  have h100 : (100 * c + 4 * q + k) / 100 = c := by omega
  rw [h4, h100] at hdoy
  subst hdoy
  exact ⟨by omega, by omega, by omega, by omega⟩

/-- In `civilFromDays` the year of the era lies in 0..399 and the day of the year in
0..365. -/
theorem yearOfEra_range (doe yoe doy : Int) (h0 : 0 ≤ doe) (h1 : doe ≤ 146096)
    (hyoe : yoe = (doe - doe / 1460 + doe / 36524 - doe / 146096) / 365)
    (hdoy : doy = doe - (365 * yoe + yoe / 4 - yoe / 100)) :
    0 ≤ yoe ∧ yoe ≤ 399 ∧ 0 ≤ doy ∧ doy ≤ 365 := by
  by_cases h : doe = 146096
  · subst h
    exact yearOfEra_last yoe doy hyoe hdoy
  · exact yearOfEra_other doe yoe doy h0 (by omega) hyoe hdoy

/-- The civil date of a day number is a date (month 1..12, day 1..31), and
`daysFromCivil` leads back from it to the day number. -/
theorem civilFromDays_spec (z y m d : Int) (h : civilFromDays z = (y, m, d)) :
    1 ≤ m ∧ m ≤ 12 ∧ 1 ≤ d ∧ d ≤ 31 ∧ daysFromCivil y m + (d - 1) = z := by
  simp only [civilFromDays, Prod.mk.injEq] at h
  obtain ⟨era, hera⟩ : ∃ era, era = (z + 719468) / 146097 := ⟨_, rfl⟩
  obtain ⟨doe, hdoe⟩ : ∃ doe, doe = z + 719468 - era * 146097 := ⟨_, rfl⟩
  obtain ⟨yoe, hyoe⟩ : ∃ yoe, yoe = (doe - doe / 1460 + doe / 36524 - doe / 146096) / 365 :=
    ⟨_, rfl⟩
  obtain ⟨doy, hdoy⟩ : ∃ doy, doy = doe - (365 * yoe + yoe / 4 - yoe / 100) := ⟨_, rfl⟩
  obtain ⟨mp, hmp⟩ : ∃ mp, mp = (5 * doy + 2) / 153 := ⟨_, rfl⟩
  rw [← hera, ← hdoe, ← hyoe, ← hdoy, ← hmp] at h
  obtain ⟨hy, hm, hd⟩ := h
  obtain ⟨hy0, hy1, hd0, hd1⟩ := yearOfEra_range doe yoe doy (by omega) (by omega) hyoe hdoy
  have hmp0 : 0 ≤ mp := by omega
  have hmp1 : mp ≤ 11 := by omega
  have hdd : 1 ≤ d ∧ d ≤ 31 := by omega
  have hmm : 1 ≤ m ∧ m ≤ 12 := by split_ifs at hm <;> omega
  refine ⟨hmm.1, hmm.2, hdd.1, hdd.2, ?_⟩
  have hy1 : (if m ≤ 2 then y - 1 else y) = yoe + era * 400 := by
    rw [hm] at hy; split_ifs at hy ⊢ <;> omega
  have hmp2 : (if m ≤ 2 then m + 9 else m - 3) = mp := by
    split_ifs at hm ⊢ <;> omega
  simp only [daysFromCivil]
  rw [hy1, hmp2]
  have e1 : (yoe + era * 400) / 400 = era := by omega
  rw [e1]
  have e2 : yoe + era * 400 - era * 400 = yoe := by omega
  rw [e2]
  omega

/-- A year has at least 365 days. -/
theorem daysFromCivil_next_year (y m : Int) :
    daysFromCivil y m + 365 ≤ daysFromCivil (y + 1) m := by
  simp only [daysFromCivil]
  obtain ⟨y1, hy1⟩ : ∃ y1, y1 = (if m ≤ 2 then y - 1 else y) := ⟨_, rfl⟩
  have hy2 : (if m ≤ 2 then y + 1 - 1 else y + 1) = y1 + 1 := by
    rw [hy1]; split_ifs <;> omega
  rw [hy2, ← hy1]
  by_cases c : (y1 + 1) / 400 = y1 / 400
  · rw [c]; omega
  · have c2 : (y1 + 1) / 400 = y1 / 400 + 1 := by omega
    rw [c2]; omega

theorem daysFromCivil_years_later (y m : Int) (n : Nat) :
    daysFromCivil y m + 365 * (n : Int) ≤ daysFromCivil (y + n) m := by
  induction n with
  | zero => simp
  | succ n ih =>
    have h := daysFromCivil_next_year (y + n) m
    have e : y + ((n + 1 : Nat) : Int) = y + n + 1 := by push_cast; ring
    rw [e]
    push_cast
    omega

/-- A month has at least 28 days. -/
theorem daysFromCivil_next_month (y m : Int) (h1 : 1 ≤ m) (h12 : m ≤ 12) :
    daysFromCivil y m + 28 ≤ daysFromCivil (y + m / 12) (m % 12 + 1) := by
  have hm : m = 1 ∨ m = 2 ∨ m = 3 ∨ m = 4 ∨ m = 5 ∨ m = 6 ∨ m = 7 ∨ m = 8 ∨ m = 9 ∨ m = 10 ∨
      m = 11 ∨ m = 12 := by omega
  rcases hm with h | h | h | h | h | h | h | h | h | h | h | h <;> subst h
  all_goals simp only [daysFromCivil]
  all_goals norm_num
  all_goals omega

/-- Go `AddDate(0, 0, n)` moves a time by `n` days. -/
theorem Time.AddDate_days (t : Time) (n : Int) : (t.AddDate 0 0 n).day = t.day + n := by
  rcases hD : civilFromDays t.day with ⟨y, m, d⟩
  obtain ⟨h1, h12, -, -, hz⟩ := civilFromDays_spec t.day y m d hD
  simp only [Time.AddDate, Time.Date, hD, mkDate, add_zero]
  have e1 : (m - 1) / 12 = 0 := by omega
  have e2 : (m - 1) % 12 + 1 = m := by omega
  rw [e1, e2, add_zero]
  omega

/-- Go `AddDate(0, 1, 0)` moves a time forward, by at least 28 days. -/
theorem Time.AddDate_month (t : Time) : t.day + 28 ≤ (t.AddDate 0 1 0).day := by
  rcases hD : civilFromDays t.day with ⟨y, m, d⟩
  obtain ⟨h1, h12, -, -, hz⟩ := civilFromDays_spec t.day y m d hD
  have hm := daysFromCivil_next_month y m h1 h12
  simp only [Time.AddDate, Time.Date, hD, mkDate, add_zero, add_sub_cancel_right]
  omega

/-- Go `AddDate(1, 0, 0)` moves a time forward, by at least 365 days. -/
theorem Time.AddDate_year (t : Time) : t.day + 365 ≤ (t.AddDate 1 0 0).day := by
  rcases hD : civilFromDays t.day with ⟨y, m, d⟩
  obtain ⟨h1, h12, -, -, hz⟩ := civilFromDays_spec t.day y m d hD
  have hy := daysFromCivil_next_year y m
  simp only [Time.AddDate, Time.Date, hD, mkDate, add_zero]
  have e1 : (m - 1) / 12 = 0 := by omega
  have e2 : (m - 1) % 12 + 1 = m := by omega
  rw [e1, e2, add_zero]
  omega

/-- Two times fewer than 335 days apart that have the same month number lie in
the same year. -/
theorem Time.same_month_same_year (a b : Time) (hab : a.day ≤ b.day)
    (hnear : b.day - a.day < 335) (hm : b.Month = a.Month) : b.Year = a.Year := by
  rcases hA : civilFromDays a.day with ⟨y, m, d⟩
  rcases hB : civilFromDays b.day with ⟨y', m', d'⟩
  obtain ⟨-, -, hd1, hd31, hza⟩ := civilFromDays_spec a.day y m d hA
  obtain ⟨-, -, hd1', hd31', hzb⟩ := civilFromDays_spec b.day y' m' d' hB
  simp only [Time.Month, Time.Year, Time.Date, hA, hB] at hm ⊢
  subst hm
  by_contra hne
  rcases lt_or_gt_of_ne hne with hlt | hgt
  · have h := daysFromCivil_years_later y' m' (y - y').toNat
    have e : y' + ((y - y').toNat : Int) = y := by omega
    rw [e] at h
    have e2 : ((y - y').toNat : Int) = y - y' := by omega
    rw [e2] at h
    omega
  · have h := daysFromCivil_years_later y m' (y' - y).toNat
    have e : y + ((y' - y).toNat : Int) = y' := by omega
    rw [e] at h
    have e2 : ((y' - y).toNat : Int) = y' - y := by omega
    rw [e2] at h
    omega

/-! ## Due-date rolling (C21, C22, C23) -/

/-- A roll loop ends on a date that is not a holiday. -/
theorem rollLoop_not_holiday (h : Time → Bool) (step : Int) : ∀ (fuel : Nat) (t r : Time),
    rollLoop h step fuel t = some r → h r = false := by
  intro fuel
  induction fuel with
  | zero => intro t r hr; simp [rollLoop] at hr
  | succ fuel ih =>
    intro t r hr
    simp only [rollLoop] at hr
    by_cases c : h t = true
    · rw [if_pos c] at hr; exact ih _ _ hr
    · rw [if_neg c] at hr
      cases hr
      simpa using c

/-- The result of a roll loop does not depend on the fuel once the loop ends. -/
theorem rollLoop_mono (h : Time → Bool) (step : Int) : ∀ (fuel : Nat) (t r : Time),
    rollLoop h step fuel t = some r → ∀ fuel', fuel ≤ fuel' → rollLoop h step fuel' t = some r := by
  intro fuel
  induction fuel with
  | zero => intro t r hr; simp [rollLoop] at hr
  | succ fuel ih =>
    intro t r hr fuel' hle
    obtain ⟨k, rfl⟩ : ∃ k, fuel' = k + 1 := ⟨fuel' - 1, by omega⟩
    simp only [rollLoop] at hr ⊢
    by_cases c : h t = true
    · rw [if_pos c] at hr ⊢; exact ih _ _ hr k (by omega)
    · rw [if_neg c] at hr ⊢; exact hr

/-- The forward roll does not end before its start. -/
theorem rollLoop_forward_ge (h : Time → Bool) : ∀ (fuel : Nat) (t r : Time),
    rollLoop h 1 fuel t = some r → t.day ≤ r.day := by
  intro fuel
  induction fuel with
  | zero => intro t r hr; simp [rollLoop] at hr
  | succ fuel ih =>
    intro t r hr
    simp only [rollLoop] at hr
    by_cases c : h t = true
    · rw [if_pos c] at hr
      have := ih _ _ hr
      rw [Time.AddDate_days] at this
      omega
    · rw [if_neg c] at hr
      cases hr
      exact le_refl _

/-- The backward roll does not pass a date that is not a holiday. -/
theorem rollLoop_backward_ge (h : Time → Bool) : ∀ (fuel : Nat) (t r : Time),
    rollLoop h (-1) fuel t = some r → ∀ a : Time, h a = false → a.day ≤ t.day →
      a.day ≤ r.day := by
  intro fuel
  induction fuel with
  | zero => intro t r hr; simp [rollLoop] at hr
  | succ fuel ih =>
    intro t r hr a ha hat
    simp only [rollLoop] at hr
    by_cases c : h t = true
    · rw [if_pos c] at hr
      have hne : a.day ≠ t.day := by
        intro e
        have : a = t := by cases a; cases t; simp_all
        rw [this, c] at ha
        exact Bool.noConfusion ha
      refine ih _ _ hr a ha ?_
      rw [Time.AddDate_days]
      omega
    · rw [if_neg c] at hr
      cases hr
      exact hat

theorem applyRoll_Following (fuel : Nat) (t : Time) (h : Time → Bool) :
    applyRoll fuel t Following h = rollLoop h 1 fuel t := by
  simp only [applyRoll]
  rw [if_neg (by decide), if_pos trivial]

theorem applyRoll_Preceding (fuel : Nat) (t : Time) (h : Time → Bool) :
    applyRoll fuel t Preceding h = rollLoop h (-1) fuel t := by
  simp only [applyRoll]
  rw [if_neg (by decide), if_neg (by decide), if_pos trivial]

theorem applyRoll_ModFollow (fuel : Nat) (t : Time) (h : Time → Bool) :
    applyRoll fuel t ModFollow h =
      match rollLoop h 1 fuel t with
      | none => none
      | some t2 => if t2.Month ≠ t.Month then rollLoop h (-1) fuel t else some t2 := by
  simp only [applyRoll]
  rw [if_neg (by decide), if_neg (by decide), if_neg (by decide), if_pos trivial]

/-- What `applyRoll` does under ModifiedFollowing when the Following and the
Preceding loop from the candidate date `c` both end: it returns the Following roll
when the month number of that date is the month number of `c`, and the Preceding
roll otherwise.  For a Following roll of fewer than 335 days the month numbers agree
exactly when the two dates lie in the same calendar month. -/
theorem applyRoll_ModFollow_month_test (fuel : Nat) (c f p : Time)
    (h : Time → Bool) (hf : applyRoll fuel c Following h = some f)
    (hp : applyRoll fuel c Preceding h = some p) :
    applyRoll fuel c ModFollow h = some (if f.Month = c.Month then f else p) ∧
    (f.day - c.day < 335 → (f.Month = c.Month ↔ f.Year = c.Year ∧ f.Month = c.Month)) := by
  rw [applyRoll_Following] at hf
  rw [applyRoll_Preceding] at hp
  constructor
  · rw [applyRoll_ModFollow, hf]
    by_cases hm : f.Month = c.Month
    · simp [hm]
    · simp [hm, hp]
  · intro hnear
    constructor
    · intro hm
      exact ⟨Time.same_month_same_year c f (rollLoop_forward_ge h fuel c f hf) hnear hm, hm⟩
    · exact fun hm => hm.2

/-- C21, the code at the failing input.  Every day from 2024-01-31 to 2024-12-31 is
a holiday and the candidate is 2024-01-31: the Following roll is 2025-01-01, which
lies in another calendar month than the candidate, and the Preceding roll is
2024-01-30; `applyRoll` with ModifiedFollowing returns 2025-01-01 and not
2024-01-30, because it compares `Month()` only and both dates are in a January.
With weekends as holidays the candidate 2024-11-30 rolls forward to 2024-12-02 and
`applyRoll` returns the Preceding roll 2024-11-29. -/
theorem C21_modified_following_keeps_date_of_next_year :
    (applyRoll 400 (mkDate 2024 1 31) Following closedYear).map Time.Date = some (2025, 1, 1) ∧
    (applyRoll 400 (mkDate 2024 1 31) Preceding closedYear).map Time.Date = some (2024, 1, 30) ∧
    (mkDate 2025 1 1).Year ≠ (mkDate 2024 1 31).Year ∧
    (mkDate 2025 1 1).Month = (mkDate 2024 1 31).Month ∧
    (applyRoll 400 (mkDate 2024 1 31) ModFollow closedYear).map Time.Date = some (2025, 1, 1) ∧
    (applyRoll 3 (mkDate 2024 11 30) Following weekends).map Time.Date = some (2024, 12, 2) ∧
    (applyRoll 3 (mkDate 2024 11 30) Preceding weekends).map Time.Date = some (2024, 11, 29) ∧
    (applyRoll 3 (mkDate 2024 11 30) ModFollow weekends).map Time.Date = some (2024, 11, 29) := by
  refine ⟨?_, ?_, ?_, ?_, ?_, ?_, ?_, ?_⟩ <;> decide!

/-- With a supported period type `nextPeriodDate` returns the roll of the candidate
date and no error. -/
theorem nextPeriodDate_supported (fuel : Nat) (last c : Time) (period : PeriodType)
    (roll : RollConvention) (h : Time → Bool)
    (hc : (period = PeriodDay ∧ c = last.AddDate 0 0 1) ∨
      (period = PeriodBiWeek ∧ c = last.AddDate 0 0 14) ∨
      (period = PeriodMonth ∧ c = last.AddDate 0 1 0) ∨
      (period = PeriodYear ∧ c = last.AddDate 1 0 0)) :
    nextPeriodDate fuel last period roll h = (applyRoll fuel c roll h).map (fun t => (t, none)) := by
  rcases hc with ⟨rfl, rfl⟩ | ⟨rfl, rfl⟩ | ⟨rfl, rfl⟩ | ⟨rfl, rfl⟩
  · simp only [nextPeriodDate]; rw [if_pos trivial]
  · simp only [nextPeriodDate]; rw [if_neg (by decide), if_pos trivial]
  · simp only [nextPeriodDate]; rw [if_neg (by decide), if_neg (by decide), if_pos trivial]
  · simp only [nextPeriodDate]
    rw [if_neg (by decide), if_neg (by decide), if_neg (by decide), if_pos trivial]

/-- The candidate date of a supported period type lies after the last date. -/
theorem candidate_after (last c : Time) (period : PeriodType)
    (hc : (period = PeriodDay ∧ c = last.AddDate 0 0 1) ∨
      (period = PeriodBiWeek ∧ c = last.AddDate 0 0 14) ∨
      (period = PeriodMonth ∧ c = last.AddDate 0 1 0) ∨
      (period = PeriodYear ∧ c = last.AddDate 1 0 0)) : last.day < c.day := by
  rcases hc with ⟨-, rfl⟩ | ⟨-, rfl⟩ | ⟨-, rfl⟩ | ⟨-, rfl⟩
  · rw [Time.AddDate_days]; omega
  · rw [Time.AddDate_days]; omega
  · have := Time.AddDate_month last; omega
  · have := Time.AddDate_year last; omega

/-- With an unsupported period type `nextPeriodDate` returns the last date and an
error. -/
theorem nextPeriodDate_unsupported (fuel : Nat) (last : Time) (period : PeriodType)
    (roll : RollConvention) (h : Time → Bool)
    (hp : ¬ (period = PeriodDay ∨ period = PeriodBiWeek ∨ period = PeriodMonth ∨
      period = PeriodYear)) :
    nextPeriodDate fuel last period roll h = some (last, some .unknownPeriodType) := by
  simp only [not_or] at hp
  simp only [nextPeriodDate]
  rw [if_neg hp.1, if_neg hp.2.1, if_neg hp.2.2.1, if_neg hp.2.2.2]

/-- Under Following, Preceding and ModifiedFollowing the rolled date is not a
holiday. -/
theorem applyRoll_not_holiday (fuel : Nat) (c t : Time) (roll : RollConvention)
    (h : Time → Bool) (hroll : roll = Following ∨ roll = Preceding ∨ roll = ModFollow)
    (ht : applyRoll fuel c roll h = some t) : h t = false := by
  rcases hroll with rfl | rfl | rfl
  · rw [applyRoll_Following] at ht
    exact rollLoop_not_holiday h 1 fuel c t ht
  · rw [applyRoll_Preceding] at ht
    exact rollLoop_not_holiday h (-1) fuel c t ht
  · rw [applyRoll_ModFollow] at ht
    rcases hF : rollLoop h 1 fuel c with _ | t2
    · rw [hF] at ht; cases ht
    · rw [hF] at ht
      dsimp only at ht
      by_cases hm : t2.Month ≠ c.Month
      · rw [if_pos hm] at ht
        exact rollLoop_not_holiday h (-1) fuel c t ht
      · rw [if_neg hm] at ht
        cases ht
        exact rollLoop_not_holiday h 1 fuel c t hF

/-- When both roll loops end, `applyRoll` returns, whatever the convention. -/
theorem applyRoll_isSome (fuel : Nat) (c : Time) (roll : RollConvention) (h : Time → Bool)
    (hF : (applyRoll fuel c Following h).isSome) (hP : (applyRoll fuel c Preceding h).isSome) :
    (applyRoll fuel c roll h).isSome := by
  by_cases r1 : roll = Following
  · rw [r1]; exact hF
  by_cases r2 : roll = Preceding
  · rw [r2]; exact hP
  by_cases r3 : roll = ModFollow
  · rw [r3, applyRoll_ModFollow]
    rw [applyRoll_Following] at hF
    rw [applyRoll_Preceding] at hP
    rcases hF2 : rollLoop h 1 fuel c with _ | t2
    · rw [hF2] at hF; cases hF
    · dsimp only
      by_cases hm : t2.Month ≠ c.Month
      · rw [if_pos hm]; exact hP
      · rw [if_neg hm]; rfl
  · simp only [applyRoll]
    rw [if_neg r1, if_neg r2, if_neg r3]
    by_cases r0 : roll = Unadjusted
    · rw [if_pos r0]; rfl
    · rw [if_neg r0]; rfl

/-- The rolled date is not earlier than a date `a` at or before the candidate,
provided `a` is not a holiday when the convention can roll backward. -/
theorem applyRoll_ge (fuel : Nat) (c t a : Time) (roll : RollConvention) (h : Time → Bool)
    (hac : a.day ≤ c.day) (ha : roll = Preceding ∨ roll = ModFollow → h a = false)
    (ht : applyRoll fuel c roll h = some t) : a.day ≤ t.day := by
  by_cases r1 : roll = Following
  · rw [r1, applyRoll_Following] at ht
    have := rollLoop_forward_ge h fuel c t ht
    omega
  by_cases r2 : roll = Preceding
  · rw [r2, applyRoll_Preceding] at ht
    exact rollLoop_backward_ge h fuel c t ht a (ha (Or.inl r2)) hac
  by_cases r3 : roll = ModFollow
  · rw [r3, applyRoll_ModFollow] at ht
    rcases hF : rollLoop h 1 fuel c with _ | t2
    · rw [hF] at ht; cases ht
    · rw [hF] at ht
      dsimp only at ht
      by_cases hm : t2.Month ≠ c.Month
      · rw [if_pos hm] at ht
        exact rollLoop_backward_ge h fuel c t ht a (ha (Or.inr r3)) hac
      · rw [if_neg hm] at ht
        cases ht
        have := rollLoop_forward_ge h fuel c t hF
        omega
  · simp only [applyRoll] at ht
    rw [if_neg r1, if_neg r2, if_neg r3] at ht
    by_cases r0 : roll = Unadjusted
    · rw [if_pos r0] at ht; cases ht; exact hac
    · rw [if_neg r0] at ht; cases ht; exact hac

/-- The four candidate dates of `nextPeriodDate`, by period type. -/
theorem candidate_exists (last : Time) (period : PeriodType)
    (hp : period = PeriodDay ∨ period = PeriodBiWeek ∨ period = PeriodMonth ∨
      period = PeriodYear) :
    ∃ c, (period = PeriodDay ∧ c = last.AddDate 0 0 1) ∨
      (period = PeriodBiWeek ∧ c = last.AddDate 0 0 14) ∨
      (period = PeriodMonth ∧ c = last.AddDate 0 1 0) ∨
      (period = PeriodYear ∧ c = last.AddDate 1 0 0) := by
  rcases hp with h | h | h | h
  · exact ⟨_, Or.inl ⟨h, rfl⟩⟩
  · exact ⟨_, Or.inr (Or.inl ⟨h, rfl⟩)⟩
  · exact ⟨_, Or.inr (Or.inr (Or.inl ⟨h, rfl⟩))⟩
  · exact ⟨_, Or.inr (Or.inr (Or.inr ⟨h, rfl⟩))⟩

/-- A date that `nextDate` of the builders returns for a supported period type under
Following, Preceding or ModifiedFollowing is not a holiday. -/
theorem nextDate_not_holiday (env : Env) (fuel : Nat) (product : Product) (a b : Time)
    (hp : product.PeriodType = PeriodDay ∨ product.PeriodType = PeriodBiWeek ∨
      product.PeriodType = PeriodMonth ∨ product.PeriodType = PeriodYear)
    (hroll : product.RollConvention = Following ∨ product.RollConvention = Preceding ∨
      product.RollConvention = ModFollow)
    (hb : nextDate env fuel product a = some b) : env.cfg.Holiday b = false := by
  obtain ⟨c, hc⟩ := candidate_exists a product.PeriodType hp
  simp only [nextDate, NextPeriodDate] at hb
  rw [nextPeriodDate_supported fuel a c _ _ _ hc] at hb
  rcases hr : applyRoll fuel c product.RollConvention env.cfg.Holiday with _ | t
  · rw [hr] at hb; cases hb
  · rw [hr] at hb
    cases hb
    exact applyRoll_not_holiday fuel c t _ _ hroll hr

/-- A date that `nextDate` of the builders returns is not earlier than the date it
starts from, provided that date is not a holiday when the convention can roll
backward. -/
theorem nextDate_ge (env : Env) (fuel : Nat) (product : Product) (a b : Time)
    (ha : product.RollConvention = Preceding ∨ product.RollConvention = ModFollow →
      env.cfg.Holiday a = false)
    (hb : nextDate env fuel product a = some b) : a.day ≤ b.day := by
  simp only [nextDate, NextPeriodDate] at hb
  by_cases hp : product.PeriodType = PeriodDay ∨ product.PeriodType = PeriodBiWeek ∨
      product.PeriodType = PeriodMonth ∨ product.PeriodType = PeriodYear
  · obtain ⟨c, hc⟩ := candidate_exists a product.PeriodType hp
    rw [nextPeriodDate_supported fuel a c _ _ _ hc] at hb
    rcases hr : applyRoll fuel c product.RollConvention env.cfg.Holiday with _ | t
    · rw [hr] at hb; cases hb
    · rw [hr] at hb
      cases hb
      have := candidate_after a c _ hc
      exact applyRoll_ge fuel c t a _ _ (by omega) ha hr
  · rw [nextPeriodDate_unsupported fuel a _ _ _ hp] at hb
    cases hb
    exact le_refl _

/-- The due dates of the rows of `annuityLoop`: the first is `nextDate` of the start
date, each further one is `nextDate` of the one before. -/
theorem annuityLoop_dates (env : Env) (fuel : Nat) (loanId : Int) (product : Product)
    (r pwt : Decimal) (g : Int) :
    ∀ (k : Nat) (i : Int) (t : Time) (b : Decimal) (gen : IDGenerator) (rows : List Schedule),
      annuityLoop env fuel loanId product r pwt g k i t b gen = some rows →
      (∀ s, rows[0]? = some s → nextDate env fuel product t = some s.DueDate) ∧
      (∀ (j : Nat) (x y : Schedule), rows[j]? = some x → rows[j + 1]? = some y →
        nextDate env fuel product x.DueDate = some y.DueDate) := by
  intro k
  induction k with
  | zero =>
    intro i t b gen rows h
    simp only [annuityLoop, Option.some.injEq] at h
    subst h
    exact ⟨fun s hs => by simp at hs, fun j x y hx => by simp at hx⟩
  | succ k ih =>
    intro i t b gen rows h
    simp only [annuityLoop] at h
    rcases hn : nextDate env fuel product t with _ | t'
    · rw [hn] at h; cases h
    · rw [hn] at h
      dsimp only at h
      have key : ∀ (s0 : Schedule) (b' : Decimal), s0.DueDate = t' →
          (annuityLoop env fuel loanId product r pwt g k (i + 1) t' b'
            (gen.skip (1 + product.Fees.length))).map (s0 :: ·) = some rows →
          (∀ s, rows[0]? = some s → some t' = some s.DueDate) ∧
          (∀ (j : Nat) (x y : Schedule), rows[j]? = some x → rows[j + 1]? = some y →
            nextDate env fuel product x.DueDate = some y.DueDate) := by
        intro s0 b' hs0 hrec
        rcases hr : annuityLoop env fuel loanId product r pwt g k (i + 1) t' b'
            (gen.skip (1 + product.Fees.length)) with _ | rest
        · rw [hr] at hrec; cases hrec
        · rw [hr] at hrec
          simp only [Option.map_some', Option.some.injEq] at hrec
          subst hrec
          obtain ⟨ih0, ih1⟩ := ih (i + 1) t' b' _ rest hr
          refine ⟨?_, ?_⟩
          · intro s hs
            simp only [List.getElem?_cons_zero, Option.some.injEq] at hs
            subst hs
            rw [hs0]
          · intro j x y hx hy
            cases j with
            | zero =>
              simp only [List.getElem?_cons_zero, Option.some.injEq] at hx
              simp only [List.getElem?_cons_succ] at hy
              subst hx
              rw [hs0]
              exact ih0 y hy
            | succ j =>
              simp only [List.getElem?_cons_succ] at hx hy
              exact ih1 j x y hx hy
      by_cases hig : i ≤ g
      · rw [if_pos hig] at h
        exact key _ _ rfl h
      · rw [if_neg hig] at h
        exact key _ _ rfl h

/-- The due dates of the rows of `equalPrincipalLoop`, as for `annuityLoop`. -/
theorem equalPrincipalLoop_dates (env : Env) (fuel : Nat) (loanId : Int) (product : Product)
    (r p : Decimal) (g : Int) :
    ∀ (k : Nat) (i : Int) (t : Time) (b : Decimal) (gen : IDGenerator) (rows : List Schedule),
      equalPrincipalLoop env fuel loanId product r p g k i t b gen = some rows →
      (∀ s, rows[0]? = some s → nextDate env fuel product t = some s.DueDate) ∧
      (∀ (j : Nat) (x y : Schedule), rows[j]? = some x → rows[j + 1]? = some y →
        nextDate env fuel product x.DueDate = some y.DueDate) := by
  intro k
  induction k with
  | zero =>
    intro i t b gen rows h
    simp only [equalPrincipalLoop, Option.some.injEq] at h
    subst h
    exact ⟨fun s hs => by simp at hs, fun j x y hx => by simp at hx⟩
  | succ k ih =>
    intro i t b gen rows h
    simp only [equalPrincipalLoop] at h
    rcases hn : nextDate env fuel product t with _ | t'
    · rw [hn] at h; cases h
    · rw [hn] at h
      dsimp only at h
      have key : ∀ (s0 : Schedule) (b' : Decimal), s0.DueDate = t' →
          (equalPrincipalLoop env fuel loanId product r p g k (i + 1) t' b'
            (gen.skip (1 + product.Fees.length))).map (s0 :: ·) = some rows →
          (∀ s, rows[0]? = some s → some t' = some s.DueDate) ∧
          (∀ (j : Nat) (x y : Schedule), rows[j]? = some x → rows[j + 1]? = some y →
            nextDate env fuel product x.DueDate = some y.DueDate) := by
        intro s0 b' hs0 hrec
        rcases hr : equalPrincipalLoop env fuel loanId product r p g k (i + 1) t' b'
            (gen.skip (1 + product.Fees.length)) with _ | rest
        · rw [hr] at hrec; cases hrec
        · rw [hr] at hrec
          simp only [Option.map_some', Option.some.injEq] at hrec
          subst hrec
          obtain ⟨ih0, ih1⟩ := ih (i + 1) t' b' _ rest hr
          refine ⟨?_, ?_⟩
          · intro s hs
            simp only [List.getElem?_cons_zero, Option.some.injEq] at hs
            subst hs
            rw [hs0]
          · intro j x y hx hy
            cases j with
            | zero =>
              simp only [List.getElem?_cons_zero, Option.some.injEq] at hx
              simp only [List.getElem?_cons_succ] at hy
              subst hx
              rw [hs0]
              exact ih0 y hy
            | succ j =>
              simp only [List.getElem?_cons_succ] at hx hy
              exact ih1 j x y hx hy
      by_cases hig : i ≤ g
      · rw [if_pos hig] at h
        exact key _ _ rfl h
      · rw [if_neg hig] at h
        exact key _ _ rfl h

/-- Go `AnnualToPeriodRate` returns a rate only for a supported period type. -/
theorem AnnualToPeriodRate_ok_period (env : Env) (annual r : Decimal) (pt : PeriodType)
    (conv : DayCountConv) (h : AnnualToPeriodRate env annual pt conv = some (.ok r)) :
    pt = PeriodDay ∨ pt = PeriodBiWeek ∨ pt = PeriodMonth ∨ pt = PeriodYear := by
  by_contra hp
  simp only [not_or] at hp
  simp only [AnnualToPeriodRate] at h
  rw [if_neg hp.1, if_neg hp.2.2.1, if_neg hp.2.2.2, if_neg hp.2.1] at h
  cases h

/-- The rows that a builder returns: the period type is supported, and the due
dates start from the clock and follow one another by `nextDate`. -/
theorem builder_dates (env : Env) (fuel : Nat) (loanId : Int) (P0 : Decimal) (N : Int)
    (product : Product) (gen : IDGenerator) (rows : List Schedule)
    (h : AnnuitySchedule env fuel loanId P0 N product gen = some (.ok rows) ∨
      EqualPrincipalSchedule env fuel loanId P0 N product gen = some (.ok rows)) :
    (product.PeriodType = PeriodDay ∨ product.PeriodType = PeriodBiWeek ∨
      product.PeriodType = PeriodMonth ∨ product.PeriodType = PeriodYear) ∧
    (∀ s, rows[0]? = some s → nextDate env fuel product env.cfg.Clock = some s.DueDate) ∧
    (∀ (j : Nat) (x y : Schedule), rows[j]? = some x → rows[j + 1]? = some y →
      nextDate env fuel product x.DueDate = some y.DueDate) := by
  rcases h with h | h
  · simp only [AnnuitySchedule] at h
    by_cases hN : N < 0
    · rw [if_pos hN] at h; cases h
    · rw [if_neg hN] at h
      rcases hr : AnnualToPeriodRate env product.Interest product.PeriodType
          product.DayCountConv with _ | (e | r)
      · rw [hr] at h; cases h
      · rw [hr] at h; cases h
      · rw [hr] at h
        dsimp only at h
        rcases hA : AnnuityPayment P0 (N - product.GraceTerm) r with _ | pwt
        · rw [hA] at h; cases h
        · rw [hA] at h
          dsimp only at h
          rcases hl : annuityLoop env fuel loanId product r pwt product.GraceTerm N.toNat 1
              env.cfg.Clock P0 gen with _ | rows'
          · rw [hl] at h; cases h
          · rw [hl] at h
            simp only [Option.map_some', Option.some.injEq, Except.ok.injEq] at h
            subst h
            exact ⟨AnnualToPeriodRate_ok_period env _ r _ _ hr,
              annuityLoop_dates env fuel loanId product r pwt _ _ _ _ _ _ _ hl⟩
  · simp only [EqualPrincipalSchedule] at h
    by_cases hN : N < 0
    · rw [if_pos hN] at h; cases h
    · rw [if_neg hN] at h
      rcases hr : AnnualToPeriodRate env product.Interest product.PeriodType
          product.DayCountConv with _ | (e | r)
      · rw [hr] at h; cases h
      · rw [hr] at h; cases h
      · rw [hr] at h
        dsimp only at h
        rcases hA : P0.Div (Decimal.NewFromInt (N - product.GraceTerm)) with _ | p
        · rw [hA] at h; cases h
        · rw [hA] at h
          dsimp only at h
          rcases hl : equalPrincipalLoop env fuel loanId product r p product.GraceTerm N.toNat 1
              env.cfg.Clock P0 gen with _ | rows'
          · rw [hl] at h; cases h
          · rw [hl] at h
            simp only [Option.map_some', Option.some.injEq, Except.ok.injEq] at h
            subst h
            exact ⟨AnnualToPeriodRate_ok_period env _ r _ _ hr,
              equalPrincipalLoop_dates env fuel loanId product r p _ _ _ _ _ _ _ hl⟩

/-- Every due date in a schedule that a builder returns comes out of `nextDate`. -/
theorem builder_date_source (env : Env) (fuel : Nat) (product : Product) (t : Time)
    (rows : List Schedule)
    (h0 : ∀ s, rows[0]? = some s → nextDate env fuel product t = some s.DueDate)
    (h1 : ∀ (j : Nat) (x y : Schedule), rows[j]? = some x → rows[j + 1]? = some y →
      nextDate env fuel product x.DueDate = some y.DueDate)
    (j : Nat) (s : Schedule) (hs : rows[j]? = some s) :
    ∃ a, nextDate env fuel product a = some s.DueDate := by
  cases j with
  | zero => exact ⟨t, h0 s hs⟩
  | succ j =>
    have hlt : j + 1 < rows.length := by
      by_contra hc
      rw [List.getElem?_eq_none (by omega)] at hs
      cases hs
    exact ⟨(rows[j]).DueDate, h1 j rows[j] s (List.getElem?_eq_getElem (by omega)) hs⟩

/-- C22.  For a supported period type, a roll convention among Following, Preceding
and ModifiedFollowing, and a holiday predicate for which the two roll loops from the
candidate date end, `nextPeriodDate` returns a date and no error, and that date is
not a holiday.  Therefore no due date in a schedule that `AnnuitySchedule` or
`EqualPrincipalSchedule` returns for a product with such a convention is a holiday
of the configured provider. -/
theorem C22_due_date_is_not_a_holiday (fuel : Nat) (last c : Time) (period : PeriodType)
    (roll : RollConvention) (h : Time → Bool)
    (hc : (period = PeriodDay ∧ c = last.AddDate 0 0 1) ∨
      (period = PeriodBiWeek ∧ c = last.AddDate 0 0 14) ∨
      (period = PeriodMonth ∧ c = last.AddDate 0 1 0) ∨
      (period = PeriodYear ∧ c = last.AddDate 1 0 0))
    (hroll : roll = Following ∨ roll = Preceding ∨ roll = ModFollow)
    (hF : (applyRoll fuel c Following h).isSome) (hP : (applyRoll fuel c Preceding h).isSome) :
    (∃ t, nextPeriodDate fuel last period roll h = some (t, none) ∧ h t = false) ∧
    ∀ (env : Env) (loanId : Int) (P0 : Decimal) (N : Int) (product : Product)
      (gen : IDGenerator) (rows : List Schedule),
      product.RollConvention = roll →
      (AnnuitySchedule env fuel loanId P0 N product gen = some (.ok rows) ∨
        EqualPrincipalSchedule env fuel loanId P0 N product gen = some (.ok rows)) →
      ∀ s ∈ rows, env.cfg.Holiday s.DueDate = false := by
  constructor
  · rw [nextPeriodDate_supported fuel last c period roll h hc]
    have hs := applyRoll_isSome fuel c roll h hF hP
    rcases hr : applyRoll fuel c roll h with _ | t
    · rw [hr] at hs; cases hs
    · exact ⟨t, rfl, applyRoll_not_holiday fuel c t roll h hroll hr⟩
  · intro env loanId P0 N product gen rows hpr hb s hs
    obtain ⟨hp, h0, h1⟩ := builder_dates env fuel loanId P0 N product gen rows hb
    obtain ⟨j, hj⟩ := List.getElem?_of_mem hs
    obtain ⟨a, ha⟩ := builder_date_source env fuel product env.cfg.Clock rows h0 h1 j s hj
    exact nextDate_not_holiday env fuel product a s.DueDate hp (by rw [hpr]; exact hroll) ha

/-- C22, witness: one month after 2024-10-30 under ModifiedFollowing with weekends
as holidays is 2024-11-29, a Friday; and the due dates of the three rows built on
that day (2024-11-29, 2024-12-30 and 2025-01-30) are no holidays. -/
theorem C22_witness :
    (∃ t, nextPeriodDate 3 (mkDate 2024 10 30) PeriodMonth ModFollow weekends = some (t, none) ∧
      weekends t = false) ∧
    dueDates (AnnuitySchedule weekendEnv 3 7 (.num 3000) 3 (rollProduct ModFollow) exampleGen)
      = [(2024, 11, 29), (2024, 12, 30), (2025, 1, 30)] ∧
    ∀ s ∈ builtRows
        (AnnuitySchedule weekendEnv 3 7 (.num 3000) 3 (rollProduct ModFollow) exampleGen),
      weekends s.DueDate = false := by
  have h := C22_due_date_is_not_a_holiday 3 (mkDate 2024 10 30) (mkDate 2024 11 30) PeriodMonth
    ModFollow weekends (Or.inr (Or.inr (Or.inl ⟨rfl, by decide!⟩))) (Or.inr (Or.inr rfl))
    (by decide!) (by decide!)
  exact ⟨h.1, by decide!,
    h.2 weekendEnv 7 (.num 3000) 3 (rollProduct ModFollow) exampleGen _ rfl (Or.inl (by decide!))⟩

/-- C23.  In every schedule that `AnnuitySchedule` or `EqualPrincipalSchedule`
returns, whatever the period type, the roll convention and the holiday predicate,
the due date of a row is not earlier than the due date of the row before it. -/
theorem C23_due_dates_do_not_decrease (env : Env) (fuel : Nat) (loanId : Int) (P0 : Decimal)
    (N : Int) (product : Product) (gen : IDGenerator) (rows : List Schedule)
    (h : AnnuitySchedule env fuel loanId P0 N product gen = some (.ok rows) ∨
      EqualPrincipalSchedule env fuel loanId P0 N product gen = some (.ok rows)) :
    ∀ (i : Nat) (x y : Schedule), rows[i]? = some x → rows[i + 1]? = some y →
      x.DueDate.day ≤ y.DueDate.day := by
  obtain ⟨hp, h0, h1⟩ := builder_dates env fuel loanId P0 N product gen rows h
  intro i x y hx hy
  refine nextDate_ge env fuel product x.DueDate y.DueDate ?_ (h1 i x y hx hy)
  intro hroll
  obtain ⟨a, ha⟩ := builder_date_source env fuel product env.cfg.Clock rows h0 h1 i x hx
  refine nextDate_not_holiday env fuel product a x.DueDate hp ?_ ha
  rcases hroll with hr | hr
  · exact Or.inr (Or.inl hr)
  · exact Or.inr (Or.inr hr)

/-- C23, witness: three monthly rows built on 2024-10-30 under Preceding with
weekends as holidays fall due on 2024-11-29, 2024-12-27 and 2025-01-27. -/
theorem C23_witness :
    dueDates (EqualPrincipalSchedule weekendEnv 3 7 (.num 3000) 3 (rollProduct Preceding)
        exampleGen) = [(2024, 11, 29), (2024, 12, 27), (2025, 1, 27)] ∧
    ∀ (i : Nat) (x y : Schedule),
      (builtRows (EqualPrincipalSchedule weekendEnv 3 7 (.num 3000) 3 (rollProduct Preceding)
        exampleGen))[i]? = some x →
      (builtRows (EqualPrincipalSchedule weekendEnv 3 7 (.num 3000) 3 (rollProduct Preceding)
        exampleGen))[i + 1]? = some y →
      x.DueDate.day ≤ y.DueDate.day :=
  ⟨by decide!, C23_due_dates_do_not_decrease weekendEnv 3 7 (.num 3000) 3 (rollProduct Preceding)
    exampleGen _ (Or.inr (by decide!))⟩

/-! ## Rate conversion (C24) -/

/-- For each of the six conventions `EffectiveInterestRate` returns a fraction: the
divisor is 360, 365, 366 or 365.25, never zero. -/
theorem EffectiveInterestRate_supported (start stop : Time) (conv : DayCountConv)
    (hconv : conv = BONDBASIS ∨ conv = EUROBOND ∨ conv = MONEYMARKET ∨ conv = FIXED ∨
      conv = ISDA ∨ conv = AFB) :
    ∃ f, EffectiveInterestRate start stop conv = some (.ok f) := by
  have hdiv : ∀ (d y : Int), y ≠ 0 →
      ∃ f, ((Decimal.NewFromInt d).Div
        (if y = 36525 then Decimal.num (1461 / 4) else Decimal.NewFromInt y)).map
          (Except.ok : Decimal → Except Error Decimal) = some (.ok f) := by
    intro d y hy
    by_cases h : y = 36525
    · rw [if_pos h]
      simp only [Decimal.Div, Decimal.val]
      rw [if_neg (by norm_num)]
      exact ⟨_, rfl⟩
    · rw [if_neg h]
      simp only [Decimal.Div, Decimal.NewFromInt, Decimal.val]
      rw [if_neg (by exact_mod_cast hy)]
      exact ⟨_, rfl⟩
  rcases hconv with rfl | rfl | rfl | rfl | rfl | rfl
  · simp only [EffectiveInterestRate]
    rw [if_pos trivial]
    simp only [Days360US]
    exact hdiv _ 360 (by decide)
  · simp only [EffectiveInterestRate]
    rw [if_neg (by decide), if_pos trivial]
    simp only [Days360E]
    exact hdiv _ 360 (by decide)
  · simp only [EffectiveInterestRate]
    rw [if_neg (by decide), if_neg (by decide), if_pos trivial]
    exact hdiv _ 360 (by decide)
  · simp only [EffectiveInterestRate]
    rw [if_neg (by decide), if_neg (by decide), if_neg (by decide), if_pos trivial]
    exact hdiv _ 365 (by decide)
  · simp only [EffectiveInterestRate]
    rw [if_neg (by decide), if_neg (by decide), if_neg (by decide), if_neg (by decide),
      if_pos trivial]
    refine hdiv _ (YearDays start) ?_
    simp only [YearDays]
    split_ifs <;> decide
  · simp only [EffectiveInterestRate]
    rw [if_neg (by decide), if_neg (by decide), if_neg (by decide), if_neg (by decide),
      if_neg (by decide), if_pos trivial]
    exact hdiv _ 36525 (by decide)

/-- For any other convention `EffectiveInterestRate` returns the error
"unsupported day count". -/
theorem EffectiveInterestRate_unsupported (start stop : Time) (conv : DayCountConv)
    (hconv : ¬ (conv = BONDBASIS ∨ conv = EUROBOND ∨ conv = MONEYMARKET ∨ conv = FIXED ∨
      conv = ISDA ∨ conv = AFB)) :
    EffectiveInterestRate start stop conv = some (.error .unsupportedDayCount) := by
  simp only [not_or] at hconv
  simp only [EffectiveInterestRate]
  rw [if_neg hconv.1, if_neg hconv.2.1, if_neg hconv.2.2.1, if_neg hconv.2.2.2.1,
    if_neg hconv.2.2.2.2.1, if_neg hconv.2.2.2.2.2]

/-- With a supported period type `AnnualToPeriodRate` passes the clock and the clock
advanced by one period to `EffectiveInterestRate`. -/
theorem AnnualToPeriodRate_supported (env : Env) (annual : Decimal) (pt : PeriodType)
    (conv : DayCountConv) (next : Time)
    (hnext : (pt = PeriodDay ∧ next = env.cfg.Clock.AddDate 0 0 1) ∨
      (pt = PeriodBiWeek ∧ next = env.cfg.Clock.AddDate 0 0 14) ∨
      (pt = PeriodMonth ∧ next = env.cfg.Clock.AddDate 0 1 0) ∨
      (pt = PeriodYear ∧ next = env.cfg.Clock.AddDate 1 0 0)) :
    AnnualToPeriodRate env annual pt conv =
      match EffectiveInterestRate env.cfg.Clock next conv with
      | none => none
      | some (.error e) => some (.error e)
      | some (.ok frac) => some (.ok (frac.Mul annual)) := by
  rcases hnext with ⟨rfl, rfl⟩ | ⟨rfl, rfl⟩ | ⟨rfl, rfl⟩ | ⟨rfl, rfl⟩
  · simp only [AnnualToPeriodRate]; rw [if_pos trivial]
  · simp only [AnnualToPeriodRate]
    rw [if_neg (by decide), if_neg (by decide), if_neg (by decide), if_pos trivial]
  · simp only [AnnualToPeriodRate]; rw [if_neg (by decide), if_pos trivial]
  · simp only [AnnualToPeriodRate]; rw [if_neg (by decide), if_neg (by decide), if_pos trivial]

/-- With any other period type `AnnualToPeriodRate` returns the error "unknown
period type". -/
theorem AnnualToPeriodRate_unsupported (env : Env) (annual : Decimal) (pt : PeriodType)
    (conv : DayCountConv)
    (hp : ¬ (pt = PeriodDay ∨ pt = PeriodBiWeek ∨ pt = PeriodMonth ∨ pt = PeriodYear)) :
    AnnualToPeriodRate env annual pt conv = some (.error .unknownPeriodType) := by
  simp only [not_or] at hp
  simp only [AnnualToPeriodRate]
  rw [if_neg hp.1, if_neg hp.2.2.1, if_neg hp.2.2.2, if_neg hp.2.1]

/-- C24.  For every annual rate `r`, period type `pt` and convention `dcc`:
(1) when `pt` is Day, BiWeek, Month or Year and `dcc` is one of the six conventions,
`EffectiveInterestRate` of the clock and the clock advanced by one period returns a
fraction `f`, and `AnnualToPeriodRate` returns exactly `f.Mul r`;
(2) `AnnualToPeriodRate` returns an error exactly when `pt` is not one of the four
period types or `dcc` is not one of the six conventions;
(3) it always returns. -/
theorem C24_AnnualToPeriodRate_is_fraction_times_rate (env : Env) (r : Decimal)
    (pt : PeriodType) (dcc : DayCountConv) :
    (∀ next : Time,
      ((pt = PeriodDay ∧ next = env.cfg.Clock.AddDate 0 0 1) ∨
        (pt = PeriodBiWeek ∧ next = env.cfg.Clock.AddDate 0 0 14) ∨
        (pt = PeriodMonth ∧ next = env.cfg.Clock.AddDate 0 1 0) ∨
        (pt = PeriodYear ∧ next = env.cfg.Clock.AddDate 1 0 0)) →
      (dcc = BONDBASIS ∨ dcc = EUROBOND ∨ dcc = MONEYMARKET ∨ dcc = FIXED ∨ dcc = ISDA ∨
        dcc = AFB) →
      ∃ f, EffectiveInterestRate env.cfg.Clock next dcc = some (.ok f) ∧
        AnnualToPeriodRate env r pt dcc = some (.ok (f.Mul r))) ∧
    ((∃ e, AnnualToPeriodRate env r pt dcc = some (.error e)) ↔
      (¬ (pt = PeriodDay ∨ pt = PeriodBiWeek ∨ pt = PeriodMonth ∨ pt = PeriodYear) ∨
        ¬ (dcc = BONDBASIS ∨ dcc = EUROBOND ∨ dcc = MONEYMARKET ∨ dcc = FIXED ∨ dcc = ISDA ∨
          dcc = AFB))) ∧
    (AnnualToPeriodRate env r pt dcc).isSome := by
  have h1 : ∀ next : Time,
      ((pt = PeriodDay ∧ next = env.cfg.Clock.AddDate 0 0 1) ∨
        (pt = PeriodBiWeek ∧ next = env.cfg.Clock.AddDate 0 0 14) ∨
        (pt = PeriodMonth ∧ next = env.cfg.Clock.AddDate 0 1 0) ∨
        (pt = PeriodYear ∧ next = env.cfg.Clock.AddDate 1 0 0)) →
      (dcc = BONDBASIS ∨ dcc = EUROBOND ∨ dcc = MONEYMARKET ∨ dcc = FIXED ∨ dcc = ISDA ∨
        dcc = AFB) →
      ∃ f, EffectiveInterestRate env.cfg.Clock next dcc = some (.ok f) ∧
        AnnualToPeriodRate env r pt dcc = some (.ok (f.Mul r)) := by
    intro next hnext hdcc
    obtain ⟨f, hf⟩ := EffectiveInterestRate_supported env.cfg.Clock next dcc hdcc
    refine ⟨f, hf, ?_⟩
    rw [AnnualToPeriodRate_supported env r pt dcc next hnext, hf]
  refine ⟨h1, ?_, ?_⟩
  · by_cases hp : pt = PeriodDay ∨ pt = PeriodBiWeek ∨ pt = PeriodMonth ∨ pt = PeriodYear
    · obtain ⟨next, hnext⟩ := candidate_exists env.cfg.Clock pt hp
      by_cases hd : dcc = BONDBASIS ∨ dcc = EUROBOND ∨ dcc = MONEYMARKET ∨ dcc = FIXED ∨
          dcc = ISDA ∨ dcc = AFB
      · obtain ⟨f, -, hf⟩ := h1 next hnext hd
        constructor
        · rintro ⟨e, he⟩
          rw [hf] at he
          cases he
        · rintro (h | h)
          · exact absurd hp h
          · exact absurd hd h
      · constructor
        · intro _; exact Or.inr hd
        · intro _
          refine ⟨.unsupportedDayCount, ?_⟩
          rw [AnnualToPeriodRate_supported env r pt dcc next hnext,
            EffectiveInterestRate_unsupported _ _ _ hd]
    · constructor
      · intro _; exact Or.inl hp
      · intro _
        exact ⟨.unknownPeriodType, AnnualToPeriodRate_unsupported env r pt dcc hp⟩
  · by_cases hp : pt = PeriodDay ∨ pt = PeriodBiWeek ∨ pt = PeriodMonth ∨ pt = PeriodYear
    · obtain ⟨next, hnext⟩ := candidate_exists env.cfg.Clock pt hp
      by_cases hd : dcc = BONDBASIS ∨ dcc = EUROBOND ∨ dcc = MONEYMARKET ∨ dcc = FIXED ∨
          dcc = ISDA ∨ dcc = AFB
      · obtain ⟨f, -, hf⟩ := h1 next hnext hd
        rw [hf]; rfl
      · rw [AnnualToPeriodRate_supported env r pt dcc next hnext,
          EffectiveInterestRate_unsupported _ _ _ hd]
        rfl
    · rw [AnnualToPeriodRate_unsupported env r pt dcc hp]; rfl

/-- C24, witness: 12% a year over one month from 2024-01-01 on Act/365 is
31/365 (to 16 digits) times 0.12; a weekly period type and an unknown convention
give an error. -/
theorem C24_witness :
    (∃ f, EffectiveInterestRate exampleEnv.cfg.Clock (exampleEnv.cfg.Clock.AddDate 0 1 0) FIXED
        = some (.ok f) ∧ f.val = Decimal.round16 (31 / 365) ∧
      AnnualToPeriodRate exampleEnv (.num (12 / 100)) PeriodMonth FIXED
        = some (.ok (f.Mul (.num (12 / 100))))) ∧
    (∃ e, AnnualToPeriodRate exampleEnv (.num (12 / 100)) "WEEK" FIXED = some (.error e)) ∧
    (∃ e, AnnualToPeriodRate exampleEnv (.num (12 / 100)) PeriodMonth "ACT/364"
        = some (.error e)) := by
  have h := C24_AnnualToPeriodRate_is_fraction_times_rate exampleEnv (.num (12 / 100))
    PeriodMonth FIXED
  obtain ⟨f, hf, hr⟩ := h.1 (exampleEnv.cfg.Clock.AddDate 0 1 0)
    (Or.inr (Or.inr (Or.inl ⟨rfl, rfl⟩))) (Or.inr (Or.inr (Or.inr (Or.inl rfl))))
  refine ⟨⟨f, hf, ?_, hr⟩, ?_, ?_⟩
  · have e : EffectiveInterestRate exampleEnv.cfg.Clock (exampleEnv.cfg.Clock.AddDate 0 1 0) FIXED
        = some (.ok (.num (Decimal.round16 (31 / 365)))) := by decide!
    rw [e] at hf
    cases hf
    rfl
  · exact ⟨.unknownPeriodType, by decide!⟩
  · exact ⟨.unsupportedDayCount, by decide!⟩

/-! ## Settlement status of the aggregate (C25) -/

/-- The loop of `NextUnpaidPeriod` from index `i ≥ 0` on returns -1 when every row
is Paid or Removed, and otherwise `i` plus the least position of a row that is
neither. -/
theorem nextUnpaidFrom_spec : ∀ (rows : List Schedule) (i : Int), 0 ≤ i →
    (nextUnpaidFrom rows i = -1 ∧
      ∀ s ∈ rows, s.Status = SchedulePaid ∨ s.Status = ScheduleRemoved) ∨
    (∃ (k : Nat) (s : Schedule), rows[k]? = some s ∧ nextUnpaidFrom rows i = i + k ∧
      s.Status ≠ SchedulePaid ∧ s.Status ≠ ScheduleRemoved ∧
      ∀ (j : Nat) (x : Schedule), j < k → rows[j]? = some x →
        x.Status = SchedulePaid ∨ x.Status = ScheduleRemoved) := by
  intro rows
  induction rows with
  | nil => intro i _; left; exact ⟨rfl, fun s hs => by simp at hs⟩
  | cons s rest ih =>
    intro i hi
    simp only [nextUnpaidFrom]
    by_cases c : s.Status ≠ SchedulePaid ∧ s.Status ≠ ScheduleRemoved
    · rw [if_pos c]
      right
      refine ⟨0, s, by simp, by simp, c.1, c.2, ?_⟩
      intro j x hj; omega
    · rw [if_neg c]
      have hs : s.Status = SchedulePaid ∨ s.Status = ScheduleRemoved := by
        by_contra hne
        simp only [not_or] at hne
        exact c hne
      rcases ih (i + 1) (by omega) with ⟨h1, h2⟩ | ⟨k, x, hk, hv, hx1, hx2, hmin⟩
      · left
        refine ⟨h1, ?_⟩
        intro y hy
        rcases List.mem_cons.mp hy with rfl | hy
        · exact hs
        · exact h2 y hy
      · right
        refine ⟨k + 1, x, by simpa using hk, by rw [hv]; push_cast; ring, hx1, hx2, ?_⟩
        intro j y hj hy
        cases j with
        | zero =>
          simp only [List.getElem?_cons_zero, Option.some.injEq] at hy
          subst hy
          exact hs
        | succ j =>
          simp only [List.getElem?_cons_succ] at hy
          exact hmin j y (by omega) hy

/-- Go `NextUnpaidPeriod` returns -1 exactly when every row is Paid or Removed, and
otherwise the least 0-based index of a row that is neither. -/
theorem NextUnpaidPeriod_spec (l : LoanExtra) :
    (l.NextUnpaidPeriod = -1 ↔
      ∀ s ∈ l.Schedules, s.Status = SchedulePaid ∨ s.Status = ScheduleRemoved) ∧
    (l.NextUnpaidPeriod ≠ -1 →
      ∃ (k : Nat) (s : Schedule), l.NextUnpaidPeriod = k ∧ l.Schedules[k]? = some s ∧
        s.Status ≠ SchedulePaid ∧ s.Status ≠ ScheduleRemoved ∧
        ∀ (j : Nat) (x : Schedule), j < k → l.Schedules[j]? = some x →
          x.Status = SchedulePaid ∨ x.Status = ScheduleRemoved) := by
  have hN : l.NextUnpaidPeriod = nextUnpaidFrom l.Schedules 0 := by
    simp only [LoanExtra.NextUnpaidPeriod]
    by_cases c : l.Schedules.length = 0
    · rw [if_pos c, List.length_eq_zero.mp c]; rfl
    · rw [if_neg c]
  rw [hN]
  rcases nextUnpaidFrom_spec l.Schedules 0 (le_refl _) with
    ⟨h1, h2⟩ | ⟨k, s, hk, hv, hs1, hs2, hmin⟩
  · exact ⟨⟨fun _ => h2, fun _ => h1⟩, fun hne => absurd h1 hne⟩
  · refine ⟨⟨?_, ?_⟩, fun _ => ⟨k, s, by rw [hv]; simp, hk, hs1, hs2, hmin⟩⟩
    · intro h
      rw [hv] at h
      omega
    · intro h
      rcases h s (List.getElem?_mem hk) with e | e
      · exact absurd e hs1
      · exact absurd e hs2

/-- Go `IsFullyPaid` returns true exactly when the first row of the schedule is neither
Paid nor Removed. -/
theorem IsFullyPaid_iff (l : LoanExtra) :
    l.IsFullyPaid = true ↔
      ∃ s, l.Schedules[0]? = some s ∧ s.Status ≠ SchedulePaid ∧ s.Status ≠ ScheduleRemoved := by
  simp only [LoanExtra.IsFullyPaid, decide_eq_true_eq]
  obtain ⟨h1, h2⟩ := NextUnpaidPeriod_spec l
  constructor
  · intro h0
    obtain ⟨k, s, hk, hs, hs1, hs2, -⟩ := h2 (by rw [h0]; decide)
    rw [h0] at hk
    have : k = 0 := by omega
    subst this
    exact ⟨s, hs, hs1, hs2⟩
  · rintro ⟨s, hs, hs1, hs2⟩
    by_cases hne : l.NextUnpaidPeriod = -1
    · rcases h1.mp hne s (List.getElem?_mem hs) with e | e
      · exact absurd e hs1
      · exact absurd e hs2
    · obtain ⟨k, x, hk, hx, hx1, hx2, hmin⟩ := h2 hne
      cases k with
      | zero => rw [hk]; rfl
      | succ k =>
        rcases hmin 0 s (by omega) hs with e | e
        · exact absurd e hs1
        · exact absurd e hs2

/-- C25, the code at the failing inputs.  A loan whose only row is Unpaid:
`NextUnpaidPeriod` returns 0 and `IsFullyPaid` returns true.  A loan whose only row
is Paid, and a loan whose rows are Paid and Removed: `NextUnpaidPeriod` returns -1
and `IsFullyPaid` returns false. -/
theorem C25_IsFullyPaid_tests_index_zero :
    (exampleLoan [dueRow 1 false] []).NextUnpaidPeriod = 0 ∧
    (exampleLoan [dueRow 1 false] []).IsFullyPaid = true ∧
    (exampleLoan [paidRow] []).NextUnpaidPeriod = -1 ∧
    (exampleLoan [paidRow] []).IsFullyPaid = false ∧
    (exampleLoan [paidRow, { dueRow 2 false with Status := ScheduleRemoved }] []).NextUnpaidPeriod
      = -1 ∧
    (exampleLoan [paidRow, { dueRow 2 false with Status := ScheduleRemoved }] []).IsFullyPaid
      = false := by
  decide!

/-! ## Conservation and bounds of the funds (C26, C27) -/

/-- C26, the code at the failing input.  Ten Unpaid rows of principal 1000.00,
default rate 0.02, 5000.00 to apply, in a slice with spare capacity:
`prepayTermReduction` marks rows 10 to 7 Paid (principal 4000.00), marks row 6
Removed and appends a row for period 6 whose principal is lower by `920/1.02` (the
quotient to 16 digits), and returns 920.00.  The funds consumed are 4080.00, which
is 1.02 times the 4000.00 of the Paid rows alone; 1.02 times the principal retired
is more than 5000.00.  `PreRepay` hands the 920.00 back and records 4080.00. -/
theorem C26_term_reduction_keeps_the_funds_it_applies :
    (prepayTermReduction exampleEnv (tenRowLoan 1) (.num 5000) exampleGen).map
        (fun res => (res.2.1.val, res.2.2,
          ((res.1.Schedules.filter (fun s => s.Status = SchedulePaid)).map
            (fun s => s.Principal.val)).sum))
      = some (920, none, 4000) ∧
    (prepayTermReduction exampleEnv (tenRowLoan 1) (.num 5000) exampleGen).map
        (fun res => (res.1.Schedules.filter (fun s => s.Status = ScheduleRemoved)).map
          (fun s => (s.Period, s.Principal.val)))
      = some [(6, 1000)] ∧
    (prepayTermReduction exampleEnv (tenRowLoan 1) (.num 5000) exampleGen).map
        (fun res => (res.1.Schedules.drop 10).map (fun s => (s.Period, s.Principal.val)))
      = some [(6, 1000 - Decimal.round16 (920 / (1 + 2 / 100)))] ∧
    (5000 - 920 : ℚ) = (1 + 2 / 100) * 4000 ∧
    (5000 : ℚ)
      < (1 + 2 / 100) * (4000 + (1000 - (1000 - Decimal.round16 (920 / (1 + 2 / 100))))) ∧
    (PreRepay exampleEnv 1 (tenRowLoan 1) (.num 5000) exampleGen PrepayTermReduction).map
        (fun res => (res.2.1.val, res.2.2, res.1.Repayments.map (fun rp => rp.TotalAmount.val)))
      = some (920, none, [4080]) := by
  refine ⟨?_, ?_, ?_, ?_, ?_, ?_⟩ <;> decide!

/-- What `Schedule.TryToPay` returns for a row that is not Paid and whose principal
is not a copy of `decimal.Zero`: the amount less the outstanding total, whatever
the amount; the row becomes Paid. -/
theorem TryToPay_fast_path (env : Env) (s : Schedule) (amount : Decimal)
    (hp : s.Principal.eqZeroVar = false) (hs : s.Status ≠ SchedulePaid) :
    (s.TryToPay env amount).2.val
        = amount.val - (s.TotalPayment.val - s.TotalPaymentPaid.val) ∧
      (s.TryToPay env amount).1.Status = SchedulePaid := by
  have hc : amount.Cmp (s.TotalPayment.Sub s.TotalPaymentPaid) ≥ -1 := by
    simp only [Decimal.Cmp]
    split_ifs <;> decide
  simp only [Schedule.TryToPay, hp, Bool.false_eq_true, if_false, if_pos hs, if_pos hc,
    Decimal.val_Sub]
  exact ⟨trivial, trivial⟩

/-- C27, the code at the failing inputs.  `TryToPay(100.00)` on an Unpaid row with
1010.00 outstanding returns -910.00 and marks the row Paid; `NormalRepay` with
500.00 on a loan whose current row has 522.30 outstanding returns remaining =
-22.30 and no error. -/
theorem C27_remaining_funds_go_negative :
    (plainRow.TryToPay exampleEnv (.num 100)).2.val = -910 ∧
    (plainRow.TryToPay exampleEnv (.num 100)).1.Status = SchedulePaid ∧
    (NormalRepay exampleEnv (exampleLoan [dueRow 1 false] []) (.num 500) exampleGen).map
        (fun res => (res.2.1.val, res.2.2, res.1.Schedules.map (fun s => s.Status)))
      = some (-(2230 / 100), none, [SchedulePaid]) := by
  decide!

/-! ## The start index of the schedule loop (C28) -/

/-- The locating loop over rows that are all Paid or overdue, once a first overdue
row has been found: it ends without `break`, and `currentIdx` is 0. -/
theorem locate_without_current : ∀ (rows : List Schedule) (i fo : Int),
    (∀ x ∈ rows, x.Status = SchedulePaid ∨ x.Overdue = true) → fo ≠ idxNotFound →
    locate rows i fo = (fo, 0) := by
  intro rows
  induction rows with
  | nil => intro i fo _ _; rfl
  | cons x rest ih =>
    intro i fo hall hfo
    have hrest : ∀ y ∈ rest, y.Status = SchedulePaid ∨ y.Overdue = true :=
      fun y hy => hall y (List.mem_cons_of_mem _ hy)
    simp only [locate]
    by_cases hp : x.Status = SchedulePaid
    · rw [if_pos hp]; exact ih _ _ hrest hfo
    · rw [if_neg hp]
      have ho : x.Overdue = true := by
        rcases hall x (List.mem_cons_self _ _) with h | h
        · exact absurd h hp
        · exact h
      simp only [ho, Bool.not_true, Bool.false_eq_true, if_false, true_and, if_neg hfo]
      exact ih _ _ hrest hfo

/-- The locating loop skips a prefix of Paid rows. -/
theorem locate_paid_prefix : ∀ (pre rows : List Schedule) (i fo : Int),
    (∀ x ∈ pre, x.Status = SchedulePaid) →
    locate (pre ++ rows) i fo = locate rows (i + pre.length) fo := by
  intro pre
  induction pre with
  | nil => intro rows i fo _; simp
  | cons x pre ih =>
    intro rows i fo hall
    have hx : x.Status = SchedulePaid := hall x (List.mem_cons_self _ _)
    have e : locate (x :: pre ++ rows) i fo = locate (pre ++ rows) (i + 1) fo := by
      rw [List.cons_append]
      simp only [locate]
      rw [if_pos hx]
    rw [e, ih rows (i + 1) fo (fun y hy => hall y (List.mem_cons_of_mem _ hy))]
    congr 1
    simp only [List.length_cons]
    push_cast
    ring

/-- When the first row that is not Paid is overdue, lies behind at least one Paid
row, and no later row is current, `NormalRepay` on a loan without overdue records
applies nothing: every row is left as it was, the whole amount is returned without
an error, and a repayment of `amount - amount` is recorded. -/
theorem NormalRepay_without_current_row (env : Env) (l : LoanExtra) (amount : Decimal)
    (generator : IDGenerator) (pre rest : List Schedule) (s : Schedule)
    (hrec : l.OverdueRecords = []) (hrows : l.Schedules = pre ++ s :: rest)
    (hpre : ∀ x ∈ pre, x.Status = SchedulePaid) (hne : pre ≠ [])
    (hs : s.Status ≠ SchedulePaid) (hso : s.Overdue = true)
    (hrest : ∀ x ∈ rest, x.Status = SchedulePaid ∨ x.Overdue = true) :
    NormalRepay env l amount generator
      = some (l.AddRepayment ((NewRepayment env (generator 0) l.ID).AddAmount
          (amount.Sub amount)), amount, none) := by
  have hlen : 0 < pre.length := List.length_pos.mpr hne
  have hloc : locate l.Schedules 0 idxNotFound = ((pre.length : Int), 0) := by
    rw [hrows, locate_paid_prefix pre (s :: rest) 0 idxNotFound hpre]
    simp only [locate, if_neg hs, hso, Bool.not_true, Bool.false_eq_true, if_false, true_and,
      if_true, zero_add]
    exact locate_without_current rest _ _ hrest (by simp only [idxNotFound]; omega)
  have hl0 : l.Schedules.length ≠ 0 := by rw [hrows]; simp
  have hov : l.HasOverdue = false := by simp [LoanExtra.HasOverdue, hrec]
  have hstart : ((pre.length : Int) = idxNotFound) = False := by
    simp only [idxNotFound, eq_iff_iff, iff_false]; omega
  have hcount : ((0 : Int) - (pre.length : Int) + 1).toNat = 0 := by omega
  simp only [NormalRepay, if_neg hl0, hloc, hov, Bool.false_eq_true, if_false, hstart, hcount,
    payLoop]

/-- C28, the code at the failing input.  No overdue records, row 1 Paid, row 2
Unpaid and overdue with 522.30 outstanding, no current row; `NormalRepay` with
1000.00 leaves row 2 Unpaid, returns the 1000.00 and no error, and records a
repayment of 0: `currentIdx` keeps its initial value 0 and the loop from index 1 to
`currentIdx` is empty.  When the overdue row is the first of the list it is
marked Paid. -/
theorem C28_NormalRepay_skips_overdue_row_behind_paid_row :
    (NormalRepay exampleEnv (exampleLoan [paidRow, dueRow 2 true] []) (.num 1000) exampleGen).map
        (fun res => (res.2.1.val, res.2.2, res.1.Schedules.map (fun s => s.Status),
          res.1.Repayments.map (fun rp => rp.TotalAmount.val)))
      = some (1000, none, [SchedulePaid, ScheduleUnpaid], [0]) ∧
    locate [paidRow, dueRow 2 true] 0 idxNotFound = (1, 0) ∧
    (NormalRepay exampleEnv (exampleLoan [dueRow 1 true, dueRow 2 true] []) (.num 1000)
        exampleGen).map
        (fun res => (res.2.1.val, res.2.2, res.1.Schedules.map (fun s => s.Status),
          res.1.Repayments.map (fun rp => rp.TotalAmount.val)))
      = some (1000 - 52230 / 100, none, [SchedulePaid, ScheduleUnpaid], [52230 / 100]) := by
  refine ⟨?_, ?_, ?_⟩ <;> decide!

end Loancalc
